import Mathlib

/-!
Verification development for the nas_project repository, an
intent-to-configuration compiler for MPLS L3VPN lab topologies.

The repository holds two parallel implementations of the compiler:

* `src/config.py` (class `MPLSConfig`, the one driven by `src/main.py`),
  embedded below in namespace `MplsCfg`;
* `src/network_config_generator.py` (class `NetworkConfigGenerator`),
  embedded in namespace `Ncg` (functional view over an explicit
  iterator-cursor state) and in namespace `NcgHeap` (store-passing view
  that tracks Python object identity, used for the aliasing claim);
* `src/gns3_project.py` (class `Gns3Project`), embedded in namespace `Gns3`.

IPv4 addresses and masks are carried as natural numbers below 2^32 and
rendered to dotted-quad strings exactly at the emission sites (Python
stores the rendered strings directly; delaying the rendering is a pure
data refinement because the stored strings are only ever interpolated
into the output text or parsed back octet-wise).  Python exceptions are
carried in an explicit error type `PyErr` through `Except`.
-/

/-- Substring test over char lists, modelling the Python `pat in s` test on strings. -/
def subOf (pat : List Char) : List Char → Bool
  | [] => pat.isEmpty
  | c :: t => pat.isPrefixOf (c :: t) || subOf pat t

/-- Test for the Ethernet-family marker, Python `"GigabitEthernet" in name`. -/
def hasGig (n : String) : Bool := subOf "GigabitEthernet".data n.data

/-- Lookup in an insertion-ordered Python dict modelled as an association list:
    the first binding of the key wins (dicts built with `dsetD` never hold a key twice). -/
def dget [BEq κ] : List (κ × α) → κ → Option α
  | [], _ => none
  | (k', v) :: t, k => if k' == k then some v else dget t k

/-- Assignment `d[k] = v` on a Python dict: replace the value in place if the key
    is present (keeping its position), otherwise append the new binding. -/
def dsetD [BEq κ] : List (κ × α) → κ → α → List (κ × α)
  | [], k, v => [(k, v)]
  | (k', v') :: t, k, v => if k' == k then (k, v) :: t else (k', v') :: dsetD t k v

/-- Python exceptions that the embedded code can raise. -/
inductive PyErr where
  | stopIteration
  | keyError (k : String)
  | attributeError (a : String)
  | valueError (m : String)
  | indexError
deriving DecidableEq, Repr

/-- An IPv4 CIDR block: base address and prefix length (as written in the intent
    document, e.g. 10.0.0.0/24 is base 167772160, plen 24). -/
structure Cidr where
  base : Nat
  plen : Nat
deriving DecidableEq, Repr

/-- Size in addresses of a CIDR block. -/
def Cidr.size (c : Cidr) : Nat := 2 ^ (32 - c.plen)

/-- Membership of an address in the range covered by a CIDR block. -/
def inPool (c : Cidr) (x : Nat) : Prop := c.base ≤ x ∧ x < c.base + c.size

/-- The k-th element of Python `ipaddress.IPv4Network(c).hosts()`: usable hosts in
    ascending order, excluding network and broadcast addresses, with the special
    cases for /31 and /32 networks. -/
def hostAt (c : Cidr) (k : Nat) : Option Nat :=
  if 31 ≤ c.plen then
    if k < c.size then some (c.base + k) else none
  else
    if k < c.size - 2 then some (c.base + 1 + k) else none

/-- Base address of the k-th element of Python `.subnets(new_prefix=24)`:
    /24 blocks carved from the pool in ascending order (callers check plen ≤ 24,
    mirroring the ValueError raised for a shorter target). -/
def subnetAt (c : Cidr) (k : Nat) : Option Nat :=
  if k < 2 ^ (24 - c.plen) then some (c.base + k * 256) else none

/-- Dotted-quad rendering of a 32-bit address, used where Python renders `str(ip)`. -/
def ipStr (a : Nat) : String :=
  toString (a / 16777216 % 256) ++ "." ++ toString (a / 65536 % 256) ++ "." ++
    toString (a / 256 % 256) ++ "." ++ toString (a % 256)

/-- Rendering of an optional address: Python interpolates the object `None` as
    the text None when the field was never assigned. -/
def ipOptStr : Option Nat → String
  | none => "None"
  | some a => ipStr a

/-- Rendering of an optional integer (Python `None` or an int under an f-string). -/
def optNatStr : Option Nat → String
  | none => "None"
  | some n => toString n

/-- Netmask 255.255.255.255 as a 32-bit value. -/
def maskFull : Nat := 4294967295

/-- Netmask 255.255.255.0 as a 32-bit value. -/
def mask24 : Nat := 4294967040

/-- Netmask of a prefix length, Python `IPv4Network(...).netmask`. -/
def maskOfPlen (p : Nat) : Nat := 4294967296 - 2 ^ (32 - p)

/-- Octet-wise AND of an address and a mask, mirroring the per-octet loop of
    `Router._generate_ce_bgp` (equivalently the network address computed by
    `ipaddress.IPv4Interface` in the other variant). -/
def netOf (ip mask : Nat) : Nat :=
  (ip / 16777216 % 256 &&& mask / 16777216 % 256) * 16777216 +
    (ip / 65536 % 256 &&& mask / 65536 % 256) * 65536 +
    (ip / 256 % 256 &&& mask / 256 % 256) * 256 +
    (ip % 256 &&& mask % 256)

/-- VRF description from the intent document (carried around as a plain dict
    by both variants; only these keys are read). -/
structure Vrf where
  name : String
  rd : String
  rt_export : List String
  rt_import : List String
  associated_interfaces : List String
deriving DecidableEq, Repr

/-- One endpoint of a link of the `subnets` array. -/
structure Endpoint where
  router : String
  interface : String
deriving DecidableEq, Repr

/-- One entry of the `as` array of the intent document. -/
structure AsIntent where
  as_number : Nat
  backbone : Bool := false
  loopback : Option Cidr := none
  physical : Option Cidr := none
deriving DecidableEq, Repr

/-- One entry of an `interfaces` array of the intent document (`ospf_cost` is an
    optional extra key copied along and read only by the NetworkConfigGenerator
    emitter). -/
structure IfaceIntent where
  name : String
  ospf_cost : Option Nat := none
deriving DecidableEq, Repr

/-- One entry of `pe_routers`, `p_routers` or `ce_routers` of the intent document. -/
structure RouterIntent where
  hostname : String
  as_number : Option Nat := none
  vrfs : List Vrf := []
  interfaces : List IfaceIntent := []
  private_network : Option Cidr := none
deriving DecidableEq, Repr

/-- The validated intent document, as both compilers consume it. -/
structure Intent where
  asL : List AsIntent
  pe_routers : List RouterIntent := []
  p_routers : List RouterIntent := []
  ce_routers : List RouterIntent := []
  subnets : List (List Endpoint) := []
deriving DecidableEq, Repr

namespace MplsCfg

/-- Interface state of `config.py` class `Interface`: fields start unassigned
    (`None` / `False`) and are mutated during address assignment. -/
structure Iface where
  name : String
  ip_address : Option Nat := none
  ip_mask : Option Nat := none
  mpls_enabled : Bool := false
  is_internal : Bool := false
deriving DecidableEq, Repr

/-- Autonomous-system state of `config.py` class `AS`: declared pools plus the
    consumption cursor of each address iterator (`loopback_iterator` /
    `physical_iterator` exist exactly when the range was declared). -/
structure ASObj where
  as_number : Nat
  backbone : Bool
  loopbackPool : Option Cidr
  physicalPool : Option Cidr
  loopbackCursor : Nat := 0
  physicalCursor : Nat := 0
deriving DecidableEq, Repr

/-- Router state of `config.py` class `Router`; `asNumber` keys the shared `AS`
    object inside the AS map (the Python back-reference `as_obj`). -/
structure Router where
  hostname : String
  rtype : String
  asNumber : Nat
  interfaces : List (String × Iface)
  vrfs : List Vrf
deriving DecidableEq, Repr

abbrev AsMap := List (Nat × ASObj)
abbrev Routers := List (String × Router)

/-- The state of a fully built `MPLSConfig` object (the `mpls_config`
    back-reference of the Python code is modelled by passing this record to the
    emitters; `_initialize_routers` sets it on every AS that owns a router). -/
structure Model where
  asMap : AsMap
  backboneAsNum : Nat
  routers : Routers
  subnets : List (List Endpoint)
deriving DecidableEq, Repr

/-- Constructor `AS.__init__`: record the declared ranges; a declared range means
    the corresponding iterator attribute exists, with its cursor at 0. -/
def mkAS (a : AsIntent) : ASObj :=
  { as_number := a.as_number, backbone := a.backbone,
    loopbackPool := a.loopback, physicalPool := a.physical }

/-- Method `_initialize_as`: dict comprehension keyed by as_number. -/
def initAs (l : List AsIntent) : AsMap :=
  l.foldl (fun m a => dsetD m a.as_number (mkAS a)) []

/-- Method `_get_backbone_as`: first AS flagged backbone, in insertion order;
    ValueError when none is flagged. -/
def getBackboneNum (m : AsMap) : Except PyErr Nat :=
  match m.find? (fun p => p.2.backbone) with
  | some p => .ok p.1
  | none => .error (.valueError "AS backbone not found")

/-- Interface dict of `Router.__init__`, keyed by interface name in intent order. -/
def mkIfaces (l : List IfaceIntent) : List (String × Iface) :=
  l.foldl (fun m i => dsetD m i.name { name := i.name }) []

/-- Constructor `Router.__init__`. -/
def mkRouter (r : RouterIntent) (asN : Nat) (t : String) : Router :=
  { hostname := r.hostname, rtype := t, asNumber := asN,
    interfaces := mkIfaces r.interfaces, vrfs := r.vrfs }

/-- CE part of `_initialize_routers`: a CE reads its own `as_number` key
    (KeyError when absent) and resolves it in `as_objects` (KeyError when the
    AS was not declared). -/
def addCeRouters (asMap : AsMap) : List RouterIntent → Routers → Except PyErr Routers
  | [], acc => .ok acc
  | r :: t, acc =>
    match r.as_number with
    | none => .error (.keyError "as_number")
    | some n =>
      match dget asMap n with
      | none => .error (.keyError (toString n))
      | some _ => addCeRouters asMap t (dsetD acc r.hostname (mkRouter r n "CE"))

/-- Method `_initialize_routers`: PE routers first, then P, then CE, each wired
    to the backbone AS (PE and P) or to its own declared AS (CE). -/
def initRouters (it : Intent) (asMap : AsMap) (bb : Nat) : Except PyErr Routers :=
  let pes := it.pe_routers.foldl (fun acc r => dsetD acc r.hostname (mkRouter r bb "PE")) []
  let ps := it.p_routers.foldl (fun acc r => dsetD acc r.hostname (mkRouter r bb "P")) pes
  addCeRouters asMap it.ce_routers ps

/-- One `next()` on `loopback_iterator`: the attribute is missing when no range
    was declared; an exhausted iterator raises StopIteration. -/
def drawLoopback (a : ASObj) : Except PyErr (Nat × ASObj) :=
  match a.loopbackPool with
  | none => .error (.attributeError "loopback_iterator")
  | some c =>
    match hostAt c a.loopbackCursor with
    | some ip => .ok (ip, { a with loopbackCursor := a.loopbackCursor + 1 })
    | none => .error .stopIteration

/-- One `next()` on `physical_iterator` (`subnets(new_prefix=24)`): missing
    attribute when no range was declared; ValueError when the pool is narrower
    than /24; StopIteration when the carved subnets are exhausted. -/
def drawPhysical (a : ASObj) : Except PyErr (Nat × ASObj) :=
  match a.physicalPool with
  | none => .error (.attributeError "physical_iterator")
  | some c =>
    if 24 < c.plen then .error (.valueError "new prefix must be longer")
    else
      match subnetAt c a.physicalCursor with
      | some b => .ok (b, { a with physicalCursor := a.physicalCursor + 1 })
      | none => .error .stopIteration

/-- Loopback pass of `_assign_addresses`: for every router in map order, when a
    `Loopback0` interface exists and the AS of the router is the backbone and
    declared a loopback range, draw the next host and assign it with the /32
    host mask. -/
def loopbackPass : Routers → AsMap → Except PyErr (Routers × AsMap)
  | [], am => .ok ([], am)
  | (n, r) :: t, am =>
    match dget r.interfaces "Loopback0" with
    | none => do
      let (t', am') ← loopbackPass t am
      .ok ((n, r) :: t', am')
    | some lo =>
      match dget am r.asNumber with
      | none => .error (.keyError (toString r.asNumber))
      | some a =>
        if a.backbone && a.loopbackPool.isSome then
          match drawLoopback a with
          | .error e => .error e
          | .ok (ip, a') => do
            let lo' := { lo with ip_address := some ip, ip_mask := some maskFull }
            let r' := { r with interfaces := dsetD r.interfaces "Loopback0" lo' }
            let (t', am') ← loopbackPass t (dsetD am r.asNumber a')
            .ok ((n, r') :: t', am')
        else do
          let (t', am') ← loopbackPass t am
          .ok ((n, r) :: t', am')

/-- Lazy `any(self.routers[ep.router].type == "CE" for ep in endpoints)`:
    the generator stops at the first CE, so a dangling router reference after
    that point raises nothing here. -/
def anyCeM (routers : Routers) : List Endpoint → Except PyErr Bool
  | [] => .ok false
  | ep :: t =>
    match dget routers ep.router with
    | none => .error (.keyError ep.router)
    | some r => if r.rtype == "CE" then .ok true else anyCeM routers t

/-- Python `next(ep for ep in endpoints if self.routers[ep.router].type == "CE")`. -/
def firstCeM (routers : Routers) : List Endpoint → Except PyErr Endpoint
  | [] => .error .stopIteration
  | ep :: t =>
    match dget routers ep.router with
    | none => .error (.keyError ep.router)
    | some r => if r.rtype == "CE" then .ok ep else firstCeM routers t

/-- Inner loop of the physical pass: enumerate the endpoints of one link and
    assign `ips[i]` (the i-th host of the freshly drawn /24, so base+1+i while
    i < 254, IndexError beyond) with mask /24; when no endpoint is a CE, also
    raise the mpls and internal flags. -/
def assignEps (isPeCe : Bool) (base : Nat) : List Endpoint → Nat → Routers → Except PyErr Routers
  | [], _, routers => .ok routers
  | ep :: t, i, routers =>
    match dget routers ep.router with
    | none => .error (.keyError ep.router)
    | some r =>
      match dget r.interfaces ep.interface with
      | none => .error (.valueError ("interface " ++ ep.interface ++ " missing on router " ++ ep.router))
      | some ifc =>
        if i < 254 then
          let ifc' := { ifc with
            ip_address := some (base + 1 + i), ip_mask := some mask24,
            mpls_enabled := if isPeCe then ifc.mpls_enabled else true,
            is_internal := if isPeCe then ifc.is_internal else true }
          assignEps isPeCe base t (i + 1)
            (dsetD routers ep.router { r with interfaces := dsetD r.interfaces ep.interface ifc' })
        else .error .indexError

/-- Physical pass of `_assign_addresses`: per link, draw a /24 from the physical
    pool of the AS of the first CE endpoint when the link touches a CE, from the
    backbone pool otherwise, then assign its first hosts in link order. -/
def physPass (bb : Nat) : List (List Endpoint) → AsMap → Routers → Except PyErr (AsMap × Routers)
  | [], am, routers => .ok (am, routers)
  | eps :: rest, am, routers => do
    let isCe ← anyCeM routers eps
    let (base, am') ←
      (if isCe then do
        let ce ← firstCeM routers eps
        match dget routers ce.router with
        | none => .error (.keyError ce.router)
        | some cr =>
          match dget am cr.asNumber with
          | none => .error (.keyError (toString cr.asNumber))
          | some a => do
            let (b, a') ← drawPhysical a
            .ok (b, dsetD am cr.asNumber a')
      else
        match dget am bb with
        | none => .error (.keyError (toString bb))
        | some a => do
          let (b, a') ← drawPhysical a
          .ok (b, dsetD am bb a') : Except PyErr (Nat × AsMap))
    let routers' ← assignEps isCe base eps 0 routers
    physPass bb rest am' routers'

/-- Constructor `MPLSConfig.__init__`: AS map, backbone lookup, router map, then
    the two address-assignment passes. -/
def build (it : Intent) : Except PyErr Model := do
  let am := initAs it.asL
  let bb ← getBackboneNum am
  let rs ← initRouters it am bb
  let (rs1, am1) ← loopbackPass rs am
  let (am2, rs2) ← physPass bb it.subnets am1 rs1
  .ok { asMap := am2, backboneAsNum := bb, routers := rs2, subnets := it.subnets }

/-- Method `Interface.generate_config` (the default arguments `igp="ospf"` and a
    live `as_obj` are always supplied, so the OSPF condition reduces to the
    router type and flag tests). -/
def ifaceCfg (i : Iface) (rtype : String) (asNum : Nat) (vrfName : Option String) : List String :=
  ["interface " ++ i.name] ++
    (match vrfName with
     | some v => [" ip vrf forwarding " ++ v]
     | none => []) ++
    (match i.ip_address with
     | some ip => [" ip address " ++ ipStr ip ++ " " ++ ipOptStr i.ip_mask]
     | none => []) ++
    (if (rtype == "PE" || rtype == "P") && (i.is_internal || i.name == "Loopback0") then
      [" ip ospf 1 area " ++ toString asNum]
     else []) ++
    (if hasGig i.name then [" negotiation auto"] else []) ++
    ["!"]

/-- Lookup of the VRF a named interface belongs to, mirroring the
    `next((vrf for vrf in self.vrfs if iface_name in vrf...), None)` scan. -/
def findVrf (vrfs : List Vrf) (n : String) : Option Vrf :=
  vrfs.find? (fun v => v.associated_interfaces.contains n)

/-- Method `Router._generate_interfaces`. -/
def genInterfaces (r : Router) : List String :=
  r.interfaces.foldl
    (fun acc p =>
      acc ++ ifaceCfg p.2 r.rtype r.asNumber ((findVrf r.vrfs p.1).map (fun v => v.name)))
    []

/-- Method `Router._generate_header` (the timestamp is passed in as `now`). -/
def genHeader (r : Router) (now : String) : List String :=
  ["!",
   "! Last configuration change at " ++ now,
   "!",
   "version 15.2",
   "service timestamps debug datetime msec",
   "service timestamps log datetime msec",
   "!",
   "hostname " ++ r.hostname,
   "!",
   "no aaa new-model",
   "ip cef",
   "!"] ++
    (if r.rtype == "PE" && !r.vrfs.isEmpty then
      r.vrfs.foldl
        (fun acc v =>
          acc ++ ["ip vrf " ++ v.name, " rd " ++ v.rd] ++
            v.rt_export.map (fun rt => " route-target export " ++ rt) ++
            v.rt_import.map (fun rt => " route-target import " ++ rt) ++ ["!"])
        []
     else [])

/-- Method `Router._generate_ospf`: router-id from `Loopback0` with the
    0.0.0.0 fallback for an absent or unaddressed loopback. -/
def genOspf (r : Router) : List String :=
  let routerId :=
    match dget r.interfaces "Loopback0" with
    | some lo =>
      match lo.ip_address with
      | some a => ipStr a
      | none => "0.0.0.0"
    | none => "0.0.0.0"
  ["router ospf 1", " router-id " ++ routerId, " mpls ldp autoconfig", "!"]

/-- Method `Router._get_ce_ip`: scan the links for the one holding the pair of
    this hostname and the first VRF-associated interface; the address of the
    opposite endpoint is returned without checking its router type, and the
    sentinel 0.0.0.0 is returned when no link matches.  The `mpls_config`
    back-reference guard of the source is always satisfied for a built model. -/
def getCeIp (m : Model) (r : Router) (v : Vrf) : Except PyErr String := do
  let ai ←
    (match v.associated_interfaces.head? with
     | some a => .ok a
     | none => .error .indexError : Except PyErr String)
  let rec go : List (List Endpoint) → Except PyErr String
    | [] => .ok "0.0.0.0"
    | sn :: t =>
      if sn.length ≠ 2 then go t
      else
        match sn.find? (fun ep => ep.router == r.hostname && ep.interface == ai) with
        | none => go t
        | some _ =>
          match sn.find? (fun ep => ep.router != r.hostname) with
          | none => go t
          | some ce =>
            match dget m.routers ce.router with
            | none => .error (.keyError ce.router)
            | some cer =>
              match dget cer.interfaces ce.interface with
              | none => .error (.keyError ce.interface)
              | some ci => .ok (ipOptStr ci.ip_address)
  go m.subnets

/-- Method `Router._get_ce_as`: scan the links for any one touching this
    hostname (the VRF and its interface are not consulted); the AS number of
    the first CE-typed opposite router wins, with sentinel 0 otherwise. -/
def getCeAs (m : Model) (r : Router) : Except PyErr Nat := do
  let rec go : List (List Endpoint) → Except PyErr Nat
    | [] => .ok 0
    | sn :: t =>
      if h : sn.length = 2 then
        let n0 := (sn.get ⟨0, by omega⟩).router
        let n1 := (sn.get ⟨1, by omega⟩).router
        if r.hostname ≠ n0 ∧ r.hostname ≠ n1 then go t
        else
          match (if n0 ≠ r.hostname then some n0 else if n1 ≠ r.hostname then some n1 else none) with
          | none => go t
          | some o =>
            match dget m.routers o with
            | none => .error (.keyError o)
            | some orr => if orr.rtype == "CE" then .ok orr.asNumber else go t
      else go t
  go m.subnets

/-- The iBGP neighbor pair loop of `_generate_mpbgp` (every other PE, in map
    order, with its `Loopback0` address). -/
def ibgpLines (selfName : String) (selfAs : Nat) : Routers → Except PyErr (List String)
  | [] => .ok []
  | (_, p) :: t =>
    if p.hostname != selfName then
      match dget p.interfaces "Loopback0" with
      | none => .error (.keyError "Loopback0")
      | some lo => do
        let rest ← ibgpLines selfName selfAs t
        .ok ([" neighbor " ++ ipOptStr lo.ip_address ++ " remote-as " ++ toString selfAs,
              " neighbor " ++ ipOptStr lo.ip_address ++ " update-source Loopback0"] ++ rest)
    else ibgpLines selfName selfAs t

/-- The vpnv4 activate loop of `_generate_mpbgp`. -/
def vpnv4Lines (selfName : String) : Routers → Except PyErr (List String)
  | [] => .ok []
  | (_, p) :: t =>
    if p.hostname != selfName then
      match dget p.interfaces "Loopback0" with
      | none => .error (.keyError "Loopback0")
      | some lo => do
        let rest ← vpnv4Lines selfName t
        .ok (["  neighbor " ++ ipOptStr lo.ip_address ++ " activate",
              "  neighbor " ++ ipOptStr lo.ip_address ++ " send-community extended"] ++ rest)
    else vpnv4Lines selfName t

/-- The per-VRF address-family loop of `_generate_mpbgp` (the first associated
    interface is read eagerly, IndexError on an empty list, before resolving the
    CE neighbor). -/
def vrfAfLines (m : Model) (r : Router) : List Vrf → Except PyErr (List String)
  | [] => .ok []
  | v :: t => do
    let _ ←
      (match v.associated_interfaces.head? with
       | some a => .ok a
       | none => .error .indexError : Except PyErr String)
    let ceAs ← getCeAs m r
    let ceIp ← getCeIp m r v
    let rest ← vrfAfLines m r t
    .ok (["!",
          " address-family ipv4 vrf " ++ v.name,
          "  neighbor " ++ ceIp ++ " remote-as " ++ toString ceAs,
          "  neighbor " ++ ceIp ++ " activate",
          " exit-address-family"] ++ rest)

/-- Method `Router._generate_mpbgp`. -/
def mpbgp (m : Model) (r : Router) (pes : Routers) : Except PyErr (List String) := do
  let lo ←
    (match dget r.interfaces "Loopback0" with
     | some l => .ok l
     | none => .error (.keyError "Loopback0") : Except PyErr Iface)
  let ib ← ibgpLines r.hostname r.asNumber pes
  let act ← vpnv4Lines r.hostname pes
  let vb ← vrfAfLines m r r.vrfs
  .ok (["router bgp " ++ toString r.asNumber,
        " bgp router-id " ++ ipOptStr lo.ip_address] ++
       ib ++ [" !", " address-family vpnv4"] ++ act ++ [" exit-address-family"] ++ vb ++ ["!"])

/-- The opposite-endpoint selection of `_generate_ce_bgp`: the router name is
    the first one unless the second endpoint carries this hostname, and the
    interface is then picked by comparing the first endpoint against that name
    (no router-type test is made). -/
def peSideOf (hostname : String) (e0 e1 : Endpoint) : String × String :=
  let peName := if e1.router == hostname then e0.router else e1.router
  let peIfaceName := if e0.router == peName then e0.interface else e1.interface
  (peName, peIfaceName)

/-- Two-endpoint link touching a hostname, the selection test of the pe_ip scan
    of `_generate_ce_bgp`. -/
def LinkTouch (hostname : String) (sn : List Endpoint) : Prop :=
  ∃ e0 e1, sn = [e0, e1] ∧ (e0.router = hostname ∨ e1.router = hostname)

/-- The pe_ip scan of `_generate_ce_bgp`: first two-endpoint link touching this
    hostname wins (the loop breaks); the opposite endpoint is selected by the
    conditional of the source without a router-type test, and its interface
    address (possibly still unassigned) is taken. -/
def findPeIpGo (routers : Routers) (hostname : String) :
    List (List Endpoint) → Except PyErr (Option (Option Nat))
  | [] => .ok none
  | sn :: t =>
    if h : sn.length = 2 then
      let e0 := sn.get ⟨0, by omega⟩
      let e1 := sn.get ⟨1, by omega⟩
      if e0.router == hostname || e1.router == hostname then
        match dget routers (peSideOf hostname e0 e1).1 with
        | none => .error (.keyError (peSideOf hostname e0 e1).1)
        | some pr =>
          match dget pr.interfaces (peSideOf hostname e0 e1).2 with
          | none => .error (.keyError (peSideOf hostname e0 e1).2)
          | some pif => .ok (some pif.ip_address)
      else findPeIpGo routers hostname t
    else findPeIpGo routers hostname t

def findPeIp (m : Model) (hostname : String) : Except PyErr (Option (Option Nat)) :=
  findPeIpGo m.routers hostname m.subnets

/-- The network-statement loop of `_generate_ce_bgp`: one line per interface
    holding both an address and a mask, carrying the octet-wise network address. -/
def ceNetworkLines (ifaces : List (String × Iface)) : List String :=
  ifaces.foldl
    (fun acc p =>
      match p.2.ip_address, p.2.ip_mask with
      | some ip, some mk => acc ++ [" network " ++ ipStr (netOf ip mk) ++ " mask " ++ ipStr mk]
      | _, _ => acc)
    []

/-- Method `Router._generate_ce_bgp`. -/
def ceBgp (m : Model) (r : Router) : Except PyErr (List String) := do
  let found ← findPeIp m r.hostname
  let peIp :=
    match found with
    | none => "0.0.0.0"
    | some none => "0.0.0.0"
    | some (some a) => ipStr a
  .ok (["router bgp " ++ toString r.asNumber,
        " neighbor " ++ peIp ++ " remote-as " ++ toString m.backboneAsNum] ++
       ceNetworkLines r.interfaces ++ ["!"])

/-- Method `Router._generate_footer`. -/
def genFooter : List String :=
  ["ip forward-protocol nd",
   "!",
   "line con 0",
   " exec-timeout 0 0",
   " privilege level 15",
   " logging synchronous",
   "!",
   "end"]

/-- Method `Router.generate_config_lines`: header, interfaces, OSPF for PE and
    P, MP-BGP for a PE with a non-empty PE map, CE BGP for a CE, footer. -/
def genConfigLines (m : Model) (r : Router) (pes : Routers) (now : String) :
    Except PyErr (List String) := do
  let bgpPart ←
    (if r.rtype == "PE" && !pes.isEmpty then mpbgp m r pes
     else if r.rtype == "CE" then ceBgp m r
     else .ok [] : Except PyErr (List String))
  .ok (genHeader r now ++ genInterfaces r ++
       (if r.rtype == "PE" || r.rtype == "P" then genOspf r else []) ++
       bgpPart ++ genFooter)

/-- Method `MPLSConfig.generate_config` (the join into one text blob is kept as
    the line list). -/
def generateConfig (m : Model) (now : String) (routerName : String) : Except PyErr (List String) :=
  match dget m.routers routerName with
  | none => .error (.keyError routerName)
  | some r =>
    let pes := m.routers.filter (fun p => p.2.rtype == "PE")
    genConfigLines m r pes now

/-- Method `MPLSConfig.generate_all_configs` composed with the constructor: the
    whole compile of `main.py`, from the intent to the per-router line lists.
    Any exception aborts the compile with no output. -/
def compileAll (it : Intent) (now : String) : Except PyErr (List (String × List String)) := do
  let m ← build it
  m.routers.mapM (fun p => do
    let c ← generateConfig m now p.1
    .ok (p.1, c))

end MplsCfg

namespace Ncg

/-- Interface dict of `network_config_generator.py`: the shallow copy `dict(i)`
    of an intent interface entry, later extended in place by `__assign_ips`
    with the keys ip, mask, internal, mpls and ce_test (absent keys are `none`). -/
structure NIface where
  name : String
  ip : Option Nat := none
  mask : Option Nat := none
  internal : Option Bool := none
  mpls : Option Bool := none
  ce_test : Option Bool := none
  ospf_cost : Option Nat := none
deriving DecidableEq, Repr

/-- Router entry of the map built by `__create_router_map` (`asN` is the value
    of the `as` key, which is Python `None` for a CE without a declared
    as_number). -/
structure NRouter where
  rtype : String
  asN : Option Nat
  vrfs : List Vrf
  interfaces : List (String × NIface)
  private_network : Option Cidr := none
deriving DecidableEq, Repr

/-- AS entry of the map built by `__init_as_map`: the backbone flag plus the two
    live iterators (`loopback_iter` is Python `None` when no loopback range was
    declared; each iterator is a pool plus its consumption cursor). -/
structure NAs where
  backbone : Bool
  loopback_iter : Option (Cidr × Nat)
  phys_iter : Cidr × Nat
deriving DecidableEq, Repr

abbrev NAsMap := List (Nat × NAs)
abbrev NRouters := List (String × NRouter)

/-- The state of a constructed `NetworkConfigGenerator` (the intent `subnets`
    array is read again by the emitters, so it is kept in the state). -/
structure NState where
  asMap : NAsMap
  backbone : Nat
  routers : NRouters
  subnets : List (List Endpoint)
deriving DecidableEq, Repr

/-- Iterator attachment of `__init_as_map` for one AS entry: the physical range
    is read unconditionally (KeyError when absent), the loopback iterator is
    created only when a loopback range exists. -/
def mkNAs (a : AsIntent) : Except PyErr NAs :=
  match a.physical with
  | none => .error (.keyError "physical")
  | some p =>
    .ok { backbone := a.backbone,
          loopback_iter := a.loopback.map (fun c => (c, 0)),
          phys_iter := (p, 0) }

/-- Method `__init_as_map`: AS dict keyed by as_number, iterator attachment in
    map order, then the backbone search (`next(...)` raises StopIteration when
    no AS carries the backbone flag). -/
def initAsMap (l : List AsIntent) : Except PyErr (NAsMap × Nat) := do
  let raw := l.foldl (fun m a => dsetD m a.as_number a) []
  let am ← raw.mapM (fun p => do
    let v ← mkNAs p.2
    pure (p.1, v))
  match am.find? (fun p => p.2.backbone) with
  | some p => .ok (am, p.1)
  | none => .error .stopIteration

/-- The shallow copy `dict(i)` of one intent interface entry. -/
def mkNIface (i : IfaceIntent) : NIface :=
  { name := i.name, ospf_cost := i.ospf_cost }

/-- The interfaces dict comprehension of `__create_router_map`. -/
def mkNIfaces (l : List IfaceIntent) : List (String × NIface) :=
  l.foldl (fun m i => dsetD m i.name (mkNIface i)) []

/-- One router entry of `__create_router_map`: CE routers keep their own
    as_number (possibly absent), the others take the backbone; a CE also gets
    its private_network and a synthesized bare `Loopback0` entry. -/
def mkNRouter (r : RouterIntent) (t : String) (bb : Nat) : NRouter :=
  let base : NRouter :=
    { rtype := t,
      asN := if t == "CE" then r.as_number else some bb,
      vrfs := r.vrfs,
      interfaces := mkNIfaces r.interfaces }
  if t == "CE" then
    { base with
      private_network := r.private_network,
      interfaces := dsetD base.interfaces "Loopback0" { name := "Loopback0" } }
  else base

/-- Method `__create_router_map`: PE, then P, then CE, in intent order. -/
def createRouterMap (it : Intent) (bb : Nat) : NRouters :=
  let pes := it.pe_routers.foldl (fun acc r => dsetD acc r.hostname (mkNRouter r "PE" bb)) []
  let ps := it.p_routers.foldl (fun acc r => dsetD acc r.hostname (mkNRouter r "P" bb)) pes
  it.ce_routers.foldl (fun acc r => dsetD acc r.hostname (mkNRouter r "CE" bb)) ps

/-- Loopback branch of `__assign_ips` for one router: when a `Loopback0` entry
    exists and the AS of the router holds a live loopback iterator, draw the
    next host and assign it with the /32 mask and internal flag; otherwise a CE
    falls back to its private network (network address, its own mask, flagged
    ce_test); other routers are left untouched. -/
def ngLoopbackStep (am : NAsMap) (r : NRouter) : Except PyErr (NRouter × NAsMap) :=
  match dget r.interfaces "Loopback0" with
  | none =>
    if r.rtype == "CE" then .error (.attributeError "update") else .ok (r, am)
  | some lo =>
    match r.asN with
    | none => .error (.keyError "None")
    | some asn =>
      match dget am asn with
      | none => .error (.keyError (toString asn))
      | some a =>
        match a.loopback_iter with
        | some (pool, k) =>
          match hostAt pool k with
          | none => .error .stopIteration
          | some ip =>
            let lo' := { lo with ip := some ip, mask := some maskFull, internal := some true }
            .ok ({ r with interfaces := dsetD r.interfaces "Loopback0" lo' },
                 dsetD am asn { a with loopback_iter := some (pool, k + 1) })
        | none =>
          if r.rtype == "CE" then
            match r.private_network with
            | none => .error (.valueError "private_network")
            | some net =>
              let lo' := { lo with
                ip := some net.base, mask := some (maskOfPlen net.plen),
                internal := some false, ce_test := some true }
              .ok ({ r with interfaces := dsetD r.interfaces "Loopback0" lo' }, am)
          else .ok (r, am)

/-- The loopback loop of `__assign_ips`, over the router map in order. -/
def ngLoopbackPass : NRouters → NAsMap → Except PyErr (NRouters × NAsMap)
  | [], am => .ok ([], am)
  | (n, r) :: t, am => do
    let (r', am') ← ngLoopbackStep am r
    let (t', am'') ← ngLoopbackPass t am'
    .ok ((n, r') :: t', am'')

/-- Lazy `any(...)` CE test over the endpoints of one link. -/
def ngAnyCeM (routers : NRouters) : List Endpoint → Except PyErr Bool
  | [] => .ok false
  | ep :: t =>
    match dget routers ep.router with
    | none => .error (.keyError ep.router)
    | some r => if r.rtype == "CE" then .ok true else ngAnyCeM routers t

/-- Python `next(ep for ep in link if ... == "CE")`. -/
def ngFirstCeM (routers : NRouters) : List Endpoint → Except PyErr Endpoint
  | [] => .error .stopIteration
  | ep :: t =>
    match dget routers ep.router with
    | none => .error (.keyError ep.router)
    | some r => if r.rtype == "CE" then .ok ep else ngFirstCeM routers t

/-- One `next()` on a `phys_iter`. -/
def ngDrawPhys (a : NAs) : Except PyErr (Nat × NAs) :=
  let (pool, k) := a.phys_iter
  if 24 < pool.plen then .error (.valueError "new prefix must be longer")
  else
    match subnetAt pool k with
    | some b => .ok (b, { a with phys_iter := (pool, k + 1) })
    | none => .error .stopIteration

/-- The endpoint loop of the physical part of `__assign_ips`: the dict update
    writes the host address, the /24 mask, and the per-endpoint mpls and
    internal flags, true exactly when that endpoint router is not a CE. -/
def ngAssignEps (base : Nat) : List Endpoint → Nat → NRouters → Except PyErr NRouters
  | [], _, routers => .ok routers
  | ep :: t, i, routers =>
    match dget routers ep.router with
    | none => .error (.keyError ep.router)
    | some r =>
      match dget r.interfaces ep.interface with
      | none => .error (.keyError ep.interface)
      | some ifc =>
        if i < 254 then
          let ifc' := { ifc with
            ip := some (base + 1 + i), mask := some mask24,
            mpls := some (r.rtype != "CE"), internal := some (r.rtype != "CE") }
          ngAssignEps base t (i + 1)
            (dsetD routers ep.router { r with interfaces := dsetD r.interfaces ep.interface ifc' })
        else .error .indexError

/-- The physical loop of `__assign_ips` over the intent subnets. -/
def ngPhysPass (bb : Nat) : List (List Endpoint) → NAsMap → NRouters → Except PyErr (NAsMap × NRouters)
  | [], am, routers => .ok (am, routers)
  | eps :: rest, am, routers => do
    let isCe ← ngAnyCeM routers eps
    let (base, am') ←
      (if isCe then do
        let ce ← ngFirstCeM routers eps
        match dget routers ce.router with
        | none => .error (.keyError ce.router)
        | some cr =>
          match cr.asN with
          | none => .error (.keyError "None")
          | some asn =>
            match dget am asn with
            | none => .error (.keyError (toString asn))
            | some a => do
              let (b, a') ← ngDrawPhys a
              .ok (b, dsetD am asn a')
      else
        match dget am bb with
        | none => .error (.keyError (toString bb))
        | some a => do
          let (b, a') ← ngDrawPhys a
          .ok (b, dsetD am bb a') : Except PyErr (Nat × NAsMap))
    let routers' ← ngAssignEps base eps 0 routers
    ngPhysPass bb rest am' routers'

/-- Constructor `NetworkConfigGenerator.__init__`: AS map with iterators,
    router map, then `__assign_ips`. -/
def ngBuild (it : Intent) : Except PyErr NState := do
  let (am, bb) ← initAsMap it.asL
  let rm := createRouterMap it bb
  let (rm1, am1) ← ngLoopbackPass rm am
  let (am2, rm2) ← ngPhysPass bb it.subnets am1 rm1
  .ok { asMap := am2, backbone := bb, routers := rm2, subnets := it.subnets }

/-- Inner endpoint scan of `__find_ce_peer` on one matching link: the first
    endpoint of another router whose type is CE yields its interface address
    and its AS number; falling off the end resumes the outer link scan. -/
def findCeInLink (routers : NRouters) (pe : String) : List Endpoint → Except PyErr (Option (String × Option Nat))
  | [] => .ok none
  | ep :: es =>
    if ep.router != pe then
      match dget routers ep.router with
      | none => .error (.keyError ep.router)
      | some r =>
        if r.rtype == "CE" then
          match dget r.interfaces ep.interface with
          | none => .error (.keyError ep.interface)
          | some i =>
            match i.ip with
            | none => .error (.keyError "ip")
            | some a => .ok (some (ipStr a, r.asN))
        else findCeInLink routers pe es
    else findCeInLink routers pe es

/-- Outer link scan of `__find_ce_peer`. -/
def findCePeerGo (routers : NRouters) (pe iface : String) :
    List (List Endpoint) → Except PyErr (String × Option Nat)
  | [] => .ok ("0.0.0.0", some 0)
  | link :: t =>
    if link.any (fun e => e.router == pe && e.interface == iface) then do
      let found ← findCeInLink routers pe link
      match found with
      | some v => .ok v
      | none => findCePeerGo routers pe iface t
    else findCePeerGo routers pe iface t

/-- Method `__find_ce_peer`: scan the links for one holding the given
    router/interface pair, return the CE found behind it, or the sentinel pair
    0.0.0.0 and 0 when every candidate fails. -/
def findCePeer (st : NState) (pe iface : String) : Except PyErr (String × Option Nat) :=
  findCePeerGo st.routers pe iface st.subnets

/-- Inner endpoint scan of the PE search of `__generate_ce_bgp` (the loop keeps
    overwriting `pe_ip`, so the last PE endpoint seen wins). -/
def peIpScanLink (routers : NRouters) (name : String) (acc : String) : List Endpoint → Except PyErr String
  | [] => .ok acc
  | ep :: es =>
    if ep.router != name then
      match dget routers ep.router with
      | none => .error (.keyError ep.router)
      | some r =>
        if r.rtype == "PE" then
          match dget r.interfaces ep.interface with
          | none => .error (.keyError ep.interface)
          | some i =>
            match i.ip with
            | none => .error (.keyError "ip")
            | some a => peIpScanLink routers name (ipStr a) es
        else peIpScanLink routers name acc es
    else peIpScanLink routers name acc es

/-- Outer link scan of the PE search of `__generate_ce_bgp`: every link touching
    the CE is visited (there is no break), each PE endpoint overwriting the
    previous candidate. -/
def peIpScan (routers : NRouters) (name : String) (acc : String) : List (List Endpoint) → Except PyErr String
  | [] => .ok acc
  | link :: t =>
    if link.any (fun e => e.router == name) then do
      let acc' ← peIpScanLink routers name acc link
      peIpScan routers name acc' t
    else peIpScan routers name acc t

/-- Network statement loop of `__generate_ce_bgp`: the network address computed
    by `ipaddress.IPv4Interface` is the bitwise AND of address and mask. -/
def ngNetworkLines : List (String × NIface) → Except PyErr (List String)
  | [] => .ok []
  | (_, i) :: t =>
    match i.ip with
    | none => ngNetworkLines t
    | some a =>
      match i.mask with
      | none => .error (.keyError "mask")
      | some mk => do
        let rest ← ngNetworkLines t
        .ok ((" network " ++ ipStr (a &&& mk) ++ " mask " ++ ipStr mk) :: rest)

/-- Method `__generate_ce_bgp`. -/
def ngCeBgp (st : NState) (name : String) : Except PyErr (List String) := do
  let ce ←
    (match dget st.routers name with
     | none => .error (.keyError name)
     | some r => .ok r : Except PyErr NRouter)
  let peIp ← peIpScan st.routers name "0.0.0.0" st.subnets
  let nets ← ngNetworkLines ce.interfaces
  .ok (["router bgp " ++ optNatStr ce.asN,
        " neighbor " ++ peIp ++ " remote-as " ++ toString st.backbone] ++ nets ++ ["!"])

/-- The iBGP loop of `__generate_mpbgp` (every other PE in map order). -/
def ngIbgpLines (selfName selfAsStr : String) : NRouters → Except PyErr (List String)
  | [] => .ok []
  | (pn, p) :: t =>
    if p.rtype == "PE" && pn != selfName then
      match dget p.interfaces "Loopback0" with
      | none => .error (.keyError "Loopback0")
      | some l =>
        match l.ip with
        | none => .error (.keyError "ip")
        | some a => do
          let rest ← ngIbgpLines selfName selfAsStr t
          .ok ([" neighbor " ++ ipStr a ++ " remote-as " ++ selfAsStr,
                " neighbor " ++ ipStr a ++ " update-source Loopback0"] ++ rest)
    else ngIbgpLines selfName selfAsStr t

/-- The vpnv4 activate loop of `__generate_mpbgp`. -/
def ngVpnv4Lines (selfName : String) : NRouters → Except PyErr (List String)
  | [] => .ok []
  | (pn, p) :: t =>
    if p.rtype == "PE" && pn != selfName then
      match dget p.interfaces "Loopback0" with
      | none => .error (.keyError "Loopback0")
      | some l =>
        match l.ip with
        | none => .error (.keyError "ip")
        | some a => do
          let rest ← ngVpnv4Lines selfName t
          .ok (["  neighbor " ++ ipStr a ++ " activate",
                "  neighbor " ++ ipStr a ++ " send-community extended"] ++ rest)
    else ngVpnv4Lines selfName t

/-- The per-VRF loop of `__generate_mpbgp`, resolving each CE neighbor through
    `__find_ce_peer` on the first associated interface. -/
def ngVrfBlocks (st : NState) (name : String) : List Vrf → Except PyErr (List String)
  | [] => .ok []
  | v :: t => do
    let ai ←
      (match v.associated_interfaces.head? with
       | some a => .ok a
       | none => .error .indexError : Except PyErr String)
    let (ceIp, ceAs) ← findCePeer st name ai
    let rest ← ngVrfBlocks st name t
    .ok (["!",
          " address-family ipv4 vrf " ++ v.name,
          "  neighbor " ++ ceIp ++ " remote-as " ++ optNatStr ceAs,
          "  neighbor " ++ ceIp ++ " activate",
          " exit-address-family"] ++ rest)

/-- Method `__generate_mpbgp`. -/
def ngMpbgp (st : NState) (name : String) : Except PyErr (List String) := do
  let r ←
    (match dget st.routers name with
     | none => .error (.keyError name)
     | some r => .ok r : Except PyErr NRouter)
  let rid ←
    (match dget r.interfaces "Loopback0" with
     | none => .error (.keyError "Loopback0")
     | some l =>
       match l.ip with
       | none => .error (.keyError "ip")
       | some a => .ok a : Except PyErr Nat)
  let ib ← ngIbgpLines name (optNatStr r.asN) st.routers
  let act ← ngVpnv4Lines name st.routers
  let vb ← ngVrfBlocks st name r.vrfs
  .ok (["router bgp " ++ optNatStr r.asN, " bgp router-id " ++ ipStr rid] ++
       ib ++ [" !", " address-family vpnv4"] ++ act ++ [" exit-address-family"] ++ vb ++ ["!"])

/-- Method `__build_interface_config` (the debug print is dropped; reading the
    ip key drags in the mask key, KeyError when it is absent). -/
def ngIfaceCfg (i : NIface) (asN : Option Nat) (vrfName : Option String) : Except PyErr (List String) := do
  let ipl ←
    (match i.ip with
     | none => .ok []
     | some a =>
       match i.mask with
       | none => .error (.keyError "mask")
       | some mk => .ok [" ip address " ++ ipStr a ++ " " ++ ipStr mk] : Except PyErr (List String))
  .ok (["interface " ++ i.name] ++
       (match vrfName with
        | some v => [" ip vrf forwarding " ++ v]
        | none => []) ++
       ipl ++
       (if (i.internal == some true || i.name == "Loopback0") &&
           !(i.ce_test == some true) && vrfName.isNone then
         [" ip ospf 1 area " ++ optNatStr asN] ++
           (match i.ospf_cost with
            | some c => [" ip ospf cost " ++ toString c]
            | none => [])
        else []) ++
       (if hasGig i.name then [" negotiation auto"] else []) ++
       ["!"])

/-- Interface section loop of `generate_router_config`. -/
def ngIfaceSections (r : NRouter) : List (String × NIface) → Except PyErr (List String)
  | [] => .ok []
  | (n, i) :: t => do
    let vrf := (r.vrfs.find? (fun v => v.associated_interfaces.contains n)).map (fun v => v.name)
    let sec ← ngIfaceCfg i r.asN vrf
    let rest ← ngIfaceSections r t
    .ok (sec ++ rest)

/-- Method `generate_router_config` (the join into one text blob is kept as the
    line list; the timestamp is passed in as `now`). -/
def ngRouterConfig (st : NState) (now : String) (name : String) : Except PyErr (List String) := do
  let r ←
    (match dget st.routers name with
     | none => .error (.keyError name)
     | some r => .ok r : Except PyErr NRouter)
  let hdr :=
    ["!", "!", "!", "! Last configuration change at " ++ now, "!", "version 15.2",
     "service timestamps debug datetime msec", "service timestamps log datetime msec",
     "!", "hostname " ++ name, "!", "no aaa new-model", "ip cef", "!"]
  let vrfHdr :=
    if r.rtype == "PE" then
      r.vrfs.foldl
        (fun acc v =>
          acc ++ ["ip vrf " ++ v.name, " rd " ++ v.rd] ++
            v.rt_export.map (fun e => " route-target export " ++ e) ++
            v.rt_import.map (fun i => " route-target import " ++ i) ++ ["!"])
        []
    else []
  let ifaces ← ngIfaceSections r r.interfaces
  let ospf ←
    (if r.rtype == "PE" || r.rtype == "P" then
      match dget r.interfaces "Loopback0" with
      | none => .error (.keyError "Loopback0")
      | some lo =>
        match lo.ip with
        | none => .error (.keyError "ip")
        | some a => .ok ["router ospf 1", " router-id " ++ ipStr a, " mpls ldp autoconfig", "!"]
     else .ok [] : Except PyErr (List String))
  let bgp ←
    (if r.rtype == "PE" then ngMpbgp st name
     else if r.rtype == "CE" then ngCeBgp st name
     else .ok [] : Except PyErr (List String))
  .ok (hdr ++ vrfHdr ++ ifaces ++ ospf ++ bgp ++
       ["ip forward-protocol nd", "!", "line con 0", " exec-timeout 0 0",
        " privilege level 15", " logging synchronous", "!", "end"])

end Ncg

namespace Gns3

/-- Abstract file system: configuration file path to content.  The directory
    scan `_get_existing_router_configs` is the read-only collaborator that
    produces the hostname-to-path map passed in as `existing`. -/
abbrev Fs := List (String × String)

/-- Method `Gns3Project.write_router_config` over the abstract file system:
    the hostname resolution and the missing-router check happen before the
    write loop, so the ValueError leaves the file system untouched (the
    per-file write itself is abstracted as always succeeding; its IOError
    path is outside the compiler core). -/
def writeRouterConfig (fs : Fs) (existing : List (String × String))
    (routerConfigs : List (String × String)) : Fs × Except PyErr Unit :=
  let missing := (routerConfigs.filter (fun p => (dget existing p.1).isNone)).map (fun p => p.1)
  if missing.isEmpty then
    (routerConfigs.foldl
      (fun acc p =>
        match dget existing p.1 with
        | some path => dsetD acc path p.2
        | none => acc)
      fs, .ok ())
  else
    (fs, .error (.valueError
      ("The following routers are missing in the project: " ++ String.intercalate ", " missing)))

end Gns3

namespace NcgHeap

/-!
Store-passing view of the `NetworkConfigGenerator` constructor, keeping the
Python object identity of the dicts that the caller shares with the generator:
the entries of `intent["as"]` stay live references that `__init_as_map`
mutates in place, while `__create_router_map` copies every interface dict with
`dict(i)` before `__assign_ips` writes addresses into the copies.
-/

abbrev Ref := Nat

/-- Values stored in a heap dict (strings, ints, bools, Python None, a live
    address iterator, and the nested ipv4_ranges dict, which is never mutated
    and therefore kept inline). -/
inductive HVal where
  | s (v : String)
  | n (v : Nat)
  | b (v : Bool)
  | nil
  | it (pool : Cidr) (k : Nat)
  | ranges (lo : Option Cidr) (ph : Option Cidr)
deriving DecidableEq, Repr

abbrev HDict := List (String × HVal)

/-- The heap: reference to dict contents. -/
abbrev Heap := List (Ref × HDict)

def hget (h : Heap) (r : Ref) : Option HDict := dget h r

def hset (h : Heap) (r : Ref) (d : HDict) : Heap := dsetD h r d

/-- One router entry of the intent, with its interface dicts as heap references. -/
structure HRouterIntent where
  hostname : String
  asN : Option Nat
  vrfs : List Vrf := []
  ifaceRefs : List Ref := []
  private_network : Option Cidr := none
deriving DecidableEq, Repr

/-- The intent document with the caller-owned dicts as heap references. -/
structure HIntent where
  asRefs : List Ref
  peL : List HRouterIntent := []
  pL : List HRouterIntent := []
  ceL : List HRouterIntent := []
  subnets : List (List Endpoint) := []
deriving DecidableEq, Repr

def readAsNum (d : HDict) : Except PyErr Nat :=
  match dget d "as_number" with
  | some (.n v) => .ok v
  | _ => .error (.keyError "as_number")

def readRanges (d : HDict) : Except PyErr (Option Cidr × Option Cidr) :=
  match dget d "ipv4_ranges" with
  | some (.ranges lo ph) => .ok (lo, ph)
  | _ => .error (.keyError "ipv4_ranges")

/-- Python `a.get("backbone", False)` under a truth test. -/
def readBackbone (d : HDict) : Bool :=
  match dget d "backbone" with
  | some (.b v) => v
  | _ => false

/-- The dict comprehension of `__init_as_map`, keying the shared as dicts by
    their as_number (no copy: the values stay the caller-owned references). -/
def buildRawMap (h : Heap) : List Ref → List (Nat × Ref) → Except PyErr (List (Nat × Ref))
  | [], acc => .ok acc
  | r :: t, acc =>
    match hget h r with
    | none => .error (.keyError "dangling")
    | some d => do
      let n ← readAsNum d
      buildRawMap h t (dsetD acc n r)

/-- The iterator-attachment loop of `__init_as_map`: each shared as dict gains
    a loopback_iter entry (an iterator, or None without a loopback range) and a
    phys_iter entry (KeyError when the physical range is absent, after the
    loopback_iter entry was already written). -/
def attachIters : List (Nat × Ref) → Heap → Except PyErr Heap
  | [], h => .ok h
  | (_, r) :: t, h =>
    match hget h r with
    | none => .error (.keyError "dangling")
    | some d => do
      let (lo, ph) ← readRanges d
      let d1 := dsetD d "loopback_iter" (match lo with | some c => .it c 0 | none => .nil)
      match ph with
      | none => .error (.keyError "physical")
      | some c =>
        attachIters t (hset h r (dsetD d1 "phys_iter" (.it c 0)))

/-- Backbone search of `__init_as_map`. -/
def findBackbone (h : Heap) : List (Nat × Ref) → Except PyErr Nat
  | [] => .error .stopIteration
  | (n, r) :: t =>
    match hget h r with
    | none => .error (.keyError "dangling")
    | some d => if readBackbone d then .ok n else findBackbone h t

/-- The interfaces comprehension of `__create_router_map`: every interface dict
    is read from the heap and copied by value (`dict(i)`), keyed by its name. -/
def copyIfaces (h : Heap) : List Ref → List (String × HDict) → Except PyErr (List (String × HDict))
  | [], acc => .ok acc
  | r :: t, acc =>
    match hget h r with
    | none => .error (.keyError "dangling")
    | some d =>
      match dget d "name" with
      | some (.s nm) => copyIfaces h t (dsetD acc nm d)
      | _ => .error (.keyError "name")

/-- One entry of the router map, holding the copied interface dicts by value. -/
structure HNRouter where
  rtype : String
  asN : Option Nat
  vrfs : List Vrf
  interfaces : List (String × HDict)
  private_network : Option Cidr := none
deriving DecidableEq, Repr

abbrev HRouters := List (String × HNRouter)

def mkHRouter (h : Heap) (r : HRouterIntent) (t : String) (bb : Nat) : Except PyErr HNRouter := do
  let ifs ← copyIfaces h r.ifaceRefs []
  let base : HNRouter :=
    { rtype := t, asN := if t == "CE" then r.asN else some bb, vrfs := r.vrfs, interfaces := ifs }
  if t == "CE" then
    .ok { base with
      private_network := r.private_network,
      interfaces := dsetD base.interfaces "Loopback0" [("name", .s "Loopback0")] }
  else .ok base

/-- Router-kind loop of `__create_router_map`. -/
def addHRouters (h : Heap) (t : String) (bb : Nat) : List HRouterIntent → HRouters → Except PyErr HRouters
  | [], acc => .ok acc
  | r :: rest, acc => do
    let hr ← mkHRouter h r t bb
    addHRouters h t bb rest (dsetD acc r.hostname hr)

/-- Method `__create_router_map` over the heap: PE, then P, then CE. -/
def createRouterMap (h : Heap) (it : HIntent) (bb : Nat) : Except PyErr HRouters := do
  let pes ← addHRouters h "PE" bb it.peL []
  let ps ← addHRouters h "P" bb it.pL pes
  addHRouters h "CE" bb it.ceL ps

/-- Loopback branch of `__assign_ips` for one router, reading and writing the
    live iterator through the shared as dict and updating the copied interface
    dict in the router map. -/
def hLoopbackStep (am : List (Nat × Ref)) (h : Heap) (r : HNRouter) : Except PyErr (HNRouter × Heap) :=
  match dget r.interfaces "Loopback0" with
  | none =>
    if r.rtype == "CE" then .error (.attributeError "update") else .ok (r, h)
  | some lo =>
    match r.asN with
    | none => .error (.keyError "None")
    | some asn =>
      match dget am asn with
      | none => .error (.keyError (toString asn))
      | some ref =>
        match hget h ref with
        | none => .error (.keyError "dangling")
        | some d =>
          match dget d "loopback_iter" with
          | some (.it pool k) =>
            match hostAt pool k with
            | none => .error .stopIteration
            | some ip =>
              let lo' := dsetD (dsetD (dsetD lo "ip" (.s (ipStr ip))) "mask" (.s "255.255.255.255"))
                "internal" (.b true)
              .ok ({ r with interfaces := dsetD r.interfaces "Loopback0" lo' },
                   hset h ref (dsetD d "loopback_iter" (.it pool (k + 1))))
          | _ =>
            if r.rtype == "CE" then
              match r.private_network with
              | none => .error (.valueError "private_network")
              | some net =>
                let lo' := dsetD (dsetD (dsetD (dsetD lo "ip" (.s (ipStr net.base)))
                  "mask" (.s (ipStr (maskOfPlen net.plen)))) "internal" (.b false)) "ce_test" (.b true)
                .ok ({ r with interfaces := dsetD r.interfaces "Loopback0" lo' }, h)
            else .ok (r, h)

/-- The loopback loop of `__assign_ips` over the heap. -/
def hLoopbackPass (am : List (Nat × Ref)) : HRouters → Heap → Except PyErr (HRouters × Heap)
  | [], h => .ok ([], h)
  | (n, r) :: t, h => do
    let (r', h') ← hLoopbackStep am h r
    let (t', h'') ← hLoopbackPass am t h'
    .ok ((n, r') :: t', h'')

def hAnyCeM (routers : HRouters) : List Endpoint → Except PyErr Bool
  | [] => .ok false
  | ep :: t =>
    match dget routers ep.router with
    | none => .error (.keyError ep.router)
    | some r => if r.rtype == "CE" then .ok true else hAnyCeM routers t

def hFirstCeM (routers : HRouters) : List Endpoint → Except PyErr Endpoint
  | [] => .error .stopIteration
  | ep :: t =>
    match dget routers ep.router with
    | none => .error (.keyError ep.router)
    | some r => if r.rtype == "CE" then .ok ep else hFirstCeM routers t

/-- One `next()` on the phys_iter entry of a shared as dict. -/
def hDrawPhys (h : Heap) (ref : Ref) : Except PyErr (Nat × Heap) :=
  match hget h ref with
  | none => .error (.keyError "dangling")
  | some d =>
    match dget d "phys_iter" with
    | some (.it pool k) =>
      if 24 < pool.plen then .error (.valueError "new prefix must be longer")
      else
        match subnetAt pool k with
        | some b => .ok (b, hset h ref (dsetD d "phys_iter" (.it pool (k + 1))))
        | none => .error .stopIteration
    | _ => .error (.keyError "phys_iter")

/-- The endpoint loop of the physical part of `__assign_ips`, writing into the
    copied interface dicts. -/
def hAssignEps (base : Nat) : List Endpoint → Nat → HRouters → Except PyErr HRouters
  | [], _, routers => .ok routers
  | ep :: t, i, routers =>
    match dget routers ep.router with
    | none => .error (.keyError ep.router)
    | some r =>
      match dget r.interfaces ep.interface with
      | none => .error (.keyError ep.interface)
      | some ifc =>
        if i < 254 then
          let notCe := r.rtype != "CE"
          let ifc' := dsetD (dsetD (dsetD (dsetD ifc "ip" (.s (ipStr (base + 1 + i))))
            "mask" (.s "255.255.255.0")) "mpls" (.b notCe)) "internal" (.b notCe)
          hAssignEps base t (i + 1)
            (dsetD routers ep.router { r with interfaces := dsetD r.interfaces ep.interface ifc' })
        else .error .indexError

/-- The physical loop of `__assign_ips` over the heap. -/
def hPhysPass (am : List (Nat × Ref)) (bb : Nat) :
    List (List Endpoint) → Heap → HRouters → Except PyErr (Heap × HRouters)
  | [], h, routers => .ok (h, routers)
  | eps :: rest, h, routers => do
    let isCe ← hAnyCeM routers eps
    let (base, h') ←
      (if isCe then do
        let ce ← hFirstCeM routers eps
        match dget routers ce.router with
        | none => .error (.keyError ce.router)
        | some cr =>
          match cr.asN with
          | none => .error (.keyError "None")
          | some asn =>
            match dget am asn with
            | none => .error (.keyError (toString asn))
            | some ref => hDrawPhys h ref
      else
        match dget am bb with
        | none => .error (.keyError (toString bb))
        | some ref => hDrawPhys h ref : Except PyErr (Nat × Heap))
    let routers' ← hAssignEps base eps 0 routers
    hPhysPass am bb rest h' routers'

/-- The constructed state (besides the mutated heap). -/
structure HState where
  asMap : List (Nat × Ref)
  backbone : Nat
  routers : HRouters
deriving DecidableEq, Repr

/-- Constructor `NetworkConfigGenerator.__init__` over the heap: `__init_as_map`
    (mutating the shared as dicts), `__create_router_map` (copying the interface
    dicts), then `__assign_ips` (mutating only the as dicts and the copies). -/
def construct (h : Heap) (it : HIntent) : Except PyErr (Heap × HState) := do
  let raw ← buildRawMap h it.asRefs []
  let h1 ← attachIters raw h
  let bb ← findBackbone h1 raw
  let rm ← createRouterMap h1 it bb
  let (rm1, h2) ← hLoopbackPass raw rm h1
  let (h3, rm2) ← hPhysPass raw bb it.subnets h2 rm1
  .ok (h3, { asMap := raw, backbone := bb, routers := rm2 })

end NcgHeap

/-! Lookup helpers and the flag specification used by the statements below. -/

/-- Interface lookup in a built MPLSConfig model. -/
def MplsCfg.ifaceOf (m : MplsCfg.Model) (rn i : String) : Option MplsCfg.Iface :=
  (dget m.routers rn).bind fun r => dget r.interfaces i

/-- Interface lookup in a constructed NetworkConfigGenerator state. -/
def Ncg.nifaceOf (st : Ncg.NState) (rn i : String) : Option Ncg.NIface :=
  (dget st.routers rn).bind fun r => dget r.interfaces i

/-- The per-endpoint flag outcome of the NetworkConfigGenerator physical pass:
    the endpoint interface exists and carries internal and mpls flags that are
    true exactly when the endpoint router is not a CE. -/
def Ncg.FlagOk (routers : Ncg.NRouters) (ep : Endpoint) : Prop :=
  ∃ r i, dget routers ep.router = some r ∧ dget r.interfaces ep.interface = some i ∧
    i.internal = some (r.rtype != "CE") ∧ i.mpls = some (r.rtype != "CE")

/-! Concrete intents used by the counterexamples and witnesses. -/

/-- Backbone AS 65000 with loopback pool 10.0.0.0/24 and physical pool 10.1.0.0/16. -/
def bbAs : AsIntent :=
  { as_number := 65000, backbone := true,
    loopback := some ⟨167772160, 24⟩,
    physical := some ⟨167837696, 16⟩ }

/-- Customer AS 100 with physical pool 192.168.0.0/24 and no loopback pool. -/
def asC100 : AsIntent :=
  { as_number := 100,
    physical := some ⟨3232235520, 24⟩ }

/-- Fixture A: one PE and one CE joined by a single link. -/
def fxA : Intent :=
  { asL := [bbAs, asC100],
    pe_routers := [{ hostname := "PE1",
                     interfaces := [⟨"GigabitEthernet1/0", none⟩, ⟨"Loopback0", none⟩] }],
    ce_routers := [{ hostname := "CE1", as_number := some 100,
                     interfaces := [⟨"GigabitEthernet1/0", none⟩] }],
    subnets := [[⟨"PE1", "GigabitEthernet1/0"⟩, ⟨"CE1", "GigabitEthernet1/0"⟩]] }

/-- Customer AS 100 variant that declares its own loopback pool 10.2.0.0/24. -/
def asC100L : AsIntent :=
  { as_number := 100,
    loopback := some ⟨167903232, 24⟩,
    physical := some ⟨3232235520, 24⟩ }

/-- Fixture B: a CE whose own, non-backbone AS declares a loopback pool. -/
def fxB : Intent :=
  { asL := [bbAs, asC100L],
    ce_routers := [{ hostname := "CE2", as_number := some 100,
                     interfaces := [⟨"Loopback0", none⟩] }] }

/-- Customer AS 999 with physical pool 172.20.0.0/16. -/
def asC999 : AsIntent :=
  { as_number := 999,
    physical := some ⟨2887057408, 16⟩ }

/-- The VRF of fixture C, associated with GigabitEthernet0/1 of PE1. -/
def vrfC : Vrf :=
  { name := "CUST", rd := "65000:1", rt_export := ["65000:1"], rt_import := ["65000:1"],
    associated_interfaces := ["GigabitEthernet0/1"] }

/-- Fixture C: PE1 has a CE on GigabitEthernet0/0 (first link) and a P router on
    the VRF-associated GigabitEthernet0/1 (second link). -/
def fxC : Intent :=
  { asL := [bbAs, asC999],
    pe_routers := [{ hostname := "PE1", vrfs := [vrfC],
                     interfaces := [⟨"GigabitEthernet0/0", none⟩, ⟨"GigabitEthernet0/1", none⟩] }],
    p_routers := [{ hostname := "P1",
                    interfaces := [⟨"GigabitEthernet0/1", none⟩] }],
    ce_routers := [{ hostname := "CE9", as_number := some 999,
                     interfaces := [⟨"GigabitEthernet0/0", none⟩] }],
    subnets := [[⟨"PE1", "GigabitEthernet0/0"⟩, ⟨"CE9", "GigabitEthernet0/0"⟩],
                [⟨"PE1", "GigabitEthernet0/1"⟩, ⟨"P1", "GigabitEthernet0/1"⟩]] }

/-- Customer AS 200 with loopback pool 10.9.0.0/24 and physical pool 192.168.0.0/16. -/
def asC200 : AsIntent :=
  { as_number := 200,
    loopback := some ⟨168361984, 24⟩,
    physical := some ⟨3232235520, 16⟩ }

/-- Fixture D: a dual-homed CE with two PE-facing links, in declared order first
    to PE1, then to PE2. -/
def fxD : Intent :=
  { asL := [bbAs, asC200],
    pe_routers := [{ hostname := "PE1",
                     interfaces := [⟨"GigabitEthernet0/0", none⟩, ⟨"Loopback0", none⟩] },
                   { hostname := "PE2",
                     interfaces := [⟨"GigabitEthernet0/0", none⟩, ⟨"Loopback0", none⟩] }],
    ce_routers := [{ hostname := "CE1", as_number := some 200,
                     interfaces := [⟨"GigabitEthernet0/0", none⟩, ⟨"GigabitEthernet0/1", none⟩] }],
    subnets := [[⟨"CE1", "GigabitEthernet0/0"⟩, ⟨"PE1", "GigabitEthernet0/0"⟩],
                [⟨"CE1", "GigabitEthernet0/1"⟩, ⟨"PE2", "GigabitEthernet0/0"⟩]] }

/-- The NetworkConfigGenerator state built from fixture D. -/
def fxDSt : Ncg.NState :=
  (Ncg.ngBuild fxD).toOption.getD ⟨[], 0, [], []⟩

/-- Count of the routers of a map prefix that qualify for a loopback draw from
    the pool of AS `asn`: a `Loopback0` entry exists and the router belongs to
    `asn` (when that AS holds a live loopback iterator, each such router draws
    exactly once, in map order). -/
def Ncg.loQCount (asn : Nat) (l : Ncg.NRouters) : Nat :=
  (l.filter (fun p => (dget p.2.interfaces "Loopback0").isSome && p.2.asN == some asn)).length

/-- The router map of fixture D. -/
def fxDRm : Ncg.NRouters := Ncg.createRouterMap fxD 65000

/-- The CE entry of the fixture D router map. -/
def fxDCe : Ncg.NRouter := (dget fxDRm "CE1").getD ⟨"", none, [], [], none⟩

/-- The AS map of fixture D right after `__init_as_map`. -/
def fxDAm : Ncg.NAsMap := ((Ncg.initAsMap fxD.asL).toOption.getD ([], 0)).1

/-- The state of fixture D after the loopback pass. -/
def fxDLoOut : Ncg.NRouters × Ncg.NAsMap :=
  (Ncg.ngLoopbackPass fxDRm fxDAm).toOption.getD ([], [])

/-- The MPLSConfig model built from fixture A. -/
def fxASt : MplsCfg.Model := (MplsCfg.build fxA).toOption.getD ⟨[], 0, [], []⟩

/-- The CE entry of the fixture A model. -/
def fxACe : MplsCfg.Router := (dget fxASt.routers "CE1").getD ⟨"", "", 0, [], []⟩

/-- The CE BGP line list emitted for fixture A. -/
def fxACeLines : List String := (MplsCfg.ceBgp fxASt fxACe).toOption.getD []

/-- Backbone AS with a tiny /30 loopback pool holding only two usable hosts. -/
def bbAsTiny : AsIntent :=
  { as_number := 65000, backbone := true,
    loopback := some ⟨167772160, 30⟩,
    physical := some ⟨167837696, 16⟩ }

/-- Fixture E1: three P routers needing loopbacks from a two-host pool. -/
def fxE1 : Intent :=
  { asL := [bbAsTiny],
    p_routers := [{ hostname := "P1", interfaces := [⟨"Loopback0", none⟩] },
                  { hostname := "P2", interfaces := [⟨"Loopback0", none⟩] },
                  { hostname := "P3", interfaces := [⟨"Loopback0", none⟩] }] }

/-- Customer AS 300 declaring no pools at all. -/
def asC300 : AsIntent := { as_number := 300 }

/-- Fixture E2: a PE-CE link whose CE AS declares no physical pool. -/
def fxE2 : Intent :=
  { asL := [bbAs, asC300],
    pe_routers := [{ hostname := "PE1", interfaces := [⟨"GigabitEthernet0/0", none⟩] }],
    ce_routers := [{ hostname := "CE3", as_number := some 300,
                     interfaces := [⟨"GigabitEthernet0/0", none⟩] }],
    subnets := [[⟨"PE1", "GigabitEthernet0/0"⟩, ⟨"CE3", "GigabitEthernet0/0"⟩]] }

/-- Fixture G: two PE routers on the backbone, no VRFs. -/
def fxG : Intent :=
  { asL := [bbAs],
    pe_routers := [{ hostname := "PE1", interfaces := [⟨"Loopback0", none⟩] },
                   { hostname := "PE2", interfaces := [⟨"Loopback0", none⟩] }] }

/-- The MPLSConfig model built from fixture G. -/
def fxGSt : MplsCfg.Model := (MplsCfg.build fxG).toOption.getD ⟨[], 0, [], []⟩

/-- The first PE entry of the fixture G model. -/
def fxGPe1 : MplsCfg.Router := (dget fxGSt.routers "PE1").getD ⟨"", "", 0, [], []⟩

/-- The PE map passed to the MP-BGP emitter for fixture G. -/
def fxGPes : MplsCfg.Routers := fxGSt.routers.filter (fun p => p.2.rtype == "PE")

/-- The MP-BGP stanza emitted for PE1 of fixture G. -/
def fxGLines : List String := (MplsCfg.mpbgp fxGSt fxGPe1 fxGPes).toOption.getD []

/-- Detector for a vpnv4-style neighbor activate line (two-space indent,
    activate suffix). -/
def isVpnActivate (s : String) : Bool :=
  ("  neighbor ".data).isPrefixOf s.data && (" activate".data).isSuffixOf s.data

/-- Fixture H: a NetworkConfigGenerator P router without a Loopback0 interface. -/
def fxH : Intent :=
  { asL := [bbAs],
    p_routers := [{ hostname := "P1", interfaces := [⟨"GigabitEthernet0/0", none⟩] }] }

/-- Fixture I: an MPLSConfig P router without a Loopback0 interface. -/
def fxI : Intent :=
  { asL := [bbAs],
    p_routers := [{ hostname := "P9", interfaces := [⟨"GigabitEthernet0/0", none⟩] }] }

/-- The MPLSConfig model built from fixture I. -/
def fxISt : MplsCfg.Model := (MplsCfg.build fxI).toOption.getD ⟨[], 0, [], []⟩

/-- The P entry of the fixture I model. -/
def fxIP9 : MplsCfg.Router := (dget fxISt.routers "P9").getD ⟨"", "", 0, [], []⟩

/-- The configuration emitted for the fixture I P router. -/
def fxILines : List String := (MplsCfg.generateConfig fxISt "T" "P9").toOption.getD []

/-- Shape of a shared as dict as left by the generator: a live phys iterator
    and a loopback entry that is an iterator or Python None. -/
def NcgHeap.GoodAs (d : NcgHeap.HDict) : Prop :=
  (∃ c k, dget d "phys_iter" = some (.it c k)) ∧
  ((∃ c k, dget d "loopback_iter" = some (.it c k)) ∨ dget d "loopback_iter" = some .nil)

/-- The as_number carried by the dict behind a heap reference. -/
def NcgHeap.AsNumOf (h : NcgHeap.Heap) (ref : NcgHeap.Ref) (n : Nat) : Prop :=
  ∃ d, NcgHeap.hget h ref = some d ∧ dget d "as_number" = some (.n n)

/-- Heap evolution of an allocation pass: references outside the as map keep
    their dicts untouched, and every well-shaped shared as dict keeps a
    well-shaped successor. -/
def NcgHeap.HeapFG (am : List (Nat × NcgHeap.Ref)) (h h' : NcgHeap.Heap) : Prop :=
  (∀ ref, (∀ p ∈ am, p.2 ≠ ref) → NcgHeap.hget h' ref = NcgHeap.hget h ref) ∧
  (∀ ref d, NcgHeap.hget h ref = some d → NcgHeap.GoodAs d →
    ∃ d', NcgHeap.hget h' ref = some d' ∧ NcgHeap.GoodAs d')

/-- Witness heap for the aliasing claim: the shared as dict at reference 0 and
    one caller-owned interface dict at reference 1. -/
def wHeap : NcgHeap.Heap :=
  [(0, [("as_number", .n 65000), ("backbone", .b true),
        ("ipv4_ranges", .ranges (some ⟨167772160, 24⟩) (some ⟨167837696, 16⟩))]),
   (1, [("name", .s "Loopback0")])]

/-- Witness intent for the aliasing claim. -/
def wHIntent : NcgHeap.HIntent :=
  { asRefs := [0],
    peL := [{ hostname := "PE1", asN := none, ifaceRefs := [1] }] }

/-- The heap and state after constructing the generator on the witness heap. -/
def wOut : NcgHeap.Heap × NcgHeap.HState :=
  (NcgHeap.construct wHeap wHIntent).toOption.getD ([], ⟨[], 0, []⟩)

/-! Pool-disjointness hypotheses, consumed-region bookkeeping and the
    assignment predicates used for the global address-uniqueness claim. -/

/-- Two CIDR pools cover no common address. -/
def Disjoint2 (c d : Cidr) : Prop := ∀ x, inPool c x → inPool d x → False

/-- Validity of the declared pools as the claim assumes it: every loopback pool
    is disjoint from every physical pool, and the pools of two different AS map
    entries never overlap. -/
def MplsCfg.PoolsOk (am : MplsCfg.AsMap) : Prop :=
  ∀ n a, dget am n = some a → ∀ n' a', dget am n' = some a' →
    (∀ lp pp, a.loopbackPool = some lp → a'.physicalPool = some pp → Disjoint2 lp pp) ∧
    (n ≠ n' →
      (∀ c c', a.loopbackPool = some c → a'.loopbackPool = some c' → Disjoint2 c c') ∧
      (∀ c c', a.physicalPool = some c → a'.physicalPool = some c' → Disjoint2 c c'))

/-- Addresses handed out so far by the loopback iterator of one AS. -/
def MplsCfg.ConsumedL (a : MplsCfg.ASObj) (x : Nat) : Prop :=
  ∃ c, a.loopbackPool = some c ∧ ∃ k, k < a.loopbackCursor ∧ hostAt c k = some x

/-- Addresses covered by the /24 blocks handed out so far by the physical
    iterator of one AS. -/
def MplsCfg.ConsumedP (a : MplsCfg.ASObj) (x : Nat) : Prop :=
  ∃ c, a.physicalPool = some c ∧ c.plen ≤ 24 ∧
    ∃ k b, k < a.physicalCursor ∧ subnetAt c k = some b ∧ b ≤ x ∧ x < b + 256

/-- Addresses consumed so far by any iterator of the AS map. -/
def MplsCfg.Consumed (am : MplsCfg.AsMap) (x : Nat) : Prop :=
  ∃ n a, dget am n = some a ∧ (MplsCfg.ConsumedL a x ∨ MplsCfg.ConsumedP a x)

/-- `am` evolved from `am0` by iterator draws alone: same entries, same pools,
    cursors moved forward only. -/
def MplsCfg.Evolves (am0 am : MplsCfg.AsMap) : Prop :=
  ∀ n, (dget am0 n = none ∧ dget am n = none) ∨
    (∃ a0 a, dget am0 n = some a0 ∧ dget am n = some a ∧
      a.loopbackPool = a0.loopbackPool ∧ a.physicalPool = a0.physicalPool ∧
      a0.loopbackCursor ≤ a.loopbackCursor ∧ a0.physicalCursor ≤ a.physicalCursor)

/-- Some entry of the router map keyed `rn` carries address `ip` on its
    interface `ifn`. -/
def MplsCfg.RAssigned (rs : MplsCfg.Routers) (rn ifn : String) (ip : Nat) : Prop :=
  ∃ p, p ∈ rs ∧ p.1 = rn ∧ ∃ f, dget p.2.interfaces ifn = some f ∧ f.ip_address = some ip

/-- Allocation invariant: every assigned address was consumed from some pool,
    and no two distinct interface slots carry the same address. -/
def MplsCfg.AllocInv (am : MplsCfg.AsMap) (rs : MplsCfg.Routers) : Prop :=
  (∀ rn ifn ip, MplsCfg.RAssigned rs rn ifn ip → MplsCfg.Consumed am ip) ∧
  (∀ rn1 ifn1 rn2 ifn2 ip, MplsCfg.RAssigned rs rn1 ifn1 ip →
    MplsCfg.RAssigned rs rn2 ifn2 ip → rn1 = rn2 ∧ ifn1 = ifn2)

/-- No interface of the router map carries an address yet. -/
def MplsCfg.Unassigned (rs : MplsCfg.Routers) : Prop :=
  ∀ p ∈ rs, ∀ ifn f, dget p.2.interfaces ifn = some f → f.ip_address = none

/-- Fixture F: two CE routers of AS 100 declaring the same private network
    172.16.5.0/24; AS 100 has no loopback pool, and every declared pool is
    pairwise disjoint. -/
def fxF : Intent :=
  { asL := [bbAs, asC100],
    ce_routers := [{ hostname := "CE1", as_number := some 100,
                     private_network := some ⟨2886731008, 24⟩ },
                   { hostname := "CE2", as_number := some 100,
                     private_network := some ⟨2886731008, 24⟩ }] }

/-- The NetworkConfigGenerator state built from fixture F. -/
def fxFSt : Ncg.NState := (Ncg.ngBuild fxF).toOption.getD ⟨[], 0, [], []⟩

/-- Fixture J: a backbone-only model, one PE and one P with loopbacks and one
    core link. -/
def fxJ : Intent :=
  { asL := [bbAs],
    pe_routers := [{ hostname := "PE1",
                     interfaces := [⟨"GigabitEthernet0/0", none⟩, ⟨"Loopback0", none⟩] }],
    p_routers := [{ hostname := "P1",
                    interfaces := [⟨"GigabitEthernet0/0", none⟩, ⟨"Loopback0", none⟩] }],
    subnets := [[⟨"PE1", "GigabitEthernet0/0"⟩, ⟨"P1", "GigabitEthernet0/0"⟩]] }

/-- The MPLSConfig model built from fixture J. -/
def fxJM : MplsCfg.Model := (MplsCfg.build fxJ).toOption.getD ⟨[], 0, [], []⟩

/-- The PE entry of the fixture J model. -/
def fxJPe : MplsCfg.Router := (dget fxJM.routers "PE1").getD ⟨"", "", 0, [], []⟩

/-- The Loopback0 interface of PE1 in the fixture J model. -/
def fxJLo : MplsCfg.Iface := (dget fxJPe.interfaces "Loopback0").getD ⟨"", none, none, false, false⟩

/-! Theorems.  Generic inversion and dictionary lemmas first, then one theorem
    per claim with its witness or counterexample. -/

theorem dget_dsetD_self [BEq κ] [LawfulBEq κ] (d : List (κ × α)) (k : κ) (v : α) :
    dget (dsetD d k v) k = some v := by
  induction d with
  | nil => simp [dget, dsetD]
  | cons h t ih =>
    obtain ⟨k', v'⟩ := h
    by_cases hk : k' == k
    · simp [dsetD, hk, dget]
    · simp [dsetD, hk, dget, ih]

theorem dget_dsetD_ne [BEq κ] [LawfulBEq κ] (d : List (κ × α)) (k k' : κ) (v : α)
    (h : k' ≠ k) : dget (dsetD d k v) k' = dget d k' := by
  induction d with
  | nil => simp [dget, dsetD, beq_iff_eq]; exact fun e => h e.symm
  | cons hd t ih =>
    obtain ⟨k0, v0⟩ := hd
    by_cases hk : k0 == k
    · have hkk : k0 = k := eq_of_beq hk
      subst hkk
      have hne : ¬(k0 == k') := by simp [beq_iff_eq]; exact fun e => h e.symm
      simp [dsetD, hk, dget, hne]
    · simp only [dsetD, hk, Bool.false_eq_true, if_neg, not_false_iff]
      by_cases hk' : k0 == k'
      · simp [dget, hk']
      · simp [dget, hk', ih]

theorem exc_bind_ok {α β : Type} {x : Except PyErr α} {f : α → Except PyErr β} {b : β}
    (h : x.bind f = .ok b) : ∃ a, x = .ok a ∧ f a = .ok b := by
  cases x with
  | error e => simp [Except.bind] at h
  | ok a => exact ⟨a, rfl, by simpa [Except.bind] using h⟩

theorem exc_bindM_ok {α β : Type} {x : Except PyErr α} {f : α → Except PyErr β} {b : β}
    (h : (x >>= f) = .ok b) : ∃ a, x = .ok a ∧ f a = .ok b :=
  exc_bind_ok h

theorem ncg_flagOk_write (routers : Ncg.NRouters) (n : String) (r : Ncg.NRouter)
    (hr : dget routers n = some r) (iN : String) (ifc' : Ncg.NIface)
    (hint : ifc'.internal = some (r.rtype != "CE"))
    (hmpls : ifc'.mpls = some (r.rtype != "CE"))
    (ep : Endpoint)
    (h : Ncg.FlagOk routers ep ∨ (ep.router = n ∧ ep.interface = iN)) :
    Ncg.FlagOk (dsetD routers n { r with interfaces := dsetD r.interfaces iN ifc' }) ep := by
  by_cases hn : ep.router = n
  · refine ⟨{ r with interfaces := dsetD r.interfaces iN ifc' }, ?_⟩
    rw [hn, dget_dsetD_self]
    by_cases hi : ep.interface = iN
    · exact ⟨ifc', rfl, by rw [hi, dget_dsetD_self], hint, hmpls⟩
    · rcases h with hf | ⟨_, hif⟩
      · obtain ⟨r0, i0, hr0, hi0, hfl1, hfl2⟩ := hf
        rw [hn, hr] at hr0
        cases hr0
        exact ⟨i0, rfl, by rw [dget_dsetD_ne _ _ _ _ hi]; exact hi0, hfl1, hfl2⟩
      · exact absurd hif hi
  · rcases h with hf | ⟨hrn, _⟩
    · obtain ⟨r0, i0, hr0, hi0, hfl1, hfl2⟩ := hf
      exact ⟨r0, i0, by rw [dget_dsetD_ne _ _ _ _ hn]; exact hr0, hi0, hfl1, hfl2⟩
    · exact absurd hrn hn

theorem ncg_assignEps_flagOk (base : Nat) :
    ∀ (eps : List Endpoint) (i : Nat) (routers routers' : Ncg.NRouters),
      Ncg.ngAssignEps base eps i routers = .ok routers' →
      ∀ ep, (Ncg.FlagOk routers ep ∨ ep ∈ eps) → Ncg.FlagOk routers' ep := by
  intro eps
  induction eps with
  | nil =>
    intro i routers routers' h ep hep
    simp only [Ncg.ngAssignEps, Except.ok.injEq] at h
    subst h
    rcases hep with h1 | h2
    · exact h1
    · simp at h2
  | cons e t ih =>
    intro i routers routers' h ep hep
    rw [Ncg.ngAssignEps] at h
    cases hr : dget routers e.router with
    | none =>
      simp only [hr] at h
      exact Except.noConfusion h
    | some r =>
      simp only [hr] at h
      cases hi : dget r.interfaces e.interface with
      | none =>
        simp only [hi] at h
        exact Except.noConfusion h
      | some ifc =>
        simp only [hi] at h
        by_cases hlt : i < 254
        · rw [if_pos hlt] at h
          refine ih (i + 1) _ routers' h ep ?_
          rcases hep with hf | hm
          · exact Or.inl (ncg_flagOk_write routers e.router r hr e.interface _ rfl rfl ep (Or.inl hf))
          · rcases List.mem_cons.mp hm with he | ht
            · left
              rw [he]
              exact ncg_flagOk_write routers e.router r hr e.interface _ rfl rfl e
                (Or.inr ⟨rfl, rfl⟩)
            · exact Or.inr ht
        · simp only [if_neg hlt] at h
          exact Except.noConfusion h

theorem ncg_physPass_flagOk (bb : Nat) :
    ∀ (links : List (List Endpoint)) (am : Ncg.NAsMap) (routers : Ncg.NRouters)
      (res : Ncg.NAsMap × Ncg.NRouters),
      Ncg.ngPhysPass bb links am routers = .ok res →
      ∀ ep, (Ncg.FlagOk routers ep ∨ ∃ link ∈ links, ep ∈ link) → Ncg.FlagOk res.2 ep := by
  intro links
  induction links with
  | nil =>
    intro am routers res h ep hep
    simp only [Ncg.ngPhysPass, Except.ok.injEq] at h
    subst h
    rcases hep with h1 | ⟨l, hl, _⟩
    · exact h1
    · simp at hl
  | cons eps rest ih =>
    intro am routers res h ep hep
    rw [Ncg.ngPhysPass] at h
    obtain ⟨isCe, h1, h⟩ := exc_bindM_ok h
    obtain ⟨⟨base, am'⟩, h2, h⟩ := exc_bindM_ok h
    obtain ⟨routers1, h3, h⟩ := exc_bindM_ok h
    refine ih am' routers1 res h ep ?_
    rcases hep with hf | ⟨l, hl, hm⟩
    · exact Or.inl (ncg_assignEps_flagOk base eps 0 routers routers1 h3 ep (Or.inl hf))
    · rcases List.mem_cons.mp hl with hle | hlr
      · exact Or.inl (ncg_assignEps_flagOk base eps 0 routers routers1 h3 ep (Or.inr (hle ▸ hm)))
      · exact Or.inr ⟨l, hlr, hm⟩

/-- C1 (amended): in the NetworkConfigGenerator physical-link assignment pass,
    for every link, each endpoint whose router type is P or PE is marked
    internal and mpls, and each CE endpoint gets neither flag; the MPLSConfig
    pass instead flags both endpoints only on links with no CE endpoint, so
    there the PE side of a PE-CE link gets neither flag (see the
    counterexample). -/
theorem C1_amended (it : Intent) (st : Ncg.NState) (hb : Ncg.ngBuild it = .ok st)
    (link : List Endpoint) (hl : link ∈ it.subnets) (ep : Endpoint) (hep : ep ∈ link) :
    ∃ r i, dget st.routers ep.router = some r ∧ dget r.interfaces ep.interface = some i ∧
      i.internal = some (r.rtype != "CE") ∧ i.mpls = some (r.rtype != "CE") := by
  rw [Ncg.ngBuild] at hb
  obtain ⟨⟨am, bbn⟩, h1, hb⟩ := exc_bindM_ok hb
  obtain ⟨⟨rm1, am1⟩, h2, hb⟩ := exc_bindM_ok hb
  obtain ⟨⟨am2, rm2⟩, h3, hb⟩ := exc_bindM_ok hb
  simp only [pure, Except.pure, Except.ok.injEq] at hb
  have hres := ncg_physPass_flagOk bbn it.subnets am1 rm1 (am2, rm2) h3 ep
    (Or.inr ⟨link, hl, hep⟩)
  rw [← hb]
  exact hres

/-- C1 (witness): at fixture D, the PE1 endpoint of its first link carries both
    flags set (PE1 is not a CE). -/
theorem C1_witness :
    ∃ r i, dget fxDSt.routers "PE1" = some r ∧
      dget r.interfaces "GigabitEthernet0/0" = some i ∧
      i.internal = some (r.rtype != "CE") ∧ i.mpls = some (r.rtype != "CE") :=
  C1_amended fxD fxDSt (by rfl)
    [⟨"CE1", "GigabitEthernet0/0"⟩, ⟨"PE1", "GigabitEthernet0/0"⟩]
    (by simp [fxD]) ⟨"PE1", "GigabitEthernet0/0"⟩ (by simp)

/-- C1 (counterexample): in the MPLSConfig physical pass of fixture A, the PE
    endpoint of the single PE-CE link ends with is_internal and mpls_enabled
    both false, contradicting the claim that a PE endpoint of a PE-CE link is
    marked internal and mpls-enabled. -/
theorem C1_counterexample :
    (MplsCfg.build fxA).map (fun m =>
      (MplsCfg.ifaceOf m "PE1" "GigabitEthernet1/0").map
        (fun i => (i.is_internal, i.mpls_enabled))) = .ok (some (false, false)) := by
  rfl

theorem ncg_loQCount_cons (asn : Nat) (n0 : String) (r0 : Ncg.NRouter) (l : Ncg.NRouters) :
    Ncg.loQCount asn ((n0, r0) :: l) =
      (if (dget r0.interfaces "Loopback0").isSome && r0.asN == some asn then 1 else 0) +
        Ncg.loQCount asn l := by
  by_cases hq : ((dget r0.interfaces "Loopback0").isSome && r0.asN == some asn) = true
  · simp [Ncg.loQCount, List.filter, hq, Nat.add_comm]
  · simp [Ncg.loQCount, List.filter, hq]

theorem ncg_loopbackStep_iter (am : Ncg.NAsMap) (r0 r0' : Ncg.NRouter) (am1 : Ncg.NAsMap)
    (h : Ncg.ngLoopbackStep am r0 = .ok (r0', am1)) (asn : Nat) (a : Ncg.NAs)
    (pool : Cidr) (c0 : Nat) (ha : dget am asn = some a)
    (hiter : a.loopback_iter = some (pool, c0)) :
    ∃ a1, dget am1 asn = some a1 ∧ a1.loopback_iter =
      some (pool, c0 + (if (dget r0.interfaces "Loopback0").isSome && r0.asN == some asn
        then 1 else 0)) := by
  rw [Ncg.ngLoopbackStep] at h
  cases hlo : dget r0.interfaces "Loopback0" with
  | none =>
    simp only [hlo] at h
    by_cases hce : (r0.rtype == "CE") = true
    · rw [if_pos hce] at h; exact Except.noConfusion h
    · rw [if_neg hce] at h
      injection h with h
      injection h with h1 h2
      exact ⟨a, by rw [← h2]; exact ha, by simp [hlo, hiter]⟩
  | some lo0 =>
    simp only [hlo] at h
    cases hasn0 : r0.asN with
    | none => simp only [hasn0] at h; exact Except.noConfusion h
    | some asn0 =>
      simp only [hasn0] at h
      cases ha0 : dget am asn0 with
      | none => simp only [ha0] at h; exact Except.noConfusion h
      | some a0 =>
        simp only [ha0] at h
        cases hit0 : a0.loopback_iter with
        | some pk =>
          obtain ⟨pool0, k0⟩ := pk
          simp only [hit0] at h
          cases hip : hostAt pool0 k0 with
          | none => simp only [hip] at h; exact Except.noConfusion h
          | some ip =>
            simp only [hip] at h
            injection h with h
            injection h with h1 h2
            by_cases heq : asn0 = asn
            · subst heq
              rw [ha0] at ha
              injection ha with ha
              subst ha
              rw [hiter] at hit0
              injection hit0 with hit0
              injection hit0 with hp hk
              refine ⟨_, by rw [← h2, dget_dsetD_self], ?_⟩
              simp [hlo, hasn0, hp, hk]
            · refine ⟨a, by rw [← h2, dget_dsetD_ne _ _ _ _ (Ne.symm heq)]; exact ha, ?_⟩
              simp [hlo, hasn0, heq, hiter]
        | none =>
          simp only [hit0] at h
          by_cases heq : asn0 = asn
          · subst heq
            rw [ha0] at ha
            injection ha with ha
            subst ha
            rw [hiter] at hit0
            exact Option.noConfusion hit0
          · have hnq : (r0.asN == some asn) = false := by
              rw [hasn0]; simp [heq]
            by_cases hce : (r0.rtype == "CE") = true
            · rw [if_pos hce] at h
              cases hpn : r0.private_network with
              | none => simp only [hpn] at h; exact Except.noConfusion h
              | some net =>
                simp only [hpn] at h
                injection h with h
                injection h with h1 h2
                exact ⟨a, by rw [← h2]; exact ha, by simp [hlo, hasn0, heq, hiter]⟩
            · rw [if_neg hce] at h
              injection h with h
              injection h with h1 h2
              exact ⟨a, by rw [← h2]; exact ha, by simp [hlo, hasn0, heq, hiter]⟩

/-- C2 (amended): in the NetworkConfigGenerator loopback pass, every router
    possessing a Loopback0 interface whose AS holds a live loopback iterator
    receives the next host address of that pool (the incoming cursor plus one
    draw per earlier qualifying router of the same AS) with mask
    255.255.255.255 — including a CE router whose own, non-backbone AS declares
    a loopback pool.  In MPLSConfig the draw additionally requires the AS to be
    the backbone, so such a CE receives nothing there (see the counterexample). -/
theorem C2_amended :
    ∀ (pre : Ncg.NRouters) (n : String) (r : Ncg.NRouter) (post : Ncg.NRouters)
      (am : Ncg.NAsMap) (out : Ncg.NRouters × Ncg.NAsMap),
      Ncg.ngLoopbackPass (pre ++ (n, r) :: post) am = .ok out →
      ∀ lo, dget r.interfaces "Loopback0" = some lo →
      ∀ asn, r.asN = some asn →
      ∀ a pool c0, dget am asn = some a → a.loopback_iter = some (pool, c0) →
      ∃ ip r' pre' post',
        hostAt pool (c0 + Ncg.loQCount asn pre) = some ip ∧
        out.1 = pre' ++ (n, r') :: post' ∧ pre'.length = pre.length ∧
        dget r'.interfaces "Loopback0" =
          some { lo with ip := some ip, mask := some maskFull, internal := some true } := by
  intro pre
  induction pre with
  | nil =>
    intro n r post am out h lo hlo asn hasn a pool c0 ha hiter
    rw [List.nil_append, Ncg.ngLoopbackPass] at h
    obtain ⟨⟨r1, am1⟩, hstep, h⟩ := exc_bindM_ok h
    obtain ⟨⟨t1, am2⟩, htail, h⟩ := exc_bindM_ok h
    simp only [pure, Except.pure, Except.ok.injEq] at h
    rw [Ncg.ngLoopbackStep] at hstep
    simp only [hlo, hasn, ha, hiter] at hstep
    cases hip : hostAt pool c0 with
    | none => simp only [hip] at hstep; exact Except.noConfusion hstep
    | some ip =>
      simp only [hip] at hstep
      injection hstep with hstep
      injection hstep with h1 h2
      refine ⟨ip, r1, [], t1, ?_, ?_, rfl, ?_⟩
      · simpa [Ncg.loQCount] using hip
      · rw [← h]; simp
      · rw [← h1, dget_dsetD_self]
  | cons p pre' ih =>
    obtain ⟨n0, r0⟩ := p
    intro n r post am out h lo hlo asn hasn a pool c0 ha hiter
    rw [List.cons_append, Ncg.ngLoopbackPass] at h
    obtain ⟨⟨r0', am1⟩, hstep, h⟩ := exc_bindM_ok h
    obtain ⟨⟨t1, am2⟩, htail, h⟩ := exc_bindM_ok h
    simp only [pure, Except.pure, Except.ok.injEq] at h
    obtain ⟨a1, ha1, hiter1⟩ := ncg_loopbackStep_iter am r0 r0' am1 hstep asn a pool c0 ha hiter
    obtain ⟨ip, r', pp, pq, hip, hout, hlen, hifc⟩ :=
      ih n r post am1 (t1, am2) htail lo hlo asn hasn a1 pool _ ha1 hiter1
    refine ⟨ip, r', (n0, r0') :: pp, pq, ?_, ?_, ?_, hifc⟩
    · rw [ncg_loQCount_cons]
      have harith :
          c0 + ((if (dget r0.interfaces "Loopback0").isSome && r0.asN == some asn then 1 else 0) +
            Ncg.loQCount asn pre') =
          c0 + (if (dget r0.interfaces "Loopback0").isSome && r0.asN == some asn then 1 else 0) +
            Ncg.loQCount asn pre' := by omega
      rw [harith]
      exact hip
    · rw [← h]
      have hout2 : t1 = pp ++ (n, r') :: pq := hout
      simp [hout2]
    · simp [hlen]

/-- C2 (witness): in fixture D the CE router CE1, whose own non-backbone AS 200
    declares the loopback pool 10.9.0.0/24, receives the first host of that pool
    with the /32 mask during the loopback pass. -/
theorem C2_witness :
    ∃ ip r' pre' post',
      hostAt ⟨168361984, 24⟩ (0 + Ncg.loQCount 200 (fxDRm.take 2)) = some ip ∧
      fxDLoOut.1 = pre' ++ ("CE1", r') :: post' ∧ pre'.length = (fxDRm.take 2).length ∧
      dget r'.interfaces "Loopback0" =
        some { name := "Loopback0", ip := some ip, mask := some maskFull,
               internal := some true } :=
  C2_amended (fxDRm.take 2) "CE1" fxDCe [] fxDAm fxDLoOut (by rfl)
    { name := "Loopback0" } (by rfl) 200 (by rfl) _ ⟨168361984, 24⟩ 0 (by rfl) (by rfl)

/-- C2 (counterexample): in MPLSConfig, the CE router of fixture B owns a
    non-backbone AS that declares a loopback pool, yet its Loopback0 stays
    unaddressed after the build, because the loopback pass also requires the
    AS to be the backbone. -/
theorem C2_counterexample :
    (MplsCfg.build fxB).map (fun m =>
      (MplsCfg.ifaceOf m "CE2" "Loopback0").map (fun i => i.ip_address)) = .ok (some none) := by
  rfl

theorem ncg_findCeInLink_spec (routers : Ncg.NRouters) (pe : String) :
    ∀ (link : List Endpoint) (res : Option (String × Option Nat)),
      Ncg.findCeInLink routers pe link = .ok res →
      (∃ v, res = some v ∧ ∃ ep ∈ link, ep.router ≠ pe ∧
        ∃ r i a, dget routers ep.router = some r ∧ r.rtype = "CE" ∧
          dget r.interfaces ep.interface = some i ∧ i.ip = some a ∧ v = (ipStr a, r.asN)) ∨
      (res = none ∧ ∀ ep ∈ link, ep.router ≠ pe →
        ∀ r, dget routers ep.router = some r → r.rtype ≠ "CE") := by
  intro link
  induction link with
  | nil =>
    intro res h
    simp only [Ncg.findCeInLink, Except.ok.injEq] at h
    refine Or.inr ⟨h.symm, ?_⟩
    intro ep hep
    simp at hep
  | cons ep es ih =>
    intro res h
    rw [Ncg.findCeInLink] at h
    by_cases hne : (ep.router != pe) = true
    · rw [if_pos hne] at h
      have hne' : ep.router ≠ pe := by simpa using hne
      cases hr : dget routers ep.router with
      | none => simp only [hr] at h; exact Except.noConfusion h
      | some r =>
        simp only [hr] at h
        by_cases hce : (r.rtype == "CE") = true
        · rw [if_pos hce] at h
          have hce' : r.rtype = "CE" := by simpa using hce
          cases hi : dget r.interfaces ep.interface with
          | none => simp only [hi] at h; exact Except.noConfusion h
          | some i =>
            simp only [hi] at h
            cases hip : i.ip with
            | none => simp only [hip] at h; exact Except.noConfusion h
            | some a =>
              simp only [hip, Except.ok.injEq] at h
              exact Or.inl ⟨(ipStr a, r.asN), h.symm,
                ep, List.mem_cons_self ep es, hne', r, i, a, hr, hce', hi, hip, rfl⟩
        · rw [if_neg hce] at h
          rcases ih res h with ⟨v, hv, ep', hep', rest⟩ | ⟨hres, hall⟩
          · exact Or.inl ⟨v, hv, ep', List.mem_cons_of_mem ep hep', rest⟩
          · refine Or.inr ⟨hres, ?_⟩
            intro ep' hep' hne2 r' hr'
            rcases List.mem_cons.mp hep' with he | hm
            · rw [he] at hr'
              rw [hr] at hr'
              injection hr' with hr'
              rw [← hr']
              simpa using hce
            · exact hall ep' hm hne2 r' hr'
    · rw [if_neg hne] at h
      have heq : ep.router = pe := by simpa using hne
      rcases ih res h with ⟨v, hv, ep', hep', rest⟩ | ⟨hres, hall⟩
      · exact Or.inl ⟨v, hv, ep', List.mem_cons_of_mem ep hep', rest⟩
      · refine Or.inr ⟨hres, ?_⟩
        intro ep' hep' hne2 r' hr'
        rcases List.mem_cons.mp hep' with he | hm
        · rw [he] at hne2; exact absurd heq hne2
        · exact hall ep' hm hne2 r' hr'

theorem ncg_findCePeerGo_spec (routers : Ncg.NRouters) (pe iface : String) :
    ∀ (links : List (List Endpoint)) (res : String × Option Nat),
      Ncg.findCePeerGo routers pe iface links = .ok res →
      (∃ link ∈ links,
        (∃ e ∈ link, e.router = pe ∧ e.interface = iface) ∧
        ∃ ep ∈ link, ep.router ≠ pe ∧
          ∃ r i a, dget routers ep.router = some r ∧ r.rtype = "CE" ∧
            dget r.interfaces ep.interface = some i ∧ i.ip = some a ∧
            res = (ipStr a, r.asN)) ∨
      (res = ("0.0.0.0", some 0) ∧
        ∀ link ∈ links, (∃ e ∈ link, e.router = pe ∧ e.interface = iface) →
          ∀ ep ∈ link, ep.router ≠ pe →
            ∀ r, dget routers ep.router = some r → r.rtype ≠ "CE") := by
  intro links
  induction links with
  | nil =>
    intro res h
    simp only [Ncg.findCePeerGo, Except.ok.injEq] at h
    refine Or.inr ⟨h.symm, ?_⟩
    intro link hl
    simp at hl
  | cons link t ih =>
    intro res h
    rw [Ncg.findCePeerGo] at h
    by_cases hany : (link.any (fun e => e.router == pe && e.interface == iface)) = true
    · rw [if_pos hany] at h
      have hmatch : ∃ e ∈ link, e.router = pe ∧ e.interface = iface := by
        obtain ⟨e, he, hcond⟩ := List.any_eq_true.mp hany
        exact ⟨e, he, by simpa using hcond⟩
      obtain ⟨found, hfound, h⟩ := exc_bindM_ok h
      rcases ncg_findCeInLink_spec routers pe link found hfound with
        ⟨v, hv, ep, hep, hne, r, i, a, hr, hce, hi, hip, hva⟩ | ⟨hnone, hall⟩
      · rw [hv] at h
        simp only [Except.ok.injEq] at h
        exact Or.inl ⟨link, List.mem_cons_self link t, hmatch,
          ep, hep, hne, r, i, a, hr, hce, hi, hip, by rw [← h, hva]⟩
      · rw [hnone] at h
        rcases ih res h with ⟨link', hl', rest⟩ | ⟨hres, hrest⟩
        · exact Or.inl ⟨link', List.mem_cons_of_mem link hl', rest⟩
        · refine Or.inr ⟨hres, ?_⟩
          intro link' hl' hm ep hep hne r hr
          rcases List.mem_cons.mp hl' with he | hmem
          · rw [he] at hep
            exact hall ep hep hne r hr
          · exact hrest link' hmem hm ep hep hne r hr
    · rw [if_neg hany] at h
      rcases ih res h with ⟨link', hl', rest⟩ | ⟨hres, hrest⟩
      · exact Or.inl ⟨link', List.mem_cons_of_mem link hl', rest⟩
      · refine Or.inr ⟨hres, ?_⟩
        intro link' hl' hm ep hep hne r hr
        rcases List.mem_cons.mp hl' with he | hmem
        · exfalso
          apply hany
          rw [he] at hm
          obtain ⟨e, he2, hr2, hi2⟩ := hm
          exact List.any_eq_true.mpr ⟨e, he2, by simp [hr2, hi2]⟩
        · exact hrest link' hmem hm ep hep hne r hr

/-- C3 (amended): the NetworkConfigGenerator resolver `__find_ce_peer`, given a
    router and interface name, either returns the address and AS number of a CE
    router found on a link containing that exact pair — both values coming from
    that same CE — or the sentinel pair 0.0.0.0 and 0 when no matching link
    carries a CE peer.  The MPLSConfig resolver violates this: `_get_ce_ip`
    returns the opposite endpoint of the matching link without checking that it
    is a CE, and `_get_ce_as` scans all links of the router while ignoring the
    interface, so the two halves can come from different routers (see the
    counterexample). -/
theorem C3_amended (st : Ncg.NState) (pe iface : String) (res : String × Option Nat)
    (h : Ncg.findCePeer st pe iface = .ok res) :
    (∃ link ∈ st.subnets,
      (∃ e ∈ link, e.router = pe ∧ e.interface = iface) ∧
      ∃ ep ∈ link, ep.router ≠ pe ∧
        ∃ r i a, dget st.routers ep.router = some r ∧ r.rtype = "CE" ∧
          dget r.interfaces ep.interface = some i ∧ i.ip = some a ∧
          res = (ipStr a, r.asN)) ∨
    (res = ("0.0.0.0", some 0) ∧
      ∀ link ∈ st.subnets, (∃ e ∈ link, e.router = pe ∧ e.interface = iface) →
        ∀ ep ∈ link, ep.router ≠ pe →
          ∀ r, dget st.routers ep.router = some r → r.rtype ≠ "CE") :=
  ncg_findCePeerGo_spec st.routers pe iface st.subnets res h

/-- C3 (witness): at fixture D the resolver applied to PE1 and its CE-facing
    interface satisfies the characterization (it returns the address and AS of
    CE1). -/
theorem C3_witness :
    (∃ link ∈ fxDSt.subnets,
      (∃ e ∈ link, e.router = "PE1" ∧ e.interface = "GigabitEthernet0/0") ∧
      ∃ ep ∈ link, ep.router ≠ "PE1" ∧
        ∃ r i a, dget fxDSt.routers ep.router = some r ∧ r.rtype = "CE" ∧
          dget r.interfaces ep.interface = some i ∧ i.ip = some a ∧
          ("192.168.0.1", some 200) = (ipStr a, r.asN)) ∨
    (("192.168.0.1", (some 200 : Option Nat)) = ("0.0.0.0", some 0) ∧
      ∀ link ∈ fxDSt.subnets,
        (∃ e ∈ link, e.router = "PE1" ∧ e.interface = "GigabitEthernet0/0") →
        ∀ ep ∈ link, ep.router ≠ "PE1" →
          ∀ r, dget fxDSt.routers ep.router = some r → r.rtype ≠ "CE") :=
  C3_amended fxDSt "PE1" "GigabitEthernet0/0" ("192.168.0.1", some 200) (by rfl)

/-- C3 (counterexample): in the MPLSConfig model of fixture C, the link holding
    the VRF-associated pair of PE1 has a P router on the other side, yet the
    resolver returns that P router's address 10.1.0.2 instead of the sentinel,
    and pairs it with AS 999 of the CE found on a different link — so the IP and
    AS do not come from one CE found via that interface's link. -/
theorem C3_counterexample :
    (MplsCfg.build fxC).map (fun m =>
      (dget m.routers "PE1").map (fun r =>
        (MplsCfg.getCeIp m r vrfC, MplsCfg.getCeAs m r,
         (dget m.routers "P1").map (fun p => p.rtype),
         (MplsCfg.ifaceOf m "P1" "GigabitEthernet0/1").map (fun i => i.ip_address)))) =
    .ok (some (.ok "10.1.0.2", .ok 999, some "P", some (some 167837698))) := by
  rfl

theorem list_len2_eq {α : Type} : ∀ (l : List α) (h : l.length = 2),
    l = [l.get ⟨0, by omega⟩, l.get ⟨1, by omega⟩]
  | [_, _], _ => rfl

theorem linkTouch_cond (sn : List Endpoint) (hlen : sn.length = 2) (hostname : String)
    (ht : MplsCfg.LinkTouch hostname sn) :
    ((sn.get ⟨0, by omega⟩).router == hostname ||
      (sn.get ⟨1, by omega⟩).router == hostname) = true := by
  obtain ⟨f0, f1, hfeq, hfd⟩ := ht
  subst hfeq
  rcases hfd with hf | hf
  · exact Bool.or_eq_true_iff.mpr (Or.inl (by simpa using hf))
  · exact Bool.or_eq_true_iff.mpr (Or.inr (by simpa using hf))

theorem linkTouch_len (sn : List Endpoint) (hostname : String)
    (ht : MplsCfg.LinkTouch hostname sn) : sn.length = 2 := by
  obtain ⟨f0, f1, hfeq, _⟩ := ht
  rw [hfeq]
  rfl

theorem findPeIpGo_spec (routers : MplsCfg.Routers) (hostname : String) :
    ∀ (links : List (List Endpoint)) (res : Option (Option Nat)),
      MplsCfg.findPeIpGo routers hostname links = .ok res →
      (∃ pre sn post e0 e1, links = pre ++ sn :: post ∧ sn = [e0, e1] ∧
        (e0.router = hostname ∨ e1.router = hostname) ∧
        (∀ sn2 ∈ pre, ¬ MplsCfg.LinkTouch hostname sn2) ∧
        ∃ pr pif, dget routers (MplsCfg.peSideOf hostname e0 e1).1 = some pr ∧
          dget pr.interfaces (MplsCfg.peSideOf hostname e0 e1).2 = some pif ∧
          res = some pif.ip_address) ∨
      (res = none ∧ ∀ sn ∈ links, ¬ MplsCfg.LinkTouch hostname sn) := by
  intro links
  induction links with
  | nil =>
    intro res h
    simp only [MplsCfg.findPeIpGo, Except.ok.injEq] at h
    refine Or.inr ⟨h.symm, ?_⟩
    intro sn hsn
    simp at hsn
  | cons sn t ih =>
    intro res h
    rw [MplsCfg.findPeIpGo] at h
    by_cases hlen : sn.length = 2
    · rw [dif_pos hlen] at h
      by_cases hcond :
          ((sn.get ⟨0, by omega⟩).router == hostname || (sn.get ⟨1, by omega⟩).router == hostname) = true
      · rw [if_pos hcond] at h
        cases hpr : dget routers (MplsCfg.peSideOf hostname (sn.get ⟨0, by omega⟩)
            (sn.get ⟨1, by omega⟩)).1 with
        | none => simp only [hpr] at h; exact Except.noConfusion h
        | some pr =>
          simp only [hpr] at h
          cases hpif : dget pr.interfaces (MplsCfg.peSideOf hostname (sn.get ⟨0, by omega⟩)
              (sn.get ⟨1, by omega⟩)).2 with
          | none => simp only [hpif] at h; exact Except.noConfusion h
          | some pif =>
            simp only [hpif, Except.ok.injEq] at h
            refine Or.inl ⟨[], sn, t, sn.get ⟨0, by omega⟩, sn.get ⟨1, by omega⟩,
              rfl, list_len2_eq sn hlen, ?_, ?_, pr, pif, hpr, hpif, h.symm⟩
            · rcases Bool.or_eq_true_iff.mp hcond with h0 | h1
              · exact Or.inl (by simpa using h0)
              · exact Or.inr (by simpa using h1)
            · intro sn2 hsn2
              simp at hsn2
      · rw [if_neg hcond] at h
        rcases ih res h with ⟨pre, sn1, post, e0, e1, heq, hsn1, hd, hpre, rest⟩ | ⟨hres, hall⟩
        · refine Or.inl ⟨sn :: pre, sn1, post, e0, e1, by rw [heq, List.cons_append],
            hsn1, hd, ?_, rest⟩
          intro sn2 hsn2
          rcases List.mem_cons.mp hsn2 with he | hm
          · intro ht
            exact hcond (linkTouch_cond sn hlen hostname (he ▸ ht))
          · exact hpre sn2 hm
        · refine Or.inr ⟨hres, ?_⟩
          intro sn2 hsn2
          rcases List.mem_cons.mp hsn2 with he | hm
          · intro ht
            exact hcond (linkTouch_cond sn hlen hostname (he ▸ ht))
          · exact hall sn2 hm
    · rw [dif_neg hlen] at h
      rcases ih res h with ⟨pre, sn1, post, e0, e1, heq, hsn1, hd, hpre, rest⟩ | ⟨hres, hall⟩
      · refine Or.inl ⟨sn :: pre, sn1, post, e0, e1, by rw [heq, List.cons_append],
          hsn1, hd, ?_, rest⟩
        intro sn2 hsn2
        rcases List.mem_cons.mp hsn2 with he | hm
        · intro ht
          exact hlen (linkTouch_len sn hostname (he ▸ ht))
        · exact hpre sn2 hm
      · refine Or.inr ⟨hres, ?_⟩
        intro sn2 hsn2
        rcases List.mem_cons.mp hsn2 with he | hm
        · intro ht
          exact hlen (linkTouch_len sn hostname (he ▸ ht))
        · exact hall sn2 hm

/-- C4 (amended): for a CE router compiled by MPLSConfig, the single upstream
    eBGP neighbor address in its router bgp stanza is the opposite endpoint's
    assigned address of the first two-endpoint link, in declared link order,
    touching that CE (sentinel 0.0.0.0 when none matches or the opposite
    interface is unaddressed); NetworkConfigGenerator instead scans all links
    without breaking, so there the last PE-facing link wins (see the
    counterexample). -/
theorem C4_amended (m : MplsCfg.Model) (r : MplsCfg.Router) (lines : List String)
    (h : MplsCfg.ceBgp m r = .ok lines) :
    ∃ peIp, lines.get? 1 =
      some (" neighbor " ++ peIp ++ " remote-as " ++ toString m.backboneAsNum) ∧
      ((∃ pre sn post e0 e1, m.subnets = pre ++ sn :: post ∧ sn = [e0, e1] ∧
        (e0.router = r.hostname ∨ e1.router = r.hostname) ∧
        (∀ sn2 ∈ pre, ¬ MplsCfg.LinkTouch r.hostname sn2) ∧
        ∃ pr pif, dget m.routers (MplsCfg.peSideOf r.hostname e0 e1).1 = some pr ∧
          dget pr.interfaces (MplsCfg.peSideOf r.hostname e0 e1).2 = some pif ∧
          ((pif.ip_address = none ∧ peIp = "0.0.0.0") ∨
           (∃ a, pif.ip_address = some a ∧ peIp = ipStr a))) ∨
       (peIp = "0.0.0.0" ∧ ∀ sn ∈ m.subnets, ¬ MplsCfg.LinkTouch r.hostname sn)) := by
  rw [MplsCfg.ceBgp] at h
  obtain ⟨found, hfound, h⟩ := exc_bindM_ok h
  rw [MplsCfg.findPeIp] at hfound
  simp only [Except.ok.injEq] at h
  rcases findPeIpGo_spec m.routers r.hostname m.subnets found hfound with
    ⟨pre, sn, post, e0, e1, heq, hsn, hd, hpre, pr, pif, hpr, hpif, hres⟩ | ⟨hres, hall⟩
  · cases hip : pif.ip_address with
    | none =>
      refine ⟨"0.0.0.0", ?_, Or.inl ⟨pre, sn, post, e0, e1, heq, hsn, hd, hpre, pr, pif,
        hpr, hpif, Or.inl ⟨hip, rfl⟩⟩⟩
      rw [← h, hres, hip]
      rfl
    | some a =>
      refine ⟨ipStr a, ?_, Or.inl ⟨pre, sn, post, e0, e1, heq, hsn, hd, hpre, pr, pif,
        hpr, hpif, Or.inr ⟨a, hip, rfl⟩⟩⟩
      rw [← h, hres, hip]
      rfl
  · refine ⟨"0.0.0.0", ?_, Or.inr ⟨rfl, hall⟩⟩
    rw [← h, hres]
    rfl

/-- C4 (witness): for the CE of fixture A the neighbor line carries the address
    of the opposite endpoint of its first (only) link. -/
theorem C4_witness :
    ∃ peIp, fxACeLines.get? 1 =
      some (" neighbor " ++ peIp ++ " remote-as " ++ toString fxASt.backboneAsNum) ∧
      ((∃ pre sn post e0 e1, fxASt.subnets = pre ++ sn :: post ∧ sn = [e0, e1] ∧
        (e0.router = fxACe.hostname ∨ e1.router = fxACe.hostname) ∧
        (∀ sn2 ∈ pre, ¬ MplsCfg.LinkTouch fxACe.hostname sn2) ∧
        ∃ pr pif, dget fxASt.routers (MplsCfg.peSideOf fxACe.hostname e0 e1).1 = some pr ∧
          dget pr.interfaces (MplsCfg.peSideOf fxACe.hostname e0 e1).2 = some pif ∧
          ((pif.ip_address = none ∧ peIp = "0.0.0.0") ∨
           (∃ a, pif.ip_address = some a ∧ peIp = ipStr a))) ∨
       (peIp = "0.0.0.0" ∧ ∀ sn ∈ fxASt.subnets, ¬ MplsCfg.LinkTouch fxACe.hostname sn)) :=
  C4_amended fxASt fxACe fxACeLines (by rfl)

/-- C4 (counterexample): in NetworkConfigGenerator on fixture D, the CE is
    linked first to PE1 (address 192.168.0.2) and then to PE2 (address
    192.168.1.2); the emitted upstream neighbor is PE2's address, because the
    scan has no break and the last PE-facing link wins, contradicting the
    first-link rule of the claim. -/
theorem C4_counterexample :
    (Ncg.ngCeBgp fxDSt "CE1").map (fun l => l.get? 1) =
      .ok (some " neighbor 192.168.1.2 remote-as 65000") ∧
    (Ncg.nifaceOf fxDSt "PE1" "GigabitEthernet0/0").map (fun i => i.ip) =
      some (some 3232235522) ∧
    ipStr 3232235522 = "192.168.0.2" ∧
    (" neighbor 192.168.1.2 remote-as 65000" : String) ≠
      " neighbor 192.168.0.2 remote-as 65000" :=
  ⟨by rfl, by rfl, by rfl, by decide⟩

/-- C5 (amended): a draw on an exhausted loopback or physical iterator raises a
    bare StopIteration, a draw on an AS without a physical pool raises an
    AttributeError (MPLSConfig) — neither carries the AS number or pool kind —
    and any exception from the build aborts the compile with no per-router
    output.  The claimed AddressPoolExhausted error naming AS and pool type
    does not exist in the code (see the counterexample). -/
theorem C5_amended :
    (∀ (a : MplsCfg.ASObj) (c : Cidr), a.loopbackPool = some c →
      hostAt c a.loopbackCursor = none →
      MplsCfg.drawLoopback a = .error .stopIteration) ∧
    (∀ (a : MplsCfg.ASObj) (c : Cidr), a.physicalPool = some c → c.plen ≤ 24 →
      subnetAt c a.physicalCursor = none →
      MplsCfg.drawPhysical a = .error .stopIteration) ∧
    (∀ a : MplsCfg.ASObj, a.physicalPool = none →
      MplsCfg.drawPhysical a = .error (.attributeError "physical_iterator")) ∧
    (∀ (it : Intent) (now : String) (e : PyErr), MplsCfg.build it = .error e →
      MplsCfg.compileAll it now = .error e) := by
  refine ⟨?_, ?_, ?_, ?_⟩
  · intro a c hc hex
    simp only [MplsCfg.drawLoopback, hc, hex]
  · intro a c hc hple hex
    simp only [MplsCfg.drawPhysical, hc, hex]
    rw [if_neg (by omega)]
  · intro a hc
    simp only [MplsCfg.drawPhysical, hc]
  · intro it now e h
    rw [MplsCfg.compileAll]
    rw [show (MplsCfg.build it >>= fun m =>
        m.routers.mapM (fun p => do
          let c ← MplsCfg.generateConfig m now p.1
          Except.ok (p.1, c))) =
      (MplsCfg.build it).bind (fun m =>
        m.routers.mapM (fun p => do
          let c ← MplsCfg.generateConfig m now p.1
          Except.ok (p.1, c))) from rfl, h]
    rfl

/-- C5 (witness): the third loopback draw of fixture E1 finds the /30 pool
    exhausted and the whole compile aborts with that StopIteration, returning
    no output. -/
theorem C5_witness :
    MplsCfg.drawLoopback
      { as_number := 65000, backbone := true, loopbackPool := some ⟨167772160, 30⟩,
        physicalPool := none, loopbackCursor := 2, physicalCursor := 0 } =
      .error .stopIteration ∧
    MplsCfg.compileAll fxE1 "T" = .error .stopIteration :=
  ⟨C5_amended.1 _ ⟨167772160, 30⟩ rfl (by rfl),
   C5_amended.2.2.2 fxE1 "T" .stopIteration (by rfl)⟩

/-- C5 (counterexample): the compile of fixture E1 fails with a bare
    StopIteration and the compile of fixture E2 (CE AS without a physical pool)
    fails with AttributeError in MPLSConfig and with KeyError at allocator
    setup in NetworkConfigGenerator; `PyErr` enumerates every exception the
    embedded code can raise, and none is an AddressPoolExhausted identifying
    the AS and pool type, so the claimed error does not occur. -/
theorem C5_counterexample :
    MplsCfg.compileAll fxE1 "T" = .error PyErr.stopIteration ∧
    MplsCfg.compileAll fxE2 "T" = .error (PyErr.attributeError "physical_iterator") ∧
    Ncg.ngBuild fxE2 = .error (PyErr.keyError "physical") :=
  ⟨by rfl, by rfl, by rfl⟩

theorem mc_vpnv4Lines_len (n : String) :
    ∀ (pes : MplsCfg.Routers) (act : List String),
      MplsCfg.vpnv4Lines n pes = .ok act →
      act.length = 2 * (pes.filter (fun p => p.2.hostname != n)).length := by
  intro pes
  induction pes with
  | nil =>
    intro act h
    simp only [MplsCfg.vpnv4Lines, Except.ok.injEq] at h
    simp [← h]
  | cons p t ih =>
    intro act h
    rw [MplsCfg.vpnv4Lines] at h
    by_cases hne : (p.2.hostname != n) = true
    · rw [if_pos hne] at h
      cases hlo : dget p.2.interfaces "Loopback0" with
      | none => simp only [hlo] at h; exact Except.noConfusion h
      | some lo =>
        simp only [hlo] at h
        obtain ⟨rest, hrest, h⟩ := exc_bindM_ok h
        simp only [Except.ok.injEq] at h
        rw [← h]
        have := ih rest hrest
        simp [List.filter, hne, this]
        omega
    · rw [if_neg hne] at h
      have := ih act h
      simp only [Bool.not_eq_true] at hne
      simp [List.filter, hne, this]

theorem mc_ibgpLines_shape (n : String) (a : Nat) :
    ∀ (pes : MplsCfg.Routers) (ib : List String),
      MplsCfg.ibgpLines n a pes = .ok ib → ∀ l ∈ ib, ∃ s, l = " neighbor " ++ s := by
  intro pes
  induction pes with
  | nil =>
    intro ib h l hl
    simp only [MplsCfg.ibgpLines, Except.ok.injEq] at h
    rw [← h] at hl
    simp at hl
  | cons p t ih =>
    intro ib h l hl
    rw [MplsCfg.ibgpLines] at h
    by_cases hne : (p.2.hostname != n) = true
    · rw [if_pos hne] at h
      cases hlo : dget p.2.interfaces "Loopback0" with
      | none => simp only [hlo] at h; exact Except.noConfusion h
      | some lo =>
        simp only [hlo] at h
        obtain ⟨rest, hrest, h⟩ := exc_bindM_ok h
        simp only [Except.ok.injEq] at h
        rw [← h] at hl
        rcases List.mem_cons.mp hl with h1 | hl2
        · exact ⟨_, by rw [h1, String.append_assoc, String.append_assoc]⟩
        rcases List.mem_cons.mp hl2 with h2 | hl3
        · exact ⟨_, by rw [h2, String.append_assoc]⟩
        · exact ih rest hrest l hl3
    · rw [if_neg hne] at h
      exact ih ib h l hl

theorem mc_vpnv4Lines_shape (n : String) :
    ∀ (pes : MplsCfg.Routers) (act : List String),
      MplsCfg.vpnv4Lines n pes = .ok act → ∀ l ∈ act, ∃ s, l = "  neighbor " ++ s := by
  intro pes
  induction pes with
  | nil =>
    intro act h l hl
    simp only [MplsCfg.vpnv4Lines, Except.ok.injEq] at h
    rw [← h] at hl
    simp at hl
  | cons p t ih =>
    intro act h l hl
    rw [MplsCfg.vpnv4Lines] at h
    by_cases hne : (p.2.hostname != n) = true
    · rw [if_pos hne] at h
      cases hlo : dget p.2.interfaces "Loopback0" with
      | none => simp only [hlo] at h; exact Except.noConfusion h
      | some lo =>
        simp only [hlo] at h
        obtain ⟨rest, hrest, h⟩ := exc_bindM_ok h
        simp only [Except.ok.injEq] at h
        rw [← h] at hl
        rcases List.mem_cons.mp hl with h1 | hl2
        · exact ⟨_, by rw [h1, String.append_assoc]⟩
        rcases List.mem_cons.mp hl2 with h2 | hl3
        · exact ⟨_, by rw [h2, String.append_assoc]⟩
        · exact ih rest hrest l hl3
    · rw [if_neg hne] at h
      exact ih act h l hl

theorem mc_vrfAfLines_spec (m : MplsCfg.Model) (r : MplsCfg.Router) :
    ∀ (vrfs : List Vrf) (vb : List String),
      MplsCfg.vrfAfLines m r vrfs = .ok vb →
      ∃ blocks : List (List String), vb = blocks.flatten ∧ blocks.length = vrfs.length ∧
        ∀ b ∈ blocks, ∃ (ip : String) (asn : Nat) (vn : String), b =
          ["!", " address-family ipv4 vrf " ++ vn,
           "  neighbor " ++ ip ++ " remote-as " ++ toString asn,
           "  neighbor " ++ ip ++ " activate", " exit-address-family"] := by
  intro vrfs
  induction vrfs with
  | nil =>
    intro vb h
    simp only [MplsCfg.vrfAfLines, Except.ok.injEq] at h
    exact ⟨[], by simp [← h], rfl, by intro b hb; simp at hb⟩
  | cons v t ih =>
    intro vb h
    rw [MplsCfg.vrfAfLines] at h
    obtain ⟨ai, hai, h⟩ := exc_bindM_ok h
    obtain ⟨ceAs, hceAs, h⟩ := exc_bindM_ok h
    obtain ⟨ceIp, hceIp, h⟩ := exc_bindM_ok h
    obtain ⟨rest, hrest, h⟩ := exc_bindM_ok h
    simp only [Except.ok.injEq] at h
    obtain ⟨blocks, hb1, hb2, hb3⟩ := ih rest hrest
    refine ⟨["!", " address-family ipv4 vrf " ++ v.name,
             "  neighbor " ++ ceIp ++ " remote-as " ++ toString ceAs,
             "  neighbor " ++ ceIp ++ " activate", " exit-address-family"] :: blocks,
      ?_, by simp [hb2], ?_⟩
    · rw [← h, hb1]
      simp [List.flatten]
    · intro b hb
      rcases List.mem_cons.mp hb with h1 | h2
      · exact ⟨ceIp, ceAs, v.name, h1⟩
      · exact hb3 b h2

theorem mc_mpbgp_struct (m : MplsCfg.Model) (r : MplsCfg.Router) (pes : MplsCfg.Routers)
    (lines : List String) (h : MplsCfg.mpbgp m r pes = .ok lines) :
    ∃ lo ib act blocks,
      dget r.interfaces "Loopback0" = some lo ∧
      MplsCfg.ibgpLines r.hostname r.asNumber pes = .ok ib ∧
      MplsCfg.vpnv4Lines r.hostname pes = .ok act ∧
      lines = ["router bgp " ++ toString r.asNumber,
               " bgp router-id " ++ ipOptStr lo.ip_address] ++ ib ++
              [" !", " address-family vpnv4"] ++ act ++ [" exit-address-family"] ++
              (blocks : List (List String)).flatten ++ ["!"] ∧
      act.length = 2 * (pes.filter (fun p => p.2.hostname != r.hostname)).length ∧
      blocks.length = r.vrfs.length ∧
      ∀ b ∈ blocks, ∃ (ip : String) (asn : Nat) (vn : String), b =
        ["!", " address-family ipv4 vrf " ++ vn,
         "  neighbor " ++ ip ++ " remote-as " ++ toString asn,
         "  neighbor " ++ ip ++ " activate", " exit-address-family"] := by
  rw [MplsCfg.mpbgp] at h
  cases hlo : dget r.interfaces "Loopback0" with
  | none => simp only [hlo] at h; exact Except.noConfusion h
  | some lo =>
    simp only [hlo] at h
    obtain ⟨lo2, hlo2, h⟩ := exc_bindM_ok h
    obtain ⟨ib, hib, h⟩ := exc_bindM_ok h
    obtain ⟨act, hact, h⟩ := exc_bindM_ok h
    obtain ⟨vb, hvb, h⟩ := exc_bindM_ok h
    injection h with h
    injection hlo2 with hlo2
    subst hlo2
    obtain ⟨blocks, hb1, hb2, hb3⟩ := mc_vrfAfLines_spec m r r.vrfs vb hvb
    exact ⟨lo, ib, act, blocks, rfl, hib, hact, by rw [← h, hb1],
      mc_vpnv4Lines_len r.hostname pes act hact, hb2, hb3⟩

/-- C7 (amended): for a PE compiled against a PE map holding M other PE
    routers, the emitted BGP stanza's vpnv4 address-family holds exactly M
    activate and send-community neighbor line pairs, hence 2 times M neighbor
    lines (not 2 times M minus 1 pairs as claimed), and every VRF
    address-family block declares exactly one neighbor address, carried by one
    remote-as line and one activate line. -/
theorem C7_amended (m : MplsCfg.Model) (r : MplsCfg.Router) (pes : MplsCfg.Routers)
    (lines : List String) (h : MplsCfg.mpbgp m r pes = .ok lines) :
    ∃ lo ib act blocks,
      dget r.interfaces "Loopback0" = some lo ∧
      lines = ["router bgp " ++ toString r.asNumber,
               " bgp router-id " ++ ipOptStr lo.ip_address] ++ ib ++
              [" !", " address-family vpnv4"] ++ act ++ [" exit-address-family"] ++
              (blocks : List (List String)).flatten ++ ["!"] ∧
      act.length = 2 * (pes.filter (fun p => p.2.hostname != r.hostname)).length ∧
      blocks.length = r.vrfs.length ∧
      ∀ b ∈ blocks, ∃ (ip : String) (asn : Nat) (vn : String), b =
        ["!", " address-family ipv4 vrf " ++ vn,
         "  neighbor " ++ ip ++ " remote-as " ++ toString asn,
         "  neighbor " ++ ip ++ " activate", " exit-address-family"] := by
  obtain ⟨lo, ib, act, blocks, h1, _, _, h4, h5, h6, h7⟩ := mc_mpbgp_struct m r pes lines h
  exact ⟨lo, ib, act, blocks, h1, h4, h5, h6, h7⟩

/-- C7 (witness): the structure theorem applied to PE1 of fixture G (one other
    PE, so the vpnv4 section holds exactly two neighbor lines, one pair). -/
theorem C7_witness :
    ∃ lo ib act blocks,
      dget fxGPe1.interfaces "Loopback0" = some lo ∧
      fxGLines = ["router bgp " ++ toString fxGPe1.asNumber,
               " bgp router-id " ++ ipOptStr lo.ip_address] ++ ib ++
              [" !", " address-family vpnv4"] ++ act ++ [" exit-address-family"] ++
              (blocks : List (List String)).flatten ++ ["!"] ∧
      act.length = 2 * (fxGPes.filter (fun p => p.2.hostname != fxGPe1.hostname)).length ∧
      blocks.length = fxGPe1.vrfs.length ∧
      ∀ b ∈ blocks, ∃ (ip : String) (asn : Nat) (vn : String), b =
        ["!", " address-family ipv4 vrf " ++ vn,
         "  neighbor " ++ ip ++ " remote-as " ++ toString asn,
         "  neighbor " ++ ip ++ " activate", " exit-address-family"] :=
  C7_amended fxGSt fxGPe1 fxGPes fxGLines (by rfl)

/-- C7 (counterexample): PE1 of fixture G is compiled against M = 1 other PE
    and no VRFs, and its stanza holds exactly one vpnv4 activate line (one
    neighbor/activate pair), where the claim demands 2 times (M minus 1) = 0
    pairs. -/
theorem C7_counterexample :
    fxGLines.countP isVpnActivate = 1 ∧
    (fxGPes.filter (fun p => p.2.hostname != "PE1")).length = 1 ∧
    2 * (1 - 1) = 0 ∧ (1 : Nat) ≠ 0 :=
  ⟨by rfl, by rfl, by rfl, by decide⟩

theorem append_lit_ne (p s t : String) (k : Nat) (hk : k < p.data.length)
    (h : p.data.get? k ≠ t.data.get? k) : p ++ s ≠ t := by
  intro e
  have h2 := congrArg String.data e
  rw [String.data_append] at h2
  apply h
  rw [← h2, List.get?_append hk]

theorem vrfHdrFold_mem (vrfs : List Vrf) (acc : List String) (l : String)
    (hl : l ∈ vrfs.foldl
      (fun acc v =>
        acc ++ ["ip vrf " ++ v.name, " rd " ++ v.rd] ++
          v.rt_export.map (fun rt => " route-target export " ++ rt) ++
          v.rt_import.map (fun rt => " route-target import " ++ rt) ++ ["!"])
      acc) :
    l ∈ acc ∨ (∃ s, l = "ip vrf " ++ s) ∨ (∃ s, l = " rd " ++ s) ∨
      (∃ s, l = " route-target export " ++ s) ∨ (∃ s, l = " route-target import " ++ s) ∨
      l = "!" := by
  induction vrfs generalizing acc with
  | nil => exact Or.inl hl
  | cons v t ih =>
    rcases ih _ hl with hacc | rest
    · simp only [List.mem_append, List.mem_cons, List.not_mem_nil, or_false,
        List.mem_map] at hacc
      rcases hacc with (((hacc0 | hab) | hm1) | hm2) | hbang
      · exact Or.inl hacc0
      · rcases hab with h2a | h2b
        · exact Or.inr (Or.inl ⟨v.name, h2a⟩)
        · exact Or.inr (Or.inr (Or.inl ⟨v.rd, h2b⟩))
      · obtain ⟨rt, _, hrt⟩ := hm1
        exact Or.inr (Or.inr (Or.inr (Or.inl ⟨rt, hrt.symm⟩)))
      · obtain ⟨rt, _, hrt⟩ := hm2
        exact Or.inr (Or.inr (Or.inr (Or.inr (Or.inl ⟨rt, hrt.symm⟩))))
      · exact Or.inr (Or.inr (Or.inr (Or.inr (Or.inr hbang))))
    · exact Or.inr rest

theorem hdr_no_ospf (r : MplsCfg.Router) (now : String) :
    ∀ l ∈ MplsCfg.genHeader r now, l ≠ "router ospf 1" := by
  intro l hl
  rw [MplsCfg.genHeader] at hl
  rcases List.mem_append.mp hl with hfix | hvrf
  · simp only [List.mem_cons, List.not_mem_nil, or_false] at hfix
    rcases hfix with h | h | h | h | h | h | h | h | h | h | h | h
    all_goals subst h
    · decide
    · exact append_lit_ne "! Last configuration change at " now _ 0 (by decide) (by decide)
    · decide
    · decide
    · decide
    · decide
    · decide
    · exact append_lit_ne "hostname " r.hostname _ 0 (by decide) (by decide)
    · decide
    · decide
    · decide
    · decide
  · by_cases hpe : (r.rtype == "PE" && !r.vrfs.isEmpty) = true
    · rw [if_pos hpe] at hvrf
      rcases vrfHdrFold_mem r.vrfs [] l hvrf with hacc | ⟨s, hs⟩ | ⟨s, hs⟩ | ⟨s, hs⟩ | ⟨s, hs⟩ | hb
      · simp at hacc
      · exact hs ▸ append_lit_ne "ip vrf " s _ 0 (by decide) (by decide)
      · exact hs ▸ append_lit_ne " rd " s _ 0 (by decide) (by decide)
      · exact hs ▸ append_lit_ne " route-target export " s _ 0 (by decide) (by decide)
      · exact hs ▸ append_lit_ne " route-target import " s _ 0 (by decide) (by decide)
      · exact hb ▸ (by decide)
    · rw [if_neg hpe] at hvrf
      simp at hvrf

theorem ifaceCfg_mem (i : MplsCfg.Iface) (rtype : String) (asn : Nat) (vn : Option String)
    (l : String) (hl : l ∈ MplsCfg.ifaceCfg i rtype asn vn) :
    (∃ s, l = "interface " ++ s) ∨ (∃ s, l = " ip vrf forwarding " ++ s) ∨
    (∃ s, l = " ip address " ++ s) ∨ (∃ s, l = " ip ospf 1 area " ++ s) ∨
    l = " negotiation auto" ∨ l = "!" := by
  unfold MplsCfg.ifaceCfg at hl
  simp only [List.mem_append, List.mem_cons, List.not_mem_nil, or_false] at hl
  rcases hl with ((((hint | hvrf) | hip) | hospf) | hneg) | hb
  · exact Or.inl ⟨i.name, hint⟩
  · rcases vn with _ | v
    · simp at hvrf
    · simp at hvrf
      exact Or.inr (Or.inl ⟨v, hvrf⟩)
  · rcases hipa : i.ip_address with _ | a
    · rw [hipa] at hip; simp at hip
    · rw [hipa] at hip
      simp at hip
      refine Or.inr (Or.inr (Or.inl ⟨ipStr a ++ " " ++ ipOptStr i.ip_mask, ?_⟩))
      rw [hip, String.append_assoc, String.append_assoc, String.append_assoc]
  · by_cases hc : ((rtype == "PE" || rtype == "P") && (i.is_internal || i.name == "Loopback0")) = true
    · rw [if_pos hc] at hospf
      simp at hospf
      exact Or.inr (Or.inr (Or.inr (Or.inl ⟨toString asn, hospf⟩)))
    · rw [if_neg hc] at hospf
      simp at hospf
  · by_cases hg : hasGig i.name = true
    · rw [if_pos hg] at hneg
      simp at hneg
      exact Or.inr (Or.inr (Or.inr (Or.inr (Or.inl hneg))))
    · rw [if_neg hg] at hneg
      simp at hneg
  · exact Or.inr (Or.inr (Or.inr (Or.inr (Or.inr hb))))

theorem ifaces_no_ospf (r : MplsCfg.Router) :
    ∀ l ∈ MplsCfg.genInterfaces r, l ≠ "router ospf 1" := by
  have hgen : ∀ (ifs : List (String × MplsCfg.Iface)) (acc : List String),
      (∀ l ∈ acc, l ≠ "router ospf 1") →
      ∀ l ∈ ifs.foldl
        (fun acc p =>
          acc ++ MplsCfg.ifaceCfg p.2 r.rtype r.asNumber
            ((MplsCfg.findVrf r.vrfs p.1).map (fun v => v.name)))
        acc, l ≠ "router ospf 1" := by
    intro ifs
    induction ifs with
    | nil => intro acc hacc l hl; exact hacc l hl
    | cons p t ih =>
      intro acc hacc l hl
      refine ih _ ?_ l hl
      intro l2 hl2
      rcases List.mem_append.mp hl2 with ha | hc
      · exact hacc l2 ha
      · rcases ifaceCfg_mem p.2 r.rtype r.asNumber _ l2 hc with
          ⟨s, hs⟩ | ⟨s, hs⟩ | ⟨s, hs⟩ | ⟨s, hs⟩ | hs | hs
        · exact hs ▸ append_lit_ne "interface " s _ 0 (by decide) (by decide)
        · exact hs ▸ append_lit_ne " ip vrf forwarding " s _ 0 (by decide) (by decide)
        · exact hs ▸ append_lit_ne " ip address " s _ 0 (by decide) (by decide)
        · exact hs ▸ append_lit_ne " ip ospf 1 area " s _ 0 (by decide) (by decide)
        · exact hs ▸ (by decide)
        · exact hs ▸ (by decide)
  intro l hl
  exact hgen r.interfaces [] (by intro l2 hl2; simp at hl2) l hl

theorem mpbgp_no_ospf (m : MplsCfg.Model) (r : MplsCfg.Router) (pes : MplsCfg.Routers)
    (lines : List String) (h : MplsCfg.mpbgp m r pes = .ok lines) :
    ∀ l ∈ lines, l ≠ "router ospf 1" := by
  obtain ⟨lo, ib, act, blocks, _, hib, hact, heq, _, _, hblocks⟩ := mc_mpbgp_struct m r pes lines h
  intro l hl
  rw [heq] at hl
  simp only [List.append_assoc, List.mem_append, List.mem_cons, List.not_mem_nil,
    or_false] at hl
  rcases hl with (h1 | h2) | hib2 | (h3 | h4) | hact2 | hexit | hfl | hbang
  · exact h1 ▸ append_lit_ne "router bgp " (toString r.asNumber) _ 7 (by decide) (by decide)
  · exact h2 ▸ append_lit_ne " bgp router-id " (ipOptStr lo.ip_address) _ 0 (by decide) (by decide)
  · obtain ⟨s, hs⟩ := mc_ibgpLines_shape r.hostname r.asNumber pes ib hib l hib2
    exact hs ▸ append_lit_ne " neighbor " s _ 0 (by decide) (by decide)
  · rw [h3]; decide
  · rw [h4]; decide
  · obtain ⟨s, hs⟩ := mc_vpnv4Lines_shape r.hostname pes act hact l hact2
    exact hs ▸ append_lit_ne "  neighbor " s _ 0 (by decide) (by decide)
  · rw [hexit]; decide
  · obtain ⟨b, hbmem, hlb⟩ := List.mem_flatten.mp hfl
    obtain ⟨ip, asn, vn, hbeq⟩ := hblocks b hbmem
    rw [hbeq] at hlb
    simp only [List.mem_cons, List.not_mem_nil, or_false] at hlb
    rcases hlb with hx | hx | hx | hx | hx
    · rw [hx]; decide
    · rw [hx]
      exact append_lit_ne " address-family ipv4 vrf " vn _ 0 (by decide) (by decide)
    · rw [hx, String.append_assoc, String.append_assoc]
      exact append_lit_ne "  neighbor " _ _ 0 (by decide) (by decide)
    · rw [hx, String.append_assoc]
      exact append_lit_ne "  neighbor " _ _ 0 (by decide) (by decide)
    · rw [hx]; decide
  · rw [hbang]; decide

theorem footer_no_ospf : ∀ l ∈ MplsCfg.genFooter, l ≠ "router ospf 1" := by
  intro l hl
  simp only [MplsCfg.genFooter, List.mem_cons, List.not_mem_nil, or_false] at hl
  rcases hl with h | h | h | h | h | h | h | h
  all_goals rw [h]
  all_goals decide

theorem count_zero_of_ne (l : List String) (t : String) (h : ∀ x ∈ l, x ≠ t) :
    l.count t = 0 :=
  List.count_eq_zero.mpr (fun hmem => h t hmem rfl)

theorem genOspf_count (rid : String) :
    (["router ospf 1", " router-id " ++ rid, " mpls ldp autoconfig", "!"] : List String).count
      "router ospf 1" = 1 := by
  have hne : ¬("router ospf 1" = " router-id " ++ rid) := by
    intro e
    exact append_lit_ne " router-id " rid "router ospf 1" 0 (by decide) (by decide) e.symm
  simp [List.count_cons, hne]

theorem genConfigLines_P_total (m : MplsCfg.Model) (r : MplsCfg.Router) (pes : MplsCfg.Routers)
    (now : String) (hP : r.rtype = "P") :
    MplsCfg.genConfigLines m r pes now =
      .ok (MplsCfg.genHeader r now ++ MplsCfg.genInterfaces r ++ MplsCfg.genOspf r ++
        [] ++ MplsCfg.genFooter) := by
  have h1 : (r.rtype == "PE") = false := by rw [hP]; rfl
  have h2 : (r.rtype == "CE") = false := by rw [hP]; rfl
  have h3 : (r.rtype == "P") = true := by rw [hP]; rfl
  rw [MplsCfg.genConfigLines]
  simp [h1, h2, h3]
  rfl

/-- C8 (amended): for every MPLSConfig router of type PE or P whose emission
    succeeds, the configuration contains exactly one router ospf 1 stanza whose
    router-id line carries the Loopback0 address, or 0.0.0.0 when Loopback0 is
    absent or unaddressed; emission of a P router never fails, in particular
    not in the absent-Loopback0 case.  (A PE without Loopback0 instead fails in
    the MP-BGP emitter with a KeyError, and in NetworkConfigGenerator any PE or
    P router without an addressed Loopback0 makes emission fail with a KeyError
    — see the counterexample.) -/
theorem C8_amended (m : MplsCfg.Model) (name now : String) (r : MplsCfg.Router)
    (lines : List String) (hr : dget m.routers name = some r)
    (hty : r.rtype = "PE" ∨ r.rtype = "P")
    (h : MplsCfg.generateConfig m now name = .ok lines) :
    lines.count "router ospf 1" = 1 ∧
    (∃ pre post rid,
      lines = pre ++ ["router ospf 1", " router-id " ++ rid, " mpls ldp autoconfig", "!"] ++
        post ∧
      ((∃ lo a, dget r.interfaces "Loopback0" = some lo ∧ lo.ip_address = some a ∧
          rid = ipStr a) ∨
       ((dget r.interfaces "Loopback0" = none ∨
         ∃ lo, dget r.interfaces "Loopback0" = some lo ∧ lo.ip_address = none) ∧
        rid = "0.0.0.0"))) ∧
    (r.rtype = "P" → ∀ now2 : String, ∃ l2, MplsCfg.generateConfig m now2 name = .ok l2) := by
  simp only [MplsCfg.generateConfig, hr] at h
  rw [MplsCfg.genConfigLines] at h
  obtain ⟨bgp, hbgp, h⟩ := exc_bindM_ok h
  injection h with h
  have hcond : (r.rtype == "PE" || r.rtype == "P") = true := by
    rcases hty with h' | h'
    · rw [h']; rfl
    · rw [h']; rfl
  rw [if_pos hcond] at h
  have hbgpok : ∀ l ∈ bgp, l ≠ "router ospf 1" := by
    by_cases hc1 : (r.rtype == "PE" && !(m.routers.filter
        (fun p => p.2.rtype == "PE")).isEmpty) = true
    · rw [if_pos hc1] at hbgp
      exact mpbgp_no_ospf m r _ bgp hbgp
    · rw [if_neg hc1] at hbgp
      have hc2 : (r.rtype == "CE") = false := by
        rcases hty with h' | h'
        · rw [h']; rfl
        · rw [h']; rfl
      rw [hc2] at hbgp
      simp only [Bool.false_eq_true, if_false, Except.ok.injEq] at hbgp
      rw [← hbgp]
      intro l hl
      simp at hl
  have hrid : ∃ rid, MplsCfg.genOspf r =
      ["router ospf 1", " router-id " ++ rid, " mpls ldp autoconfig", "!"] ∧
      ((∃ lo a, dget r.interfaces "Loopback0" = some lo ∧ lo.ip_address = some a ∧
          rid = ipStr a) ∨
       ((dget r.interfaces "Loopback0" = none ∨
         ∃ lo, dget r.interfaces "Loopback0" = some lo ∧ lo.ip_address = none) ∧
        rid = "0.0.0.0")) := by
    cases hlo : dget r.interfaces "Loopback0" with
    | none =>
      refine ⟨"0.0.0.0", ?_, Or.inr ⟨Or.inl rfl, rfl⟩⟩
      simp only [MplsCfg.genOspf, hlo]
    | some lo =>
      cases hip : lo.ip_address with
      | none =>
        refine ⟨"0.0.0.0", ?_, Or.inr ⟨Or.inr ⟨lo, rfl, hip⟩, rfl⟩⟩
        simp only [MplsCfg.genOspf, hlo, hip]
      | some a =>
        refine ⟨ipStr a, ?_, Or.inl ⟨lo, a, rfl, hip, rfl⟩⟩
        simp only [MplsCfg.genOspf, hlo, hip]
  obtain ⟨rid, hospf, hridspec⟩ := hrid
  refine ⟨?_, ?_, ?_⟩
  · rw [← h, hospf]
    simp only [List.count_append]
    rw [count_zero_of_ne _ _ (hdr_no_ospf r now),
      count_zero_of_ne _ _ (ifaces_no_ospf r),
      count_zero_of_ne _ _ hbgpok,
      count_zero_of_ne _ _ footer_no_ospf,
      genOspf_count rid]
  · refine ⟨MplsCfg.genHeader r now ++ MplsCfg.genInterfaces r, bgp ++ MplsCfg.genFooter,
      rid, ?_, hridspec⟩
    rw [← h, hospf]
    simp [List.append_assoc]
  · intro hP now2
    refine ⟨MplsCfg.genHeader r now2 ++ MplsCfg.genInterfaces r ++ MplsCfg.genOspf r ++
      [] ++ MplsCfg.genFooter, ?_⟩
    simp only [MplsCfg.generateConfig, hr]
    exact genConfigLines_P_total m r _ now2 hP

/-- C8 (witness): the fixture I P router has no Loopback0, and its emitted
    configuration still contains one router ospf 1 stanza with router-id
    0.0.0.0, emission succeeding. -/
theorem C8_witness :
    fxILines.count "router ospf 1" = 1 ∧
    (∃ pre post rid,
      fxILines = pre ++ ["router ospf 1", " router-id " ++ rid, " mpls ldp autoconfig", "!"] ++
        post ∧
      ((∃ lo a, dget fxIP9.interfaces "Loopback0" = some lo ∧ lo.ip_address = some a ∧
          rid = ipStr a) ∨
       ((dget fxIP9.interfaces "Loopback0" = none ∨
         ∃ lo, dget fxIP9.interfaces "Loopback0" = some lo ∧ lo.ip_address = none) ∧
        rid = "0.0.0.0"))) ∧
    (fxIP9.rtype = "P" → ∀ now2 : String, ∃ l2,
      MplsCfg.generateConfig fxISt now2 "P9" = .ok l2) :=
  C8_amended fxISt "P9" "T" fxIP9 fxILines (by rfl) (Or.inr (by rfl)) (by rfl)

/-- C8 (counterexample): in NetworkConfigGenerator, emitting the configuration
    of the fixture H P router, which has no Loopback0 interface, fails with a
    KeyError instead of falling back to router-id 0.0.0.0. -/
theorem C8_counterexample :
    (Ncg.ngBuild fxH).map (fun st => Ncg.ngRouterConfig st "T" "P1") =
      .ok (.error (.keyError "Loopback0")) := by
  rfl

/-- C9: write_router_config first resolves every requested hostname against the
    existing per-router configuration files and, when any hostname has no
    matching file, raises a ValueError naming the missing routers before the
    write loop runs, so the file system is returned unchanged (no partial
    writes). -/
theorem C9_thm (fs : Gns3.Fs) (existing routerConfigs : List (String × String))
    (h : ∃ p ∈ routerConfigs, dget existing p.1 = none) :
    Gns3.writeRouterConfig fs existing routerConfigs =
      (fs, .error (.valueError ("The following routers are missing in the project: " ++
        String.intercalate ", "
          ((routerConfigs.filter (fun p => (dget existing p.1).isNone)).map
            (fun p => p.1))))) := by
  have hne : ((routerConfigs.filter (fun p => (dget existing p.1).isNone)).map
      (fun p => p.1)).isEmpty = false := by
    obtain ⟨p, hp, hn⟩ := h
    have hm : p ∈ routerConfigs.filter (fun q => (dget existing q.1).isNone) :=
      List.mem_filter.mpr ⟨hp, by simp [hn]⟩
    have hm2 : p.1 ∈ (routerConfigs.filter (fun q => (dget existing q.1).isNone)).map
        (fun q => q.1) := List.mem_map_of_mem _ hm
    rcases hl : (routerConfigs.filter (fun q => (dget existing q.1).isNone)).map
        (fun q => q.1) with _ | ⟨x, xs⟩
    · rw [hl] at hm2; simp at hm2
    · rw [hl]; rfl
  rw [Gns3.writeRouterConfig]
  simp only [hne, Bool.false_eq_true, if_false]

/-- C9 (witness): requesting R1 and R2 against a project holding only R1 yields
    the ValueError naming R2 and leaves the file system untouched. -/
theorem C9_witness :
    Gns3.writeRouterConfig [("/p/R1.cfg", "old")] [("R1", "/p/R1.cfg")]
      [("R1", "cfg1"), ("R2", "cfg2")] =
    ([("/p/R1.cfg", "old")],
     .error (.valueError "The following routers are missing in the project: R2")) :=
  (C9_thm [("/p/R1.cfg", "old")] [("R1", "/p/R1.cfg")] [("R1", "cfg1"), ("R2", "cfg2")]
    ⟨("R2", "cfg2"), by decide, by rfl⟩).trans (by rfl)

theorem mem_dsetD [BEq κ] [LawfulBEq κ] (d : List (κ × α)) (k : κ) (v : α)
    (p : κ × α) (h : p ∈ dsetD d k v) : p = (k, v) ∨ p ∈ d := by
  induction d with
  | nil => simp [dsetD] at h; exact Or.inl h
  | cons q t ih =>
    obtain ⟨k', v'⟩ := q
    by_cases hk : (k' == k) = true
    · rw [dsetD, if_pos hk] at h
      rcases List.mem_cons.mp h with h1 | h2
      · exact Or.inl h1
      · exact Or.inr (List.mem_cons_of_mem _ h2)
    · rw [dsetD, if_neg hk] at h
      rcases List.mem_cons.mp h with h1 | h2
      · exact Or.inr (h1 ▸ List.mem_cons_self _ _)
      · rcases ih h2 with h3 | h4
        · exact Or.inl h3
        · exact Or.inr (List.mem_cons_of_mem _ h4)

theorem self_mem_dsetD [BEq κ] [LawfulBEq κ] (d : List (κ × α)) (k : κ) (v : α) :
    (k, v) ∈ dsetD d k v := by
  induction d with
  | nil => simp [dsetD]
  | cons q t ih =>
    obtain ⟨k', v'⟩ := q
    by_cases hk : (k' == k) = true
    · rw [dsetD, if_pos hk]
      exact List.mem_cons_self _ _
    · rw [dsetD, if_neg hk]
      exact List.mem_cons_of_mem _ ih

theorem mem_dsetD_of_ne [BEq κ] [LawfulBEq κ] (d : List (κ × α)) (k : κ) (v : α)
    (p : κ × α) (hp : p ∈ d) (hne : p.1 ≠ k) : p ∈ dsetD d k v := by
  induction d with
  | nil => simp at hp
  | cons q t ih =>
    obtain ⟨k', v'⟩ := q
    by_cases hk : (k' == k) = true
    · rw [dsetD, if_pos hk]
      rcases List.mem_cons.mp hp with h1 | h2
      · exfalso
        apply hne
        rw [h1]
        exact eq_of_beq hk
      · exact List.mem_cons_of_mem _ h2
    · rw [dsetD, if_neg hk]
      rcases List.mem_cons.mp hp with h1 | h2
      · exact h1 ▸ List.mem_cons_self _ _
      · exact List.mem_cons_of_mem _ (ih h2)

theorem dget_mem [BEq κ] [LawfulBEq κ] (d : List (κ × α)) (k : κ) (v : α)
    (h : dget d k = some v) : (k, v) ∈ d := by
  induction d with
  | nil => simp [dget] at h
  | cons q t ih =>
    obtain ⟨k', v'⟩ := q
    by_cases hk : (k' == k) = true
    · rw [dget, if_pos hk] at h
      injection h with h
      have : k' = k := eq_of_beq hk
      rw [← this, ← h]
      exact List.mem_cons_self _ _
    · rw [dget, if_neg hk] at h
      exact List.mem_cons_of_mem _ (ih h)

theorem readAsNum_ok (d : NcgHeap.HDict) (n : Nat) (h : NcgHeap.readAsNum d = .ok n) :
    dget d "as_number" = some (.n n) := by
  rw [NcgHeap.readAsNum] at h
  cases ho : dget d "as_number" with
  | none => rw [ho] at h; exact Except.noConfusion h
  | some v =>
    rw [ho] at h
    cases v with
    | n m => injection h with h; rw [h]
    | s _ => exact Except.noConfusion h
    | b _ => exact Except.noConfusion h
    | nil => exact Except.noConfusion h
    | it _ _ => exact Except.noConfusion h
    | ranges _ _ => exact Except.noConfusion h

theorem asNumOf_fun (h : NcgHeap.Heap) (r : NcgHeap.Ref) (n n' : Nat)
    (h1 : NcgHeap.AsNumOf h r n) (h2 : NcgHeap.AsNumOf h r n') : n = n' := by
  obtain ⟨d1, hd1, hv1⟩ := h1
  obtain ⟨d2, hd2, hv2⟩ := h2
  rw [hd1] at hd2
  injection hd2 with hd2
  rw [← hd2] at hv2
  rw [hv1] at hv2
  injection hv2 with hv2
  cases hv2
  rfl

theorem buildRawMap_reads (h : NcgHeap.Heap) :
    ∀ (refs : List NcgHeap.Ref) (acc am : List (Nat × NcgHeap.Ref)),
      NcgHeap.buildRawMap h refs acc = .ok am →
      ∀ ref ∈ refs, ∃ n, NcgHeap.AsNumOf h ref n := by
  intro refs
  induction refs with
  | nil => intro acc am _ ref hr; simp at hr
  | cons r0 t ih =>
    intro acc am hb ref hr
    rw [NcgHeap.buildRawMap] at hb
    cases hd : NcgHeap.hget h r0 with
    | none => simp only [hd] at hb; exact Except.noConfusion hb
    | some d =>
      simp only [hd] at hb
      obtain ⟨n, hn, hb⟩ := exc_bindM_ok hb
      rcases List.mem_cons.mp hr with he | hm
      · exact ⟨n, d, he ▸ hd, readAsNum_ok d n hn⟩
      · exact ih _ am hb ref hm

theorem buildRawMap_mem (h : NcgHeap.Heap) :
    ∀ (refs : List NcgHeap.Ref) (acc am : List (Nat × NcgHeap.Ref)),
      NcgHeap.buildRawMap h refs acc = .ok am →
      ∀ (r0 : NcgHeap.Ref) (n0 : Nat), NcgHeap.AsNumOf h r0 n0 →
      ((n0, r0) ∈ acc ∨ r0 ∈ refs) →
      (∀ r' ∈ refs, ∀ n', NcgHeap.AsNumOf h r' n' → n' = n0 → r' = r0) →
      (n0, r0) ∈ am := by
  intro refs
  induction refs with
  | nil =>
    intro acc am hb r0 n0 _ hmem _
    simp only [NcgHeap.buildRawMap, Except.ok.injEq] at hb
    rcases hmem with ha | hr
    · exact hb ▸ ha
    · simp at hr
  | cons rf t ih =>
    intro acc am hb r0 n0 hasn hmem hinj
    rw [NcgHeap.buildRawMap] at hb
    cases hd : NcgHeap.hget h rf with
    | none => simp only [hd] at hb; exact Except.noConfusion hb
    | some d =>
      simp only [hd] at hb
      obtain ⟨n, hn, hb⟩ := exc_bindM_ok hb
      have hasnRf : NcgHeap.AsNumOf h rf n := ⟨d, hd, readAsNum_ok d n hn⟩
      have hinj' : ∀ r' ∈ t, ∀ n', NcgHeap.AsNumOf h r' n' → n' = n0 → r' = r0 :=
        fun r' hr' => hinj r' (List.mem_cons_of_mem _ hr')
      refine ih _ am hb r0 n0 hasn ?_ hinj'
      rcases hmem with ha | hr
      · by_cases hne : n = n0
        · have hrr : rf = r0 := hinj rf (List.mem_cons_self _ _) n hasnRf hne
          subst hrr
          subst hne
          exact Or.inl (self_mem_dsetD acc n rf)
        · exact Or.inl (mem_dsetD_of_ne acc n rf (n0, r0) ha (fun e => hne e.symm))
      · rcases List.mem_cons.mp hr with he | hm
        · have hn0 : n = n0 := asNumOf_fun h rf n n0 hasnRf (he ▸ hasn)
          subst he
          subst hn0
          exact Or.inl (self_mem_dsetD acc n r0)
        · exact Or.inr hm

theorem buildRawMap_vals (h : NcgHeap.Heap) :
    ∀ (refs : List NcgHeap.Ref) (acc am : List (Nat × NcgHeap.Ref)),
      NcgHeap.buildRawMap h refs acc = .ok am →
      ∀ p ∈ am, p.2 ∈ refs ∨ (∃ q ∈ acc, q.2 = p.2) := by
  intro refs
  induction refs with
  | nil =>
    intro acc am hb p hp
    simp only [NcgHeap.buildRawMap, Except.ok.injEq] at hb
    exact Or.inr ⟨p, hb ▸ hp, rfl⟩
  | cons rf t ih =>
    intro acc am hb p hp
    rw [NcgHeap.buildRawMap] at hb
    cases hd : NcgHeap.hget h rf with
    | none => simp only [hd] at hb; exact Except.noConfusion hb
    | some d =>
      simp only [hd] at hb
      obtain ⟨n, _, hb⟩ := exc_bindM_ok hb
      rcases ih _ am hb p hp with h1 | ⟨q, hq, hq2⟩
      · exact Or.inl (List.mem_cons_of_mem _ h1)
      · rcases mem_dsetD acc n rf q hq with he | hacc
        · rw [he] at hq2
          exact Or.inl (hq2 ▸ List.mem_cons_self _ _)
        · exact Or.inr ⟨q, hacc, hq2⟩

theorem attachIters_frame :
    ∀ (am : List (Nat × NcgHeap.Ref)) (h h' : NcgHeap.Heap),
      NcgHeap.attachIters am h = .ok h' →
      ∀ ref, (∀ p ∈ am, p.2 ≠ ref) → NcgHeap.hget h' ref = NcgHeap.hget h ref := by
  intro am
  induction am with
  | nil =>
    intro h h' hb ref _
    simp only [NcgHeap.attachIters, Except.ok.injEq] at hb
    rw [hb]
  | cons p t ih =>
    obtain ⟨n0, r0⟩ := p
    intro h h' hb ref hne
    rw [NcgHeap.attachIters] at hb
    cases hd : NcgHeap.hget h r0 with
    | none => simp only [hd] at hb; exact Except.noConfusion hb
    | some d =>
      simp only [hd] at hb
      obtain ⟨⟨lo, ph⟩, _, hb⟩ := exc_bindM_ok hb
      cases hph : ph with
      | none => simp only [hph] at hb; exact Except.noConfusion hb
      | some c =>
        simp only [hph] at hb
        have hfr := ih _ h' hb ref (fun q hq => hne q (List.mem_cons_of_mem _ hq))
        rw [hfr]
        have hr0 : r0 ≠ ref := hne (n0, r0) (List.mem_cons_self _ _)
        exact dget_dsetD_ne h r0 ref _ (fun e => hr0 e.symm)

theorem attachIters_preserve :
    ∀ (am : List (Nat × NcgHeap.Ref)) (h h' : NcgHeap.Heap),
      NcgHeap.attachIters am h = .ok h' →
      ∀ ref d, NcgHeap.hget h ref = some d → NcgHeap.GoodAs d →
      ∃ d', NcgHeap.hget h' ref = some d' ∧ NcgHeap.GoodAs d' := by
  intro am
  induction am with
  | nil =>
    intro h h' hb ref d hd hg
    simp only [NcgHeap.attachIters, Except.ok.injEq] at hb
    exact ⟨d, hb ▸ hd, hg⟩
  | cons p t ih =>
    obtain ⟨n0, r0⟩ := p
    intro h h' hb ref d hd hg
    rw [NcgHeap.attachIters] at hb
    cases hd0 : NcgHeap.hget h r0 with
    | none => simp only [hd0] at hb; exact Except.noConfusion hb
    | some d0 =>
      simp only [hd0] at hb
      obtain ⟨⟨lo, ph⟩, _, hb⟩ := exc_bindM_ok hb
      cases hph : ph with
      | none => simp only [hph] at hb; exact Except.noConfusion hb
      | some c =>
        simp only [hph] at hb
        by_cases he : ref = r0
        · subst he
          refine ih _ h' hb ref _ (by rw [NcgHeap.hget, NcgHeap.hset, dget_dsetD_self]) ?_
          constructor
          · exact ⟨c, 0, dget_dsetD_self _ _ _⟩
          · rw [dget_dsetD_ne _ _ _ _ (by decide)]
            cases lo with
            | none => exact Or.inr (dget_dsetD_self _ _ _)
            | some c2 => exact Or.inl ⟨c2, 0, dget_dsetD_self _ _ _⟩
        · refine ih _ h' hb ref d ?_ hg
          rw [NcgHeap.hget, NcgHeap.hset, dget_dsetD_ne _ _ _ _ he]
          exact hd

theorem attachIters_good :
    ∀ (am : List (Nat × NcgHeap.Ref)) (h h' : NcgHeap.Heap),
      NcgHeap.attachIters am h = .ok h' →
      ∀ p ∈ am, ∃ d, NcgHeap.hget h' p.2 = some d ∧ NcgHeap.GoodAs d := by
  intro am
  induction am with
  | nil => intro h h' _ p hp; simp at hp
  | cons q t ih =>
    obtain ⟨n0, r0⟩ := q
    intro h h' hb p hp
    rw [NcgHeap.attachIters] at hb
    cases hd0 : NcgHeap.hget h r0 with
    | none => simp only [hd0] at hb; exact Except.noConfusion hb
    | some d0 =>
      simp only [hd0] at hb
      obtain ⟨⟨lo, ph⟩, _, hb⟩ := exc_bindM_ok hb
      cases hph : ph with
      | none => simp only [hph] at hb; exact Except.noConfusion hb
      | some c =>
        simp only [hph] at hb
        rcases List.mem_cons.mp hp with he | hm
        · rw [he]
          cases lo with
          | none =>
            refine attachIters_preserve t _ h' hb r0 _
              (by rw [NcgHeap.hget, NcgHeap.hset, dget_dsetD_self]) ?_
            constructor
            · exact ⟨c, 0, dget_dsetD_self _ _ _⟩
            · rw [dget_dsetD_ne _ _ _ _ (by decide)]
              exact Or.inr (dget_dsetD_self _ _ _)
          | some c2 =>
            refine attachIters_preserve t _ h' hb r0 _
              (by rw [NcgHeap.hget, NcgHeap.hset, dget_dsetD_self]) ?_
            constructor
            · exact ⟨c, 0, dget_dsetD_self _ _ _⟩
            · rw [dget_dsetD_ne _ _ _ _ (by decide)]
              exact Or.inl ⟨c2, 0, dget_dsetD_self _ _ _⟩
        · exact ih _ h' hb p hm

theorem heapFG_refl (am : List (Nat × NcgHeap.Ref)) (h : NcgHeap.Heap) :
    NcgHeap.HeapFG am h h :=
  ⟨fun _ _ => rfl, fun _ d hd hg => ⟨d, hd, hg⟩⟩

theorem heapFG_of_eq (am : List (Nat × NcgHeap.Ref)) {h h' : NcgHeap.Heap} (he : h = h') :
    NcgHeap.HeapFG am h h' := by
  subst he
  exact heapFG_refl am h

theorem heapFG_trans (am : List (Nat × NcgHeap.Ref)) {h1 h2 h3 : NcgHeap.Heap}
    (a : NcgHeap.HeapFG am h1 h2) (b : NcgHeap.HeapFG am h2 h3) : NcgHeap.HeapFG am h1 h3 := by
  refine ⟨fun ref hne => ?_, fun ref d hd hg => ?_⟩
  · rw [b.1 ref hne, a.1 ref hne]
  · obtain ⟨d2, hd2, hg2⟩ := a.2 ref d hd hg
    exact b.2 ref d2 hd2 hg2

theorem heapFG_set (am : List (Nat × NcgHeap.Ref)) (h : NcgHeap.Heap) (ref0 : NcgHeap.Ref)
    (d0 d1 : NcgHeap.HDict) (hm : ∃ n, (n, ref0) ∈ am) (hd0 : NcgHeap.hget h ref0 = some d0)
    (hg1 : NcgHeap.GoodAs d0 → NcgHeap.GoodAs d1) :
    NcgHeap.HeapFG am h (NcgHeap.hset h ref0 d1) := by
  obtain ⟨n, hn⟩ := hm
  refine ⟨fun ref hne => ?_, fun ref d hd hg => ?_⟩
  · have hr0 : ref0 ≠ ref := hne (n, ref0) hn
    exact dget_dsetD_ne h ref0 ref d1 (fun e => hr0 e.symm)
  · by_cases he : ref = ref0
    · subst he
      rw [hd0] at hd
      injection hd with hd
      subst hd
      exact ⟨d1, by rw [NcgHeap.hget, NcgHeap.hset]; exact dget_dsetD_self h ref d1, hg1 hg⟩
    · refine ⟨d, ?_, hg⟩
      rw [NcgHeap.hget, NcgHeap.hset, dget_dsetD_ne _ _ _ _ he]
      exact hd

theorem goodAs_set_loop (d : NcgHeap.HDict) (pool : Cidr) (k : Nat) (hg : NcgHeap.GoodAs d) :
    NcgHeap.GoodAs (dsetD d "loopback_iter" (.it pool k)) := by
  constructor
  · obtain ⟨c, k0, hc⟩ := hg.1
    exact ⟨c, k0, by rw [dget_dsetD_ne _ _ _ _ (by decide)]; exact hc⟩
  · exact Or.inl ⟨pool, k, dget_dsetD_self _ _ _⟩

theorem goodAs_set_phys (d : NcgHeap.HDict) (pool : Cidr) (k : Nat) (hg : NcgHeap.GoodAs d) :
    NcgHeap.GoodAs (dsetD d "phys_iter" (.it pool k)) := by
  refine ⟨⟨pool, k, dget_dsetD_self _ _ _⟩, ?_⟩
  rcases hg.2 with ⟨c, k0, hc⟩ | hnil
  · exact Or.inl ⟨c, k0, by rw [dget_dsetD_ne _ _ _ _ (by decide)]; exact hc⟩
  · exact Or.inr (by rw [dget_dsetD_ne _ _ _ _ (by decide)]; exact hnil)

theorem hLoopbackStep_fg (am : List (Nat × NcgHeap.Ref)) (h : NcgHeap.Heap)
    (r r' : NcgHeap.HNRouter) (h' : NcgHeap.Heap)
    (hs : NcgHeap.hLoopbackStep am h r = .ok (r', h')) : NcgHeap.HeapFG am h h' := by
  rw [NcgHeap.hLoopbackStep] at hs
  cases hlo : dget r.interfaces "Loopback0" with
  | none =>
    simp only [hlo] at hs
    by_cases hce : (r.rtype == "CE") = true
    · rw [if_pos hce] at hs
      exact Except.noConfusion hs
    · rw [if_neg hce] at hs
      injection hs with hs
      injection hs with h1 h2
      exact heapFG_of_eq am h2
  | some lo =>
    simp only [hlo] at hs
    cases hasn : r.asN with
    | none => simp only [hasn] at hs; exact Except.noConfusion hs
    | some asn =>
      simp only [hasn] at hs
      cases href : dget am asn with
      | none => simp only [href] at hs; exact Except.noConfusion hs
      | some ref =>
        simp only [href] at hs
        cases hd : NcgHeap.hget h ref with
        | none => simp only [hd] at hs; exact Except.noConfusion hs
        | some d =>
          simp only [hd] at hs
          cases hit : dget d "loopback_iter" with
          | none =>
            simp only [hit] at hs
            by_cases hce : (r.rtype == "CE") = true
            · rw [if_pos hce] at hs
              cases hpn : r.private_network with
              | none => simp only [hpn] at hs; exact Except.noConfusion hs
              | some net =>
                simp only [hpn] at hs
                injection hs with hs
                injection hs with h1 h2
                exact heapFG_of_eq am h2
            · rw [if_neg hce] at hs
              injection hs with hs
              injection hs with h1 h2
              exact heapFG_of_eq am h2
          | some v =>
            cases v with
            | it pool k =>
              simp only [hit] at hs
              cases hip : hostAt pool k with
              | none => simp only [hip] at hs; exact Except.noConfusion hs
              | some ip =>
                simp only [hip] at hs
                injection hs with hs
                injection hs with h1 h2
                rw [← h2]
                exact heapFG_set am h ref d _ ⟨asn, dget_mem am asn ref href⟩ hd
                  (goodAs_set_loop d pool (k + 1))
            | s a =>
              simp only [hit] at hs
              by_cases hce : (r.rtype == "CE") = true
              · rw [if_pos hce] at hs
                cases hpn : r.private_network with
                | none => simp only [hpn] at hs; exact Except.noConfusion hs
                | some net =>
                  simp only [hpn] at hs
                  injection hs with hs
                  injection hs with h1 h2
                  exact heapFG_of_eq am h2
              · rw [if_neg hce] at hs
                injection hs with hs
                injection hs with h1 h2
                exact heapFG_of_eq am h2
            | n a =>
              simp only [hit] at hs
              by_cases hce : (r.rtype == "CE") = true
              · rw [if_pos hce] at hs
                cases hpn : r.private_network with
                | none => simp only [hpn] at hs; exact Except.noConfusion hs
                | some net =>
                  simp only [hpn] at hs
                  injection hs with hs
                  injection hs with h1 h2
                  exact heapFG_of_eq am h2
              · rw [if_neg hce] at hs
                injection hs with hs
                injection hs with h1 h2
                exact heapFG_of_eq am h2
            | b a =>
              simp only [hit] at hs
              by_cases hce : (r.rtype == "CE") = true
              · rw [if_pos hce] at hs
                cases hpn : r.private_network with
                | none => simp only [hpn] at hs; exact Except.noConfusion hs
                | some net =>
                  simp only [hpn] at hs
                  injection hs with hs
                  injection hs with h1 h2
                  exact heapFG_of_eq am h2
              · rw [if_neg hce] at hs
                injection hs with hs
                injection hs with h1 h2
                exact heapFG_of_eq am h2
            | nil =>
              simp only [hit] at hs
              by_cases hce : (r.rtype == "CE") = true
              · rw [if_pos hce] at hs
                cases hpn : r.private_network with
                | none => simp only [hpn] at hs; exact Except.noConfusion hs
                | some net =>
                  simp only [hpn] at hs
                  injection hs with hs
                  injection hs with h1 h2
                  exact heapFG_of_eq am h2
              · rw [if_neg hce] at hs
                injection hs with hs
                injection hs with h1 h2
                exact heapFG_of_eq am h2
            | ranges a c =>
              simp only [hit] at hs
              by_cases hce : (r.rtype == "CE") = true
              · rw [if_pos hce] at hs
                cases hpn : r.private_network with
                | none => simp only [hpn] at hs; exact Except.noConfusion hs
                | some net =>
                  simp only [hpn] at hs
                  injection hs with hs
                  injection hs with h1 h2
                  exact heapFG_of_eq am h2
              · rw [if_neg hce] at hs
                injection hs with hs
                injection hs with h1 h2
                exact heapFG_of_eq am h2

theorem hLoopbackPass_fg (am : List (Nat × NcgHeap.Ref)) :
    ∀ (rm : NcgHeap.HRouters) (h : NcgHeap.Heap) (out : NcgHeap.HRouters × NcgHeap.Heap),
      NcgHeap.hLoopbackPass am rm h = .ok out → NcgHeap.HeapFG am h out.2 := by
  intro rm
  induction rm with
  | nil =>
    intro h out hp
    simp only [NcgHeap.hLoopbackPass, Except.ok.injEq] at hp
    subst hp
    exact heapFG_refl am h
  | cons p t ih =>
    obtain ⟨n, r⟩ := p
    intro h out hp
    rw [NcgHeap.hLoopbackPass] at hp
    obtain ⟨⟨r1, h1⟩, hstep, hp⟩ := exc_bindM_ok hp
    obtain ⟨⟨t1, h2⟩, hrest, hp⟩ := exc_bindM_ok hp
    injection hp with hp
    subst hp
    exact heapFG_trans am (hLoopbackStep_fg am h r r1 h1 hstep) (ih h1 (t1, h2) hrest)

theorem hDrawPhys_fg (am : List (Nat × NcgHeap.Ref)) (h : NcgHeap.Heap) (ref : NcgHeap.Ref)
    (hm : ∃ n, (n, ref) ∈ am) (b : Nat) (h' : NcgHeap.Heap)
    (hs : NcgHeap.hDrawPhys h ref = .ok (b, h')) : NcgHeap.HeapFG am h h' := by
  rw [NcgHeap.hDrawPhys] at hs
  cases hd : NcgHeap.hget h ref with
  | none => simp only [hd] at hs; exact Except.noConfusion hs
  | some d =>
    simp only [hd] at hs
    cases hit : dget d "phys_iter" with
    | none => simp only [hit] at hs; exact Except.noConfusion hs
    | some v =>
      cases v with
      | it pool k =>
        simp only [hit] at hs
        by_cases hp : 24 < pool.plen
        · rw [if_pos hp] at hs
          exact Except.noConfusion hs
        · rw [if_neg hp] at hs
          cases hsn : subnetAt pool k with
          | none => simp only [hsn] at hs; exact Except.noConfusion hs
          | some b0 =>
            simp only [hsn] at hs
            injection hs with hs
            injection hs with h1 h2
            rw [← h2]
            exact heapFG_set am h ref d _ hm hd (goodAs_set_phys d pool (k + 1))
      | s a => simp only [hit] at hs; exact Except.noConfusion hs
      | n a => simp only [hit] at hs; exact Except.noConfusion hs
      | b a => simp only [hit] at hs; exact Except.noConfusion hs
      | nil => simp only [hit] at hs; exact Except.noConfusion hs
      | ranges a c => simp only [hit] at hs; exact Except.noConfusion hs

theorem hPhysPass_fg (am : List (Nat × NcgHeap.Ref)) (bb : Nat) :
    ∀ (subnets : List (List Endpoint)) (h : NcgHeap.Heap) (rm : NcgHeap.HRouters)
      (out : NcgHeap.Heap × NcgHeap.HRouters),
      NcgHeap.hPhysPass am bb subnets h rm = .ok out → NcgHeap.HeapFG am h out.1 := by
  intro subnets
  induction subnets with
  | nil =>
    intro h rm out hp
    simp only [NcgHeap.hPhysPass, Except.ok.injEq] at hp
    subst hp
    exact heapFG_refl am h
  | cons eps rest ih =>
    intro h rm out hp
    rw [NcgHeap.hPhysPass] at hp
    obtain ⟨isCe, hany, hp⟩ := exc_bindM_ok hp
    obtain ⟨⟨base, h1⟩, hdraw, hp⟩ := exc_bindM_ok hp
    obtain ⟨rm1, hassign, hp⟩ := exc_bindM_ok hp
    refine heapFG_trans am ?_ (ih h1 rm1 out hp)
    cases isCe with
    | false =>
      rw [if_neg (by decide : ¬(false = true))] at hdraw
      cases href : dget am bb with
      | none => simp only [href] at hdraw; exact Except.noConfusion hdraw
      | some ref =>
        simp only [href] at hdraw
        exact hDrawPhys_fg am h ref ⟨bb, dget_mem am bb ref href⟩ base h1 hdraw
    | true =>
      rw [if_pos rfl] at hdraw
      obtain ⟨ce, hce, hdraw⟩ := exc_bindM_ok hdraw
      cases hcr : dget rm ce.router with
      | none => simp only [hcr] at hdraw; exact Except.noConfusion hdraw
      | some cr =>
        simp only [hcr] at hdraw
        cases hasn : cr.asN with
        | none => simp only [hasn] at hdraw; exact Except.noConfusion hdraw
        | some asn =>
          simp only [hasn] at hdraw
          cases href : dget am asn with
          | none => simp only [href] at hdraw; exact Except.noConfusion hdraw
          | some ref =>
            simp only [href] at hdraw
            exact hDrawPhys_fg am h ref ⟨asn, dget_mem am asn ref href⟩ base h1 hdraw

/-- C10: constructing the NetworkConfigGenerator mutates the caller's intent
    dicts exactly as claimed: on success, when the shared as dicts carry
    pairwise distinct as_number values, every as-dict reference of the intent
    ends up holding loopback_iter and phys_iter entries with the allocator
    state (a live iterator for phys_iter; an iterator, or None when the AS
    declares no loopback range, for loopback_iter), while every reference
    outside the as list — in particular each caller-owned interface dict,
    which createRouterMap copies by value — holds exactly the dict it held
    before, so address assignment never touches the intent's interface
    entries. -/
theorem C10_thm (h0 : NcgHeap.Heap) (it : NcgHeap.HIntent) (h' : NcgHeap.Heap)
    (st : NcgHeap.HState) (hc : NcgHeap.construct h0 it = .ok (h', st))
    (hinj : ∀ r ∈ it.asRefs, ∀ r' ∈ it.asRefs, ∀ n, NcgHeap.AsNumOf h0 r n →
      NcgHeap.AsNumOf h0 r' n → r = r') :
    (∀ ref ∈ it.asRefs, ∃ d, NcgHeap.hget h' ref = some d ∧ NcgHeap.GoodAs d) ∧
    (∀ ref, (∀ r ∈ it.asRefs, r ≠ ref) → NcgHeap.hget h' ref = NcgHeap.hget h0 ref) := by
  rw [NcgHeap.construct] at hc
  obtain ⟨raw, hraw, hc⟩ := exc_bindM_ok hc
  obtain ⟨h1, hatt, hc⟩ := exc_bindM_ok hc
  obtain ⟨bb, hbb, hc⟩ := exc_bindM_ok hc
  obtain ⟨rm, hrm, hc⟩ := exc_bindM_ok hc
  obtain ⟨⟨rm1, h2⟩, hlp, hc⟩ := exc_bindM_ok hc
  obtain ⟨⟨h3, rm2⟩, hpp, hc⟩ := exc_bindM_ok hc
  injection hc with hc
  have hh : h3 = h' := congrArg Prod.fst hc
  subst hh
  have fg : NcgHeap.HeapFG raw h1 h3 :=
    heapFG_trans raw (hLoopbackPass_fg raw rm h1 (rm1, h2) hlp)
      (hPhysPass_fg raw bb it.subnets h2 rm1 (h3, rm2) hpp)
  constructor
  · intro ref href
    obtain ⟨n, hasn⟩ := buildRawMap_reads h0 it.asRefs [] raw hraw ref href
    have hmem : (n, ref) ∈ raw := by
      refine buildRawMap_mem h0 it.asRefs [] raw hraw ref n hasn (Or.inr href) ?_
      intro r' hr' n' hasn' hne
      subst hne
      exact hinj r' hr' ref href n' hasn' hasn
    obtain ⟨d1, hd1, hg1⟩ := attachIters_good raw h0 h1 hatt (n, ref) hmem
    exact fg.2 ref d1 hd1 hg1
  · intro ref hnot
    have hvals : ∀ p ∈ raw, p.2 ≠ ref := by
      intro p hp
      rcases buildRawMap_vals h0 it.asRefs [] raw hraw p hp with hin | ⟨q, hq, _⟩
      · exact hnot p.2 hin
      · simp at hq
    rw [fg.1 ref hvals]
    exact attachIters_frame raw h0 h1 hatt ref hvals

/-- C10 (witness): on the two-dict witness heap, construction succeeds, the
    shared as dict at reference 0 ends well-shaped with both iterator entries,
    and the caller-owned interface dict at reference 1 is untouched. -/
theorem C10_witness :
    (∃ d, NcgHeap.hget wOut.1 0 = some d ∧ NcgHeap.GoodAs d) ∧
    NcgHeap.hget wOut.1 1 = NcgHeap.hget wHeap 1 := by
  have h := C10_thm wHeap wHIntent wOut.1 wOut.2 rfl
    (fun r hr r' hr' n _ _ =>
      (List.mem_singleton.mp hr).trans (List.mem_singleton.mp hr').symm)
  refine ⟨h.1 0 (List.mem_singleton.mpr rfl), h.2 1 ?_⟩
  intro r hr
  rw [List.mem_singleton.mp hr]
  decide

theorem hostAt_ok (c : Cidr) (k x : Nat) (h : hostAt c k = some x) :
    (31 ≤ c.plen ∧ k < c.size ∧ x = c.base + k) ∨
    (c.plen ≤ 30 ∧ k < c.size - 2 ∧ x = c.base + 1 + k) := by
  rw [hostAt] at h
  by_cases h31 : 31 ≤ c.plen
  · rw [if_pos h31] at h
    by_cases hk : k < c.size
    · rw [if_pos hk] at h
      injection h with h
      exact Or.inl ⟨h31, hk, h.symm⟩
    · rw [if_neg hk] at h
      exact Option.noConfusion h
  · rw [if_neg h31] at h
    by_cases hk : k < c.size - 2
    · rw [if_pos hk] at h
      injection h with h
      exact Or.inr ⟨by omega, hk, h.symm⟩
    · rw [if_neg hk] at h
      exact Option.noConfusion h

theorem hostAt_mem (c : Cidr) (k x : Nat) (h : hostAt c k = some x) : inPool c x := by
  rcases hostAt_ok c k x h with ⟨_, hk, hx⟩ | ⟨_, hk, hx⟩ <;> exact ⟨by omega, by omega⟩

theorem hostAt_inj (c : Cidr) (k k' x : Nat) (h : hostAt c k = some x)
    (h' : hostAt c k' = some x) : k = k' := by
  rcases hostAt_ok c k x h with ⟨h1, _, hx⟩ | ⟨h1, _, hx⟩ <;>
    rcases hostAt_ok c k' x h' with ⟨h2, _, hx'⟩ | ⟨h2, _, hx'⟩ <;> omega

theorem subnetAt_ok (c : Cidr) (k b : Nat) (h : subnetAt c k = some b) :
    k < 2 ^ (24 - c.plen) ∧ b = c.base + k * 256 := by
  rw [subnetAt] at h
  by_cases hk : k < 2 ^ (24 - c.plen)
  · rw [if_pos hk] at h
    injection h with h
    exact ⟨hk, h.symm⟩
  · rw [if_neg hk] at h
    exact Option.noConfusion h

theorem block_inPool (c : Cidr) (k b x : Nat) (hp : c.plen ≤ 24)
    (h : subnetAt c k = some b) (h1 : b ≤ x) (h2 : x < b + 256) : inPool c x := by
  obtain ⟨hk, hb⟩ := subnetAt_ok c k b h
  have hsz : 2 ^ (24 - c.plen) * 256 = c.size := by
    rw [Cidr.size]
    have he : 32 - c.plen = (24 - c.plen) + 8 := by omega
    rw [he, pow_add]
    norm_num
  exact ⟨by omega, by omega⟩

theorem dget_singleton {κ α : Type} [BEq κ] [LawfulBEq κ] (k : κ) (v : α) (n : κ) (a : α)
    (h : dget [(k, v)] n = some a) : n = k ∧ a = v := by
  rw [dget] at h
  by_cases he : (k == n) = true
  · rw [if_pos he] at h
    injection h with h
    exact ⟨(eq_of_beq he).symm, h.symm⟩
  · rw [if_neg he] at h
    rw [dget] at h
    exact Option.noConfusion h

theorem evolves_refl (am : MplsCfg.AsMap) : MplsCfg.Evolves am am := by
  intro n
  cases h : dget am n with
  | none => exact Or.inl ⟨rfl, rfl⟩
  | some a => exact Or.inr ⟨a, a, rfl, rfl, rfl, rfl, Nat.le_refl _, Nat.le_refl _⟩

theorem evolves_trans {am1 am2 am3 : MplsCfg.AsMap} (a : MplsCfg.Evolves am1 am2)
    (b : MplsCfg.Evolves am2 am3) : MplsCfg.Evolves am1 am3 := by
  intro n
  rcases a n with ⟨h1, h2⟩ | ⟨a0, a1, h1, h2, hl1, hq1, hc1, hd1⟩
  · rcases b n with ⟨h3, h4⟩ | ⟨b0, b1, h3, h4, _⟩
    · exact Or.inl ⟨h1, h4⟩
    · rw [h2] at h3
      exact Option.noConfusion h3
  · rcases b n with ⟨h3, h4⟩ | ⟨b0, b1, h3, h4, hl2, hq2, hc2, hd2⟩
    · rw [h2] at h3
      exact Option.noConfusion h3
    · rw [h2] at h3
      injection h3 with h3
      subst h3
      exact Or.inr ⟨a0, b1, h1, h4, by rw [hl2, hl1], by rw [hq2, hq1], by omega, by omega⟩

theorem evolves_set (am : MplsCfg.AsMap) (n0 : Nat) (a0 a' : MplsCfg.ASObj)
    (h0 : dget am n0 = some a0)
    (hlp : a'.loopbackPool = a0.loopbackPool) (hpp : a'.physicalPool = a0.physicalPool)
    (hlc : a0.loopbackCursor ≤ a'.loopbackCursor)
    (hpc : a0.physicalCursor ≤ a'.physicalCursor) :
    MplsCfg.Evolves am (dsetD am n0 a') := by
  intro n
  by_cases he : n = n0
  · subst he
    exact Or.inr ⟨a0, a', h0, dget_dsetD_self am n a', hlp, hpp, hlc, hpc⟩
  · cases h : dget am n with
    | none => exact Or.inl ⟨rfl, by rw [dget_dsetD_ne _ _ _ _ he]; exact h⟩
    | some a =>
      exact Or.inr ⟨a, a, rfl, by rw [dget_dsetD_ne _ _ _ _ he]; exact h, rfl, rfl,
        Nat.le_refl _, Nat.le_refl _⟩

theorem consumed_mono {am am' : MplsCfg.AsMap} (he : MplsCfg.Evolves am am') (x : Nat)
    (hc : MplsCfg.Consumed am x) : MplsCfg.Consumed am' x := by
  obtain ⟨n, a, hn, hca⟩ := hc
  rcases he n with ⟨h1, _⟩ | ⟨a0, a1, h1, h2, hl1, hq1, hc1, hd1⟩
  · rw [hn] at h1
    exact Option.noConfusion h1
  · rw [hn] at h1
    injection h1 with h1
    subst h1
    refine ⟨n, a1, h2, ?_⟩
    rcases hca with ⟨c, hcl, k, hk, hx⟩ | ⟨c, hcp, hple, k, b, hk, hsb, hbx, hxb⟩
    · exact Or.inl ⟨c, by rw [hl1]; exact hcl, k, by omega, hx⟩
    · exact Or.inr ⟨c, by rw [hq1]; exact hcp, hple, k, b, by omega, hsb, hbx, hxb⟩

theorem poolsOk_evolves {am am' : MplsCfg.AsMap} (hpo : MplsCfg.PoolsOk am)
    (he : MplsCfg.Evolves am am') : MplsCfg.PoolsOk am' := by
  intro n a hn n' a' hn'
  rcases he n with ⟨_, h2⟩ | ⟨a0, a1, h1, h2, hl1, hq1, _, _⟩
  · rw [hn] at h2
    exact Option.noConfusion h2
  · rw [hn] at h2
    injection h2 with h2
    subst h2
    rcases he n' with ⟨_, h4⟩ | ⟨b0, b1, h3, h4, hl2, hq2, _, _⟩
    · rw [hn'] at h4
      exact Option.noConfusion h4
    · rw [hn'] at h4
      injection h4 with h4
      subst h4
      obtain ⟨hfst, hsnd⟩ := hpo n a0 h1 n' b0 h3
      constructor
      · intro lp pp hl hp
        exact hfst lp pp (by rw [← hl1]; exact hl) (by rw [← hq2]; exact hp)
      · intro hne
        obtain ⟨hll, hpp⟩ := hsnd hne
        constructor
        · intro c c' e1 e2
          exact hll c c' (by rw [← hl1]; exact e1) (by rw [← hl2]; exact e2)
        · intro c c' e1 e2
          exact hpp c c' (by rw [← hq1]; exact e1) (by rw [← hq2]; exact e2)

theorem drawLoopback_ok (a : MplsCfg.ASObj) (ip : Nat) (a' : MplsCfg.ASObj)
    (h : MplsCfg.drawLoopback a = .ok (ip, a')) :
    ∃ c, a.loopbackPool = some c ∧ hostAt c a.loopbackCursor = some ip ∧
      a' = { a with loopbackCursor := a.loopbackCursor + 1 } := by
  rw [MplsCfg.drawLoopback] at h
  cases hc : a.loopbackPool with
  | none => simp only [hc] at h; exact Except.noConfusion h
  | some c =>
    simp only [hc] at h
    cases hip : hostAt c a.loopbackCursor with
    | none => simp only [hip] at h; exact Except.noConfusion h
    | some ip0 =>
      simp only [hip] at h
      injection h with h
      injection h with h1 h2
      subst h1
      exact ⟨c, rfl, hip, h2.symm⟩

theorem drawPhysical_ok (a : MplsCfg.ASObj) (b : Nat) (a' : MplsCfg.ASObj)
    (h : MplsCfg.drawPhysical a = .ok (b, a')) :
    ∃ c, a.physicalPool = some c ∧ c.plen ≤ 24 ∧ subnetAt c a.physicalCursor = some b ∧
      a' = { a with physicalCursor := a.physicalCursor + 1 } := by
  rw [MplsCfg.drawPhysical] at h
  cases hc : a.physicalPool with
  | none => simp only [hc] at h; exact Except.noConfusion h
  | some c =>
    simp only [hc] at h
    by_cases hple : 24 < c.plen
    · rw [if_pos hple] at h
      exact Except.noConfusion h
    · rw [if_neg hple] at h
      cases hb : subnetAt c a.physicalCursor with
      | none => simp only [hb] at h; exact Except.noConfusion h
      | some b0 =>
        simp only [hb] at h
        injection h with h
        injection h with h1 h2
        subst h1
        exact ⟨c, rfl, by omega, hb, h2.symm⟩

theorem loopDraw_fresh (am : MplsCfg.AsMap) (hpo : MplsCfg.PoolsOk am) (n0 : Nat)
    (a0 : MplsCfg.ASObj) (h0 : dget am n0 = some a0) (c : Cidr) (ip : Nat)
    (hc : a0.loopbackPool = some c) (hip : hostAt c a0.loopbackCursor = some ip) :
    ¬ MplsCfg.Consumed am ip := by
  rintro ⟨n, a, hn, hca | hcp⟩
  · obtain ⟨c', hc', k, hk, hx⟩ := hca
    by_cases he : n = n0
    · subst he
      rw [hn] at h0
      injection h0 with h0
      subst h0
      rw [hc] at hc'
      injection hc' with hc'
      subst hc'
      have := hostAt_inj c k a.loopbackCursor ip hx hip
      omega
    · obtain ⟨_, hsnd⟩ := hpo n a hn n0 a0 h0
      obtain ⟨hll, _⟩ := hsnd he
      exact hll c' c hc' hc ip (hostAt_mem c' k ip hx) (hostAt_mem c a0.loopbackCursor ip hip)
  · obtain ⟨c', hc', hple, k, b, hk, hsb, hbx, hxb⟩ := hcp
    obtain ⟨hfst, _⟩ := hpo n0 a0 h0 n a hn
    exact hfst c c' hc hc' ip (hostAt_mem c a0.loopbackCursor ip hip)
      (block_inPool c' k b ip hple hsb hbx hxb)

theorem physDraw_fresh (am : MplsCfg.AsMap) (hpo : MplsCfg.PoolsOk am) (n0 : Nat)
    (a0 : MplsCfg.ASObj) (h0 : dget am n0 = some a0) (c : Cidr) (b : Nat)
    (hc : a0.physicalPool = some c) (hple : c.plen ≤ 24)
    (hb : subnetAt c a0.physicalCursor = some b) :
    ∀ x, b ≤ x → x < b + 256 → ¬ MplsCfg.Consumed am x := by
  rintro x hbx hxb ⟨n, a, hn, hca | hcp⟩
  · obtain ⟨c', hc', k, hk, hx⟩ := hca
    obtain ⟨hfst, _⟩ := hpo n a hn n0 a0 h0
    exact hfst c' c hc' hc x (hostAt_mem c' k x hx)
      (block_inPool c a0.physicalCursor b x hple hb hbx hxb)
  · obtain ⟨c', hc', hple', k, b', hk, hsb, hbx', hxb'⟩ := hcp
    by_cases he : n = n0
    · subst he
      rw [hn] at h0
      injection h0 with h0
      subst h0
      rw [hc] at hc'
      injection hc' with hc'
      subst hc'
      obtain ⟨hk1, hb1⟩ := subnetAt_ok c k b' hsb
      obtain ⟨hk2, hb2⟩ := subnetAt_ok c a.physicalCursor b hb
      omega
    · obtain ⟨_, hsnd⟩ := hpo n a hn n0 a0 h0
      obtain ⟨_, hpp⟩ := hsnd he
      exact hpp c' c hc' hc x (block_inPool c' k b' x hple' hsb hbx' hxb')
        (block_inPool c a0.physicalCursor b x hple hb hbx hxb)

theorem rassigned_cons {q : String × MplsCfg.Router} {t : MplsCfg.Routers} {rn ifn : String}
    {ip : Nat} (h : MplsCfg.RAssigned t rn ifn ip) : MplsCfg.RAssigned (q :: t) rn ifn ip := by
  obtain ⟨p, hp, h1, f, hf, hfip⟩ := h
  exact ⟨p, List.mem_cons_of_mem _ hp, h1, f, hf, hfip⟩

theorem rassigned_head {q : String × MplsCfg.Router} (t : MplsCfg.Routers) {ifn : String}
    {ip : Nat} {f : MplsCfg.Iface} (hf : dget q.2.interfaces ifn = some f)
    (hfip : f.ip_address = some ip) : MplsCfg.RAssigned (q :: t) q.1 ifn ip :=
  ⟨q, List.mem_cons_self _ _, rfl, f, hf, hfip⟩

theorem rassigned_cons_elim {q : String × MplsCfg.Router} {t : MplsCfg.Routers}
    {rn ifn : String} {ip : Nat} (h : MplsCfg.RAssigned (q :: t) rn ifn ip) :
    (q.1 = rn ∧ ∃ f, dget q.2.interfaces ifn = some f ∧ f.ip_address = some ip) ∨
    MplsCfg.RAssigned t rn ifn ip := by
  obtain ⟨p, hp, h1, f, hf, hfip⟩ := h
  rcases List.mem_cons.mp hp with he | hm
  · subst he
    exact Or.inl ⟨h1, f, hf, hfip⟩
  · exact Or.inr ⟨p, hm, h1, f, hf, hfip⟩

theorem allocInv_tail {am : MplsCfg.AsMap} {q : String × MplsCfg.Router} {t : MplsCfg.Routers}
    (h : MplsCfg.AllocInv am (q :: t)) : MplsCfg.AllocInv am t :=
  ⟨fun rn ifn ip ha => h.1 rn ifn ip (rassigned_cons ha),
   fun rn1 ifn1 rn2 ifn2 ip h1 h2 =>
     h.2 rn1 ifn1 rn2 ifn2 ip (rassigned_cons h1) (rassigned_cons h2)⟩

theorem allocInv_mono {am am' : MplsCfg.AsMap} {rs : MplsCfg.Routers}
    (he : MplsCfg.Evolves am am') (h : MplsCfg.AllocInv am rs) : MplsCfg.AllocInv am' rs :=
  ⟨fun rn ifn ip ha => consumed_mono he ip (h.1 rn ifn ip ha), h.2⟩

theorem allocInv_init (am : MplsCfg.AsMap) (rs : MplsCfg.Routers)
    (h : MplsCfg.Unassigned rs) : MplsCfg.AllocInv am rs := by
  constructor
  · rintro rn ifn ip ⟨p, hp, hp1, f, hf, hfip⟩
    rw [h p hp ifn f hf] at hfip
    exact Option.noConfusion hfip
  · rintro rn1 ifn1 rn2 ifn2 ip ⟨p, hp, hp1, f, hf, hfip⟩ _
    rw [h p hp ifn1 f hf] at hfip
    exact Option.noConfusion hfip

theorem assignEps_spec (isPeCe : Bool) (b : Nat) :
    ∀ (eps : List Endpoint) (i : Nat) (routers routers' : MplsCfg.Routers),
      MplsCfg.assignEps isPeCe b eps i routers = .ok routers' →
      ∀ rn ifn ip, MplsCfg.RAssigned routers' rn ifn ip →
        MplsCfg.RAssigned routers rn ifn ip ∨
        ∃ j ep, eps.get? j = some ep ∧ ep.router = rn ∧ ep.interface = ifn ∧
          ip = b + 1 + (i + j) ∧ i + j < 254 := by
  intro eps
  induction eps with
  | nil =>
    intro i routers routers' h rn ifn ip hra
    rw [MplsCfg.assignEps] at h
    injection h with h
    subst h
    exact Or.inl hra
  | cons ep t ih =>
    intro i routers routers' h rn ifn ip hra
    rw [MplsCfg.assignEps] at h
    cases hr : dget routers ep.router with
    | none => simp only [hr] at h; exact Except.noConfusion h
    | some r =>
      simp only [hr] at h
      cases hifc : dget r.interfaces ep.interface with
      | none => simp only [hifc] at h; exact Except.noConfusion h
      | some ifc =>
        simp only [hifc] at h
        by_cases hi : i < 254
        · rw [if_pos hi] at h
          rcases ih (i + 1) _ routers' h rn ifn ip hra with hold | ⟨j, ep', hj, hjr, hji, hjip, hjlt⟩
          · obtain ⟨p, hp, hp1, f, hf, hfip⟩ := hold
            rcases mem_dsetD routers ep.router _ p hp with hpe | hpo
            · subst hpe
              by_cases hif : ifn = ep.interface
              · subst hif
                have hf2 := (dget_dsetD_self r.interfaces ep.interface _).symm.trans hf
                injection hf2 with hf2
                rw [← hf2] at hfip
                have hipeq : some (b + 1 + i) = some ip := hfip
                injection hipeq with hipeq
                refine Or.inr ⟨0, ep, rfl, hp1, rfl, by omega, by omega⟩
              · have hf2 := (dget_dsetD_ne r.interfaces ep.interface ifn _ hif).symm.trans hf
                exact Or.inl ⟨(ep.router, r), dget_mem routers ep.router r hr, hp1, f, hf2, hfip⟩
            · exact Or.inl ⟨p, hpo, hp1, f, hf, hfip⟩
          · exact Or.inr ⟨j + 1, ep', hj, hjr, hji, by omega, by omega⟩
        · rw [if_neg hi] at h
          exact Except.noConfusion h

theorem mkIfaces_go (l : List IfaceIntent) :
    ∀ (acc : List (String × MplsCfg.Iface)), (∀ q ∈ acc, q.2.ip_address = none) →
      ∀ q ∈ l.foldl (fun m i => dsetD m i.name { name := i.name }) acc,
        q.2.ip_address = none := by
  induction l with
  | nil => intro acc hacc q hq; exact hacc q hq
  | cons i t ih =>
    intro acc hacc q hq
    refine ih _ ?_ q hq
    intro q' hq'
    rcases mem_dsetD acc i.name _ q' hq' with he | hm
    · rw [he]
    · exact hacc q' hm

theorem mkRouter_unassigned (r : RouterIntent) (asN : Nat) (t : String) :
    ∀ ifn f, dget (MplsCfg.mkRouter r asN t).interfaces ifn = some f →
      f.ip_address = none := by
  intro ifn f hf
  have hm := dget_mem (MplsCfg.mkIfaces r.interfaces) ifn f hf
  exact mkIfaces_go r.interfaces [] (by intro q hq; simp at hq) (ifn, f) hm

theorem addRouters_unassigned (f : RouterIntent → MplsCfg.Router)
    (hf : ∀ r ifn fc, dget (f r).interfaces ifn = some fc → fc.ip_address = none)
    (l : List RouterIntent) :
    ∀ acc, MplsCfg.Unassigned acc →
      MplsCfg.Unassigned (l.foldl (fun m r => dsetD m r.hostname (f r)) acc) := by
  induction l with
  | nil => intro acc h; exact h
  | cons r t ih =>
    intro acc hacc
    refine ih _ ?_
    intro p hp ifn fc hfc
    rcases mem_dsetD acc r.hostname (f r) p hp with he | hm
    · subst he
      exact hf r ifn fc hfc
    · exact hacc p hm ifn fc hfc

theorem addCeRouters_unassigned (asMap : MplsCfg.AsMap) :
    ∀ l acc out, MplsCfg.addCeRouters asMap l acc = .ok out →
      MplsCfg.Unassigned acc → MplsCfg.Unassigned out := by
  intro l
  induction l with
  | nil =>
    intro acc out h hacc
    rw [MplsCfg.addCeRouters] at h
    injection h with h
    subst h
    exact hacc
  | cons r t ih =>
    intro acc out h hacc
    rw [MplsCfg.addCeRouters] at h
    cases hn : r.as_number with
    | none => simp only [hn] at h; exact Except.noConfusion h
    | some n =>
      simp only [hn] at h
      cases ha : dget asMap n with
      | none => simp only [ha] at h; exact Except.noConfusion h
      | some a0 =>
        simp only [ha] at h
        refine ih _ out h ?_
        intro p hp ifn fc hfc
        rcases mem_dsetD acc r.hostname _ p hp with he | hm
        · subst he
          exact mkRouter_unassigned r n "CE" ifn fc hfc
        · exact hacc p hm ifn fc hfc

theorem initRouters_unassigned (it : Intent) (asMap : MplsCfg.AsMap) (bb : Nat)
    (rs : MplsCfg.Routers) (h : MplsCfg.initRouters it asMap bb = .ok rs) :
    MplsCfg.Unassigned rs := by
  rw [MplsCfg.initRouters] at h
  refine addCeRouters_unassigned asMap it.ce_routers _ rs h ?_
  refine addRouters_unassigned (fun r => MplsCfg.mkRouter r bb "P")
    (fun r => mkRouter_unassigned r bb "P") it.p_routers _ ?_
  exact addRouters_unassigned (fun r => MplsCfg.mkRouter r bb "PE")
    (fun r => mkRouter_unassigned r bb "PE") it.pe_routers []
    (by intro p hp; simp at hp)

theorem loopbackPass_inv_nodraw (am : MplsCfg.AsMap) (n : String) (r : MplsCfg.Router)
    (t t' : MplsCfg.Routers) (am' : MplsCfg.AsMap)
    (hinv : MplsCfg.AllocInv am ((n, r) :: t))
    (hev : MplsCfg.Evolves am am') (hinv' : MplsCfg.AllocInv am' t')
    (hprov : ∀ rn ifn ip, MplsCfg.RAssigned t' rn ifn ip →
      MplsCfg.RAssigned t rn ifn ip ∨ ¬ MplsCfg.Consumed am ip) :
    MplsCfg.Evolves am am' ∧ MplsCfg.AllocInv am' ((n, r) :: t') ∧
    (∀ rn ifn ip, MplsCfg.RAssigned ((n, r) :: t') rn ifn ip →
      MplsCfg.RAssigned ((n, r) :: t) rn ifn ip ∨ ¬ MplsCfg.Consumed am ip) := by
  refine ⟨hev, ⟨?_, ?_⟩, ?_⟩
  · intro rn ifn ip hra
    rcases rassigned_cons_elim hra with ⟨h1, f, hf, hfip⟩ | hrt
    · exact consumed_mono hev ip (hinv.1 rn ifn ip (h1 ▸ rassigned_head t hf hfip))
    · exact hinv'.1 rn ifn ip hrt
  · intro rn1 ifn1 rn2 ifn2 ip h1 h2
    rcases rassigned_cons_elim h1 with ⟨e1, f1, hf1, hip1⟩ | ht1 <;>
      rcases rassigned_cons_elim h2 with ⟨e2, f2, hf2, hip2⟩ | ht2
    · exact hinv.2 rn1 ifn1 rn2 ifn2 ip (e1 ▸ rassigned_head t hf1 hip1)
        (e2 ▸ rassigned_head t hf2 hip2)
    · rcases hprov rn2 ifn2 ip ht2 with hold | hfr
      · exact hinv.2 rn1 ifn1 rn2 ifn2 ip (e1 ▸ rassigned_head t hf1 hip1)
          (rassigned_cons hold)
      · exact absurd (hinv.1 rn1 ifn1 ip (e1 ▸ rassigned_head t hf1 hip1)) hfr
    · rcases hprov rn1 ifn1 ip ht1 with hold | hfr
      · exact hinv.2 rn1 ifn1 rn2 ifn2 ip (rassigned_cons hold)
          (e2 ▸ rassigned_head t hf2 hip2)
      · exact absurd (hinv.1 rn2 ifn2 ip (e2 ▸ rassigned_head t hf2 hip2)) hfr
    · exact hinv'.2 rn1 ifn1 rn2 ifn2 ip ht1 ht2
  · intro rn ifn ip hra
    rcases rassigned_cons_elim hra with ⟨h1, f, hf, hfip⟩ | hrt
    · exact Or.inl (h1 ▸ rassigned_head t hf hfip)
    · rcases hprov rn ifn ip hrt with hold | hfr
      · exact Or.inl (rassigned_cons hold)
      · exact Or.inr hfr

theorem loopbackPass_inv :
    ∀ (rs : MplsCfg.Routers) (am : MplsCfg.AsMap) (out : MplsCfg.Routers × MplsCfg.AsMap),
      MplsCfg.loopbackPass rs am = .ok out →
      MplsCfg.PoolsOk am → MplsCfg.AllocInv am rs →
      MplsCfg.Evolves am out.2 ∧ MplsCfg.AllocInv out.2 out.1 ∧
      (∀ rn ifn ip, MplsCfg.RAssigned out.1 rn ifn ip →
        MplsCfg.RAssigned rs rn ifn ip ∨ ¬ MplsCfg.Consumed am ip) := by
  intro rs
  induction rs with
  | nil =>
    intro am out h hpo hinv
    rw [MplsCfg.loopbackPass] at h
    injection h with h
    subst h
    exact ⟨evolves_refl am, hinv, fun rn ifn ip hr => Or.inl hr⟩
  | cons q t ih =>
    obtain ⟨n, r⟩ := q
    intro am out h hpo hinv
    rw [MplsCfg.loopbackPass] at h
    cases hlo : dget r.interfaces "Loopback0" with
    | none =>
      simp only [hlo] at h
      obtain ⟨⟨t', am'⟩, hrec, h⟩ := exc_bindM_ok h
      injection h with h
      subst h
      obtain ⟨hev, hinv', hprov⟩ := ih am (t', am') hrec hpo (allocInv_tail hinv)
      exact loopbackPass_inv_nodraw am n r t t' am' hinv hev hinv' hprov
    | some lo =>
      simp only [hlo] at h
      cases ha : dget am r.asNumber with
      | none => simp only [ha] at h; exact Except.noConfusion h
      | some a =>
        simp only [ha] at h
        by_cases hbk : (a.backbone && a.loopbackPool.isSome) = true
        · rw [if_pos hbk] at h
          cases hd : MplsCfg.drawLoopback a with
          | error e => simp only [hd] at h; exact Except.noConfusion h
          | ok pr =>
            obtain ⟨ip0, a1⟩ := pr
            simp only [hd] at h
            obtain ⟨⟨t', am''⟩, hrec, h⟩ := exc_bindM_ok h
            injection h with h
            subst h
            obtain ⟨c, hc, hip, ha1⟩ := drawLoopback_ok a ip0 a1 hd
            subst ha1
            have hfresh : ¬ MplsCfg.Consumed am ip0 :=
              loopDraw_fresh am hpo r.asNumber a ha c ip0 hc hip
            have hev1 : MplsCfg.Evolves am
                (dsetD am r.asNumber { a with loopbackCursor := a.loopbackCursor + 1 }) :=
              evolves_set am r.asNumber a _ ha rfl rfl (Nat.le_succ _) (Nat.le_refl _)
            have hnew : MplsCfg.Consumed
                (dsetD am r.asNumber { a with loopbackCursor := a.loopbackCursor + 1 }) ip0 :=
              ⟨r.asNumber, _, dget_dsetD_self am r.asNumber _,
                Or.inl ⟨c, hc, a.loopbackCursor, Nat.lt_succ_self _, hip⟩⟩
            obtain ⟨hev2, hinv', hprov⟩ := ih _ (t', am'') hrec (poolsOk_evolves hpo hev1)
              (allocInv_mono hev1 (allocInv_tail hinv))
            have hev : MplsCfg.Evolves am am'' := evolves_trans hev1 hev2
            have hhead : ∀ ifn (f : MplsCfg.Iface) ip1,
                dget (dsetD r.interfaces "Loopback0"
                  { lo with ip_address := some ip0, ip_mask := some maskFull }) ifn = some f →
                f.ip_address = some ip1 →
                (ifn = "Loopback0" ∧ ip1 = ip0) ∨
                (∃ f0, dget r.interfaces ifn = some f0 ∧ f0.ip_address = some ip1) := by
              intro ifn f ip1 hf hip1
              by_cases hi : ifn = "Loopback0"
              · subst hi
                rw [dget_dsetD_self] at hf
                injection hf with hf
                rw [← hf] at hip1
                have hsame : some ip0 = some ip1 := hip1
                injection hsame with hsame
                exact Or.inl ⟨rfl, hsame.symm⟩
              · rw [dget_dsetD_ne _ _ _ _ hi] at hf
                exact Or.inr ⟨f, hf, hip1⟩
            refine ⟨hev, ⟨?_, ?_⟩, ?_⟩
            · intro rn ifn ip hra
              rcases rassigned_cons_elim hra with ⟨h1, f, hf, hfip⟩ | hrt
              · rcases hhead ifn f ip hf hfip with ⟨hif, hipe⟩ | ⟨f0, hf0, hip0'⟩
                · rw [hipe]
                  exact consumed_mono hev2 ip0 hnew
                · exact consumed_mono hev ip (hinv.1 rn ifn ip
                    ⟨(n, r), List.mem_cons_self _ _, h1, f0, hf0, hip0'⟩)
              · exact hinv'.1 rn ifn ip hrt
            · intro rn1 ifn1 rn2 ifn2 ip h1 h2
              rcases rassigned_cons_elim h1 with ⟨e1, f1, hf1, hip1⟩ | ht1 <;>
                rcases rassigned_cons_elim h2 with ⟨e2, f2, hf2, hip2⟩ | ht2
              · rcases hhead ifn1 f1 ip hf1 hip1 with ⟨hi1, hp1⟩ | ⟨f01, hf01, hip01⟩ <;>
                  rcases hhead ifn2 f2 ip hf2 hip2 with ⟨hi2, hp2⟩ | ⟨f02, hf02, hip02⟩
                · constructor
                  · rw [← e1, ← e2]
                  · rw [hi1, hi2]
                · exfalso
                  exact hfresh (hp1 ▸ hinv.1 rn2 ifn2 ip
                    ⟨(n, r), List.mem_cons_self _ _, e2, f02, hf02, hip02⟩)
                · exfalso
                  exact hfresh (hp2 ▸ hinv.1 rn1 ifn1 ip
                    ⟨(n, r), List.mem_cons_self _ _, e1, f01, hf01, hip01⟩)
                · exact hinv.2 rn1 ifn1 rn2 ifn2 ip
                    ⟨(n, r), List.mem_cons_self _ _, e1, f01, hf01, hip01⟩
                    ⟨(n, r), List.mem_cons_self _ _, e2, f02, hf02, hip02⟩
              · rcases hprov rn2 ifn2 ip ht2 with hold2 | hfr2
                · rcases hhead ifn1 f1 ip hf1 hip1 with ⟨hi1, hp1⟩ | ⟨f01, hf01, hip01⟩
                  · exfalso
                    exact hfresh (hp1 ▸ hinv.1 rn2 ifn2 ip (rassigned_cons hold2))
                  · exact hinv.2 rn1 ifn1 rn2 ifn2 ip
                      ⟨(n, r), List.mem_cons_self _ _, e1, f01, hf01, hip01⟩
                      (rassigned_cons hold2)
                · rcases hhead ifn1 f1 ip hf1 hip1 with ⟨hi1, hp1⟩ | ⟨f01, hf01, hip01⟩
                  · exact absurd (hp1.symm ▸ hnew) hfr2
                  · exfalso
                    exact hfr2 (consumed_mono hev1 ip (hinv.1 rn1 ifn1 ip
                      ⟨(n, r), List.mem_cons_self _ _, e1, f01, hf01, hip01⟩))
              · rcases hprov rn1 ifn1 ip ht1 with hold1 | hfr1
                · rcases hhead ifn2 f2 ip hf2 hip2 with ⟨hi2, hp2⟩ | ⟨f02, hf02, hip02⟩
                  · exfalso
                    exact hfresh (hp2 ▸ hinv.1 rn1 ifn1 ip (rassigned_cons hold1))
                  · exact hinv.2 rn1 ifn1 rn2 ifn2 ip (rassigned_cons hold1)
                      ⟨(n, r), List.mem_cons_self _ _, e2, f02, hf02, hip02⟩
                · rcases hhead ifn2 f2 ip hf2 hip2 with ⟨hi2, hp2⟩ | ⟨f02, hf02, hip02⟩
                  · exact absurd (hp2.symm ▸ hnew) hfr1
                  · exfalso
                    exact hfr1 (consumed_mono hev1 ip (hinv.1 rn2 ifn2 ip
                      ⟨(n, r), List.mem_cons_self _ _, e2, f02, hf02, hip02⟩))
              · exact hinv'.2 rn1 ifn1 rn2 ifn2 ip ht1 ht2
            · intro rn ifn ip hra
              rcases rassigned_cons_elim hra with ⟨h1, f, hf, hfip⟩ | hrt
              · rcases hhead ifn f ip hf hfip with ⟨hif, hipe⟩ | ⟨f0, hf0, hip0'⟩
                · exact Or.inr (hipe.symm ▸ hfresh)
                · exact Or.inl ⟨(n, r), List.mem_cons_self _ _, h1, f0, hf0, hip0'⟩
              · rcases hprov rn ifn ip hrt with hold | hfr
                · exact Or.inl (rassigned_cons hold)
                · exact Or.inr (fun hcon => hfr (consumed_mono hev1 ip hcon))
        · rw [if_neg hbk] at h
          obtain ⟨⟨t', am'⟩, hrec, h⟩ := exc_bindM_ok h
          injection h with h
          subst h
          obtain ⟨hev, hinv', hprov⟩ := ih am (t', am') hrec hpo (allocInv_tail hinv)
          exact loopbackPass_inv_nodraw am n r t t' am' hinv hev hinv' hprov

theorem physPass_inv (bb : Nat) :
    ∀ (links : List (List Endpoint)) (am : MplsCfg.AsMap) (rs : MplsCfg.Routers)
      (out : MplsCfg.AsMap × MplsCfg.Routers),
      MplsCfg.physPass bb links am rs = .ok out →
      MplsCfg.PoolsOk am → MplsCfg.AllocInv am rs →
      MplsCfg.Evolves am out.1 ∧ MplsCfg.AllocInv out.1 out.2 := by
  intro links
  induction links with
  | nil =>
    intro am rs out h hpo hinv
    rw [MplsCfg.physPass] at h
    injection h with h
    subst h
    exact ⟨evolves_refl am, hinv⟩
  | cons eps rest ih =>
    intro am rs out h hpo hinv
    rw [MplsCfg.physPass] at h
    obtain ⟨isCe, hany, h⟩ := exc_bindM_ok h
    obtain ⟨⟨base, am'⟩, hdraw, h⟩ := exc_bindM_ok h
    obtain ⟨rs1, hassign, h⟩ := exc_bindM_ok h
    have hdr : ∃ n0 a c, dget am n0 = some a ∧ a.physicalPool = some c ∧ c.plen ≤ 24 ∧
        subnetAt c a.physicalCursor = some base ∧
        am' = dsetD am n0 { a with physicalCursor := a.physicalCursor + 1 } := by
      cases isCe with
      | true =>
        rw [if_pos rfl] at hdraw
        obtain ⟨ce, hce, hdraw⟩ := exc_bindM_ok hdraw
        cases hcr : dget rs ce.router with
        | none => simp only [hcr] at hdraw; exact Except.noConfusion hdraw
        | some cr =>
          simp only [hcr] at hdraw
          cases hax : dget am cr.asNumber with
          | none => simp only [hax] at hdraw; exact Except.noConfusion hdraw
          | some a =>
            simp only [hax] at hdraw
            obtain ⟨⟨b0, a'⟩, hd, hdraw⟩ := exc_bindM_ok hdraw
            injection hdraw with hdraw
            obtain ⟨c, hc, hple, hsb, ha'⟩ := drawPhysical_ok a b0 a' hd
            subst ha'
            injection hdraw with hd1 hd2
            subst hd1
            exact ⟨cr.asNumber, a, c, hax, hc, hple, hsb, hd2.symm⟩
      | false =>
        rw [if_neg (by decide : ¬(false = true))] at hdraw
        cases hax : dget am bb with
        | none => simp only [hax] at hdraw; exact Except.noConfusion hdraw
        | some a =>
          simp only [hax] at hdraw
          obtain ⟨⟨b0, a'⟩, hd, hdraw⟩ := exc_bindM_ok hdraw
          injection hdraw with hdraw
          obtain ⟨c, hc, hple, hsb, ha'⟩ := drawPhysical_ok a b0 a' hd
          subst ha'
          injection hdraw with hd1 hd2
          subst hd1
          exact ⟨bb, a, c, hax, hc, hple, hsb, hd2.symm⟩
    obtain ⟨n0, a, c, ha, hc, hple, hsb, ham'⟩ := hdr
    subst ham'
    have hfreshB : ∀ x, base ≤ x → x < base + 256 → ¬ MplsCfg.Consumed am x :=
      physDraw_fresh am hpo n0 a ha c base hc hple hsb
    have hev1 : MplsCfg.Evolves am
        (dsetD am n0 { a with physicalCursor := a.physicalCursor + 1 }) :=
      evolves_set am n0 a _ ha rfl rfl (Nat.le_refl _) (Nat.le_succ _)
    have hnewB : ∀ x, base ≤ x → x < base + 256 →
        MplsCfg.Consumed (dsetD am n0 { a with physicalCursor := a.physicalCursor + 1 }) x := by
      intro x h1 h2
      exact ⟨n0, _, dget_dsetD_self am n0 _,
        Or.inr ⟨c, hc, hple, a.physicalCursor, base, Nat.lt_succ_self _, hsb, h1, h2⟩⟩
    have hinv1 : MplsCfg.AllocInv
        (dsetD am n0 { a with physicalCursor := a.physicalCursor + 1 }) rs1 := by
      constructor
      · intro rn ifn ip hra
        rcases assignEps_spec isCe base eps 0 rs rs1 hassign rn ifn ip hra with
          hold | ⟨j, ep', hj, hjr, hji, hjip, hjlt⟩
        · exact consumed_mono hev1 ip (hinv.1 rn ifn ip hold)
        · exact hnewB ip (by omega) (by omega)
      · intro rn1 ifn1 rn2 ifn2 ip h1 h2
        rcases assignEps_spec isCe base eps 0 rs rs1 hassign rn1 ifn1 ip h1 with
          hold1 | ⟨j1, ep1, hj1, hr1, hi1, hip1, hlt1⟩ <;>
          rcases assignEps_spec isCe base eps 0 rs rs1 hassign rn2 ifn2 ip h2 with
            hold2 | ⟨j2, ep2, hj2, hr2, hi2, hip2, hlt2⟩
        · exact hinv.2 rn1 ifn1 rn2 ifn2 ip hold1 hold2
        · exact absurd (hinv.1 rn1 ifn1 ip hold1) (hfreshB ip (by omega) (by omega))
        · exact absurd (hinv.1 rn2 ifn2 ip hold2) (hfreshB ip (by omega) (by omega))
        · have hj : j1 = j2 := by omega
          subst hj
          rw [hj1] at hj2
          injection hj2 with hj2
          subst hj2
          exact ⟨hr1 ▸ hr2, hi1 ▸ hi2⟩
    obtain ⟨hev2, hinv2⟩ := ih _ rs1 out h (poolsOk_evolves hpo hev1) hinv1
    exact ⟨evolves_trans hev1 hev2, hinv2⟩

/-- C6 (amended): in MPLSConfig, when every declared loopback pool is disjoint
    from every physical pool and pools of different AS map entries never
    overlap, a successful build assigns no address twice: any two interface
    slots of the built model carrying the same address are the same slot.  In
    NetworkConfigGenerator the CE loopback fallback copies the private
    network's address with no uniqueness check, so the claim fails there (see
    the counterexample). -/
theorem C6_amended (it : Intent) (m : MplsCfg.Model)
    (hb : MplsCfg.build it = .ok m)
    (hpo : MplsCfg.PoolsOk (MplsCfg.initAs it.asL)) :
    ∀ rn1 r1 ifn1 f1 rn2 r2 ifn2 f2 ip,
      dget m.routers rn1 = some r1 → dget r1.interfaces ifn1 = some f1 →
      dget m.routers rn2 = some r2 → dget r2.interfaces ifn2 = some f2 →
      f1.ip_address = some ip → f2.ip_address = some ip →
      rn1 = rn2 ∧ ifn1 = ifn2 := by
  rw [MplsCfg.build] at hb
  obtain ⟨bb, hbb, hb⟩ := exc_bindM_ok hb
  obtain ⟨rs, hrs, hb⟩ := exc_bindM_ok hb
  obtain ⟨⟨rs1, am1⟩, hlp, hb⟩ := exc_bindM_ok hb
  obtain ⟨⟨am2, rs2⟩, hpp, hb⟩ := exc_bindM_ok hb
  injection hb with hb
  obtain ⟨hev1, hinv1, hprov1⟩ := loopbackPass_inv rs (MplsCfg.initAs it.asL) (rs1, am1) hlp
    hpo (allocInv_init _ rs (initRouters_unassigned it _ bb rs hrs))
  obtain ⟨hev2, hinv2⟩ := physPass_inv bb it.subnets am1 rs1 (am2, rs2) hpp
    (poolsOk_evolves hpo hev1) hinv1
  intro rn1 r1 ifn1 f1 rn2 r2 ifn2 f2 ip h1 h2 h3 h4 h5 h6
  have hm : m.routers = rs2 := by rw [← hb]
  rw [hm] at h1 h3
  exact hinv2.2 rn1 ifn1 rn2 ifn2 ip
    ⟨(rn1, r1), dget_mem rs2 rn1 r1 h1, rfl, f1, h2, h5⟩
    ⟨(rn2, r2), dget_mem rs2 rn2 r2 h3, rfl, f2, h4, h6⟩

/-- C6 (witness): at fixture J the pools satisfy the disjointness hypothesis,
    the build succeeds, and the uniqueness theorem applies to the assigned
    Loopback0 address of PE1. -/
theorem C6_witness :
    MplsCfg.PoolsOk (MplsCfg.initAs fxJ.asL) ∧
    MplsCfg.build fxJ = .ok fxJM ∧
    dget fxJM.routers "PE1" = some fxJPe ∧
    dget fxJPe.interfaces "Loopback0" = some fxJLo ∧
    fxJLo.ip_address = some 167772161 ∧
    ("PE1" = "PE1" ∧ "Loopback0" = "Loopback0") := by
  have hpo : MplsCfg.PoolsOk (MplsCfg.initAs fxJ.asL) := by
    intro n a hn n' a' hn'
    obtain ⟨he1, he2⟩ := dget_singleton 65000 (MplsCfg.mkAS bbAs) n a hn
    obtain ⟨he3, he4⟩ := dget_singleton 65000 (MplsCfg.mkAS bbAs) n' a' hn'
    subst he1
    subst he3
    subst he2
    subst he4
    constructor
    · intro lp pp hl hp
      injection hl with hl
      injection hp with hp
      subst hl
      subst hp
      intro x hx1 hx2
      norm_num [inPool, Cidr.size] at hx1 hx2
      omega
    · intro hne
      exact absurd rfl hne
  refine ⟨hpo, rfl, rfl, rfl, rfl, ?_⟩
  exact C6_amended fxJ fxJM rfl hpo "PE1" fxJPe "Loopback0" fxJLo "PE1" fxJPe "Loopback0"
    fxJLo 167772161 rfl rfl rfl rfl rfl rfl

/-- C6 (counterexample): in NetworkConfigGenerator, fixture F has pairwise
    disjoint pools yet the build assigns the same address 172.16.5.0 to the
    Loopback0 interfaces of the two distinct CE routers, because the CE
    fallback copies the (shared) private network address unchecked. -/
theorem C6_counterexample :
    Ncg.ngBuild fxF = .ok fxFSt ∧
    (∃ i1, Ncg.nifaceOf fxFSt "CE1" "Loopback0" = some i1 ∧ i1.ip = some 2886731008) ∧
    (∃ i2, Ncg.nifaceOf fxFSt "CE2" "Loopback0" = some i2 ∧ i2.ip = some 2886731008) ∧
    ("CE1" : String) ≠ "CE2" ∧
    Disjoint2 ⟨167772160, 24⟩ ⟨167837696, 16⟩ ∧
    Disjoint2 ⟨167772160, 24⟩ ⟨3232235520, 24⟩ ∧
    Disjoint2 ⟨167837696, 16⟩ ⟨3232235520, 24⟩ := by
  refine ⟨rfl, ⟨_, rfl, rfl⟩, ⟨_, rfl, rfl⟩, by decide, ?_, ?_, ?_⟩ <;>
    · intro x hx1 hx2
      norm_num [inPool, Cidr.size] at hx1 hx2
      omega
